import Mathlib

/-!
# exa-cli: response reshaping, stream decoding, error classification, request building

A shallow embedding of the core of `roboalchemist/exa-cli` (Go):

* `pkg/output/fields.go`  : `FilterFields`, `filterMap`
* `pkg/output/errors.go`  : `toStructuredError`
* `pkg/output/output.go`, `pkg/output/jq.go` : `renderJSONOutput`, `RunJQ`
* `pkg/api/client.go`     : `doJSON`, `AnswerStream`, `truncate`
* `pkg/api/types.go`      : request structures and their `json` struct tags
* `pkg/auth/auth.go`      : `GetAPIKey`, `loadAuth`
* `cmd/search.go`, `cmd/contents.go`, `cmd/similar.go`, `cmd/context.go` :
  the request built by `runSearch`, `runContents`, `runSimilar`, `runContext`
* `cmd/usage.go`          : the table and totals built by `runUsage`

Conventions of the embedding.

* A Go `string` is a Lean `String`.  In `pkg/api/client.go` and
  `pkg/output/errors.go`, whose string operations (`len`, slicing,
  `strings.Contains`, `strings.HasPrefix`) work on bytes, a `String` stands for
  the byte string, one unit per byte; in `pkg/output/fields.go`, whose
  `strings.TrimSpace` works on runes, it stands for the rune sequence.  The two
  views coincide on ASCII text, which is what every marker and format string
  of the program is.
* A Go `int` is an `Int`; where the program adds such values (`cmd/usage.go`)
  the result is reduced to the signed 64-bit range.
* A Go `float64` that is computed with is a value of a type parameter, with
  the addition and the formatting taken as given operations.
* A Go `map[string]interface{}` is an association list of entries; a Go
  `interface{}` holding decoded JSON is a `JSON` tree.
* `json.Unmarshal` into `interface{}` reads every number as a `float64`; the
  reading of one number literal (`strconv.ParseFloat`, which rounds and can
  fail) is a given operation, `NumberDecoder`.
* Functions of the Go standard library (`strings.*`, `encoding/json`) are
  modelled by their documented contract.
-/

namespace ExaCli

/-! ## JSON values -/

/-- A JSON value as produced by `json.Marshal` and read back by `json.Unmarshal`
into `interface{}`.  A number is the decimal `mantissa * 10 ^ exponent`: in a
document as `json.Marshal` renders it this is the literal of the text, in a
value read back into `interface{}` it is the `float64` as `json.Marshal` prints
it.  An object is the list of its entries (a Go map: keys are distinct). -/
inductive JSON where
  | null : JSON
  | bool (b : Bool) : JSON
  | num (mantissa : Int) (exponent : Int) : JSON
  | str (s : String) : JSON
  | arr (items : List JSON) : JSON
  | obj (entries : List (String × JSON)) : JSON

/-! ## Go `strings` helpers -/

/-- Go `unicode.IsSpace`: the Latin-1 spaces and the code points with the
Unicode White_Space property. -/
def isSpace (c : Char) : Bool :=
  let n := c.toNat
  n == 0x09 || n == 0x0A || n == 0x0B || n == 0x0C || n == 0x0D || n == 0x20 ||
  n == 0x85 || n == 0xA0 || n == 0x1680 || (0x2000 ≤ n && n ≤ 0x200A) ||
  n == 0x2028 || n == 0x2029 || n == 0x202F || n == 0x205F || n == 0x3000

/-- Go `strings.TrimSpace`: remove all leading and trailing white space. -/
def TrimSpace (s : String) : String :=
  String.mk ((s.data.dropWhile isSpace).reverse.dropWhile isSpace).reverse

/-- Split a unit sequence at every occurrence of `sep`; always yields at least one piece. -/
def splitChars (sep : Char) : List Char → List (List Char)
  | [] => [[]]
  | c :: cs =>
    if c = sep then [] :: splitChars sep cs
    else
      match splitChars sep cs with
      | [] => [[c]]
      | w :: ws => (c :: w) :: ws

/-- Go `strings.Split(s, ",")`. -/
def SplitComma (s : String) : List String :=
  (splitChars ',' s.data).map String.mk

/-- Go `strings.HasPrefix`. -/
def HasPrefix (s pre : String) : Bool :=
  pre.data.isPrefixOf s.data

/-- Go `strings.TrimPrefix`: `s` without the leading `pre`, or `s` itself when
it does not start with `pre`. -/
def TrimPrefix (s pre : String) : String :=
  if HasPrefix s pre then String.mk (s.data.drop pre.data.length) else s

/-- Go `strings.Contains`: `substr` occurs within `s`. -/
def Contains (s substr : String) : Bool :=
  decide (substr.data <:+: s.data)

/-- Go `strings.TrimLeft(s, cutset)`. -/
def TrimLeft (s cutset : String) : String :=
  String.mk (s.data.dropWhile (fun c => cutset.data.contains c))

/-! ## `pkg/output/fields.go` -/

/-- The set `fieldList` built at the top of `FilterFields`
(`fieldList[strings.TrimSpace(f)] = true` for each piece of
`strings.Split(fields, ",")`), as the list of its keys. -/
def fieldList (fields : String) : List String :=
  (SplitComma fields).map TrimSpace

/-- Go `filterMap`: copy into a fresh map the entries of `m` whose key is
marked in `fields`. -/
def filterMap : List (String × JSON) → List String → List (String × JSON)
  | [], _ => []
  | (k, v) :: rest, fields =>
    if fields.contains k then (k, v) :: filterMap rest fields
    else filterMap rest fields

/-- How `encoding/json` reads a number into `interface{}`: `convertNumber` calls
`strconv.ParseFloat(s, 64)` and the value becomes a `float64`.
`convertNumber m e` is the outcome for the literal `m * 10 ^ e`: the decimal
that `json.Marshal` prints for that `float64`, or the error of `json.Unmarshal`
(`json: cannot unmarshal number ... into Go value of type float64`) when the
literal is outside the `float64` range.  `convertNumber_fixed` is the round-trip
law of that printing: the decimal printed for a `float64` reads back as the
same `float64`. -/
structure NumberDecoder where
  convertNumber : Int → Int → Except String (Int × Int)
  convertNumber_fixed : ∀ m e p, convertNumber m e = .ok p → convertNumber p.1 p.2 = .ok p

mutual
/-- Go `json.Unmarshal(raw, &v)` with `v interface{}`: the tree with every number
read as a `float64`; the error is that of the first number, in document order,
that is outside the `float64` range. -/
def unmarshalValue (nd : NumberDecoder) : JSON → Except String JSON
  | .null => .ok .null
  | .bool b => .ok (.bool b)
  | .num m e =>
    match nd.convertNumber m e with
    | .ok p => .ok (.num p.1 p.2)
    | .error err => .error err
  | .str s => .ok (.str s)
  | .arr items =>
    match unmarshalList nd items with
    | .ok xs => .ok (.arr xs)
    | .error err => .error err
  | .obj entries =>
    match unmarshalEntries nd entries with
    | .ok es => .ok (.obj es)
    | .error err => .error err
/-- The elements of an array, read into `[]interface{}`. -/
def unmarshalList (nd : NumberDecoder) : List JSON → Except String (List JSON)
  | [] => .ok []
  | x :: rest =>
    match unmarshalValue nd x with
    | .error err => .error err
    | .ok y =>
      match unmarshalList nd rest with
      | .error err => .error err
      | .ok ys => .ok (y :: ys)
/-- The entries of an object, read into `map[string]interface{}`. -/
def unmarshalEntries (nd : NumberDecoder) :
    List (String × JSON) → Except String (List (String × JSON))
  | [] => .ok []
  | (k, v) :: rest =>
    match unmarshalValue nd v with
    | .error err => .error err
    | .ok w =>
      match unmarshalEntries nd rest with
      | .error err => .error err
      | .ok es => .ok ((k, w) :: es)
end

/-- Element-wise part of decoding a JSON array into `[]map[string]interface{}`:
every element must be an object whose values can be read, or `null` (a `null`
element becomes a nil map, which ranges like the empty map). -/
def unmarshalMapItems (nd : NumberDecoder) : List JSON → Option (List (List (String × JSON)))
  | [] => some []
  | .obj m :: rest =>
    match unmarshalEntries nd m with
    | .ok m' => (unmarshalMapItems nd rest).map (fun ms => m' :: ms)
    | .error _ => none
  | .null :: rest => (unmarshalMapItems nd rest).map (fun ms => [] :: ms)
  | _ :: _ => none

/-- Go `json.Unmarshal(raw, &arr)` with `arr []map[string]interface{}`: succeeds
on `null` (leaving the slice nil) and on an array each of whose elements is
`null` or an object all of whose numbers are within the `float64` range; fails
(`err != nil`) otherwise. -/
def unmarshalMapSlice (nd : NumberDecoder) : JSON → Option (List (List (String × JSON)))
  | .null => some []
  | .arr items => unmarshalMapItems nd items
  | _ => none

/-- Go `json.Unmarshal(raw, &obj)` with `obj map[string]interface{}`: succeeds on
`null` (nil map) and on an object all of whose numbers are within the `float64`
range; fails (`err != nil`) otherwise. -/
def unmarshalMap (nd : NumberDecoder) : JSON → Option (List (String × JSON))
  | .obj m =>
    match unmarshalEntries nd m with
    | .ok m' => some m'
    | .error _ => none
  | .null => some []
  | _ => none

/-- Go `FilterFields`.  `data` is the document as `json.Marshal` renders it (the
branch taken when `json.Marshal` fails returns `data` and is not reachable for
a document that is a JSON tree); what is filtered is the document as
`json.Unmarshal` reads it back, and when neither reading succeeds the last
statement returns `data` itself. -/
def FilterFields (nd : NumberDecoder) (data : JSON) (fields : String) : JSON :=
  if fields = "" then data
  else
    let fieldList := fieldList fields
    -- Try array first
    match unmarshalMapSlice nd data with
    | some arr => .arr (arr.map (fun item => .obj (filterMap item fieldList)))
    | none =>
      -- Try single object
      match unmarshalMap nd data with
      | some obj =>
        match obj.lookup "results" with
        | some (.arr resultsArr) =>
          .arr (resultsArr.map (fun item =>
            match item with
            | .obj m => .obj (filterMap m fieldList)
            | other => other))
        | _ => .obj (filterMap obj fieldList)
      | none => data

/-- A sample reading of number literals, agreeing with `strconv.ParseFloat` on
the numbers used below: `9007199254740993` (2^53 + 1) is read as the `float64`
`9007199254740992`, `1e400` is outside the range, and the other numbers used
(small integers, `0.9`, `0.5`) are printed as they were written. -/
def sampleConvertNumber (m e : Int) : Except String (Int × Int) :=
  if m = 9007199254740993 ∧ e = 0 then .ok (9007199254740992, 0)
  else if m = 1 ∧ e = 400 then
    .error "json: cannot unmarshal number 1e400 into Go value of type float64"
  else .ok (m, e)

/-- The sample number reader. -/
def sampleNumbers : NumberDecoder :=
  { convertNumber := sampleConvertNumber,
    convertNumber_fixed := by
      intro m e p h
      unfold sampleConvertNumber at h
      by_cases h1 : m = 9007199254740993 ∧ e = 0
      · rw [if_pos h1] at h
        cases h
        rfl
      · rw [if_neg h1] at h
        by_cases h2 : m = 1 ∧ e = 400
        · rw [if_pos h2] at h
          cases h
        · rw [if_neg h2] at h
          cases h
          unfold sampleConvertNumber
          rw [if_neg h1, if_neg h2] }

/-! ## `pkg/api/types.go` -/

/-- A Go `float64` field of a response, kept as the exact decimal
`mantissa * 10 ^ exponent` of its JSON literal.  The modelled code only copies
such values. -/
structure Decimal where
  mantissa : Int
  exponent : Int
  deriving DecidableEq, Repr

/-- Go `Subpage`. -/
structure Subpage where
  URL : String := ""
  Text : String := ""
  deriving DecidableEq, Repr

/-- Go `SearchResult`. -/
structure SearchResult where
  Title : String := ""
  URL : String := ""
  ID : String := ""
  PublishedDate : String := ""
  Author : String := ""
  Score : Decimal := ⟨0, 0⟩
  Image : String := ""
  Favicon : String := ""
  Text : String := ""
  Highlights : List String := []
  HighlightScores : List Decimal := []
  Summary : String := ""
  Subpages : List Subpage := []
  deriving DecidableEq, Repr

/-- Go `CostBreakdown`. -/
structure CostBreakdown where
  Amount : Decimal := ⟨0, 0⟩
  deriving DecidableEq, Repr

/-- Go `CostInfo`; a nil pointer is `none`. -/
structure CostInfo where
  Total : Decimal := ⟨0, 0⟩
  Search : Option CostBreakdown := none
  Contents : Option CostBreakdown := none
  Neural : Option CostBreakdown := none
  deriving DecidableEq, Repr

/-- Go `AnswerResponse`.  `Citations` is a slice: `none` is the nil slice,
`some []` an empty slice that is not nil. -/
structure AnswerResponse where
  RequestID : String := ""
  Answer : String := ""
  Citations : Option (List SearchResult) := none
  CostDollars : Option CostInfo := none
  deriving DecidableEq, Repr

/-- Go `AnswerStreamChunk` (`Type_` is the Go field `Type`). -/
structure AnswerStreamChunk where
  Type_ : String := ""
  Text : String := ""
  Answer : String := ""
  Citations : Option (List SearchResult) := none
  CostDollars : Option CostInfo := none
  deriving DecidableEq, Repr

/-- Go `TextSpec`. -/
structure TextSpec where
  MaxCharacters : Int := 0
  IncludeHtmlTags : Bool := false
  deriving DecidableEq, Repr

/-- Go `HighlightsSpec`. -/
structure HighlightsSpec where
  NumSentences : Int := 0
  HighlightsPerURL : Int := 0
  Query : String := ""
  deriving DecidableEq, Repr

/-- Go `SummarySpec`. -/
structure SummarySpec where
  Query : String := ""
  deriving DecidableEq, Repr

/-- Go `ExtrasSpec`. -/
structure ExtrasSpec where
  Links : Bool := false
  ImageLinks : Bool := false
  deriving DecidableEq, Repr

/-- Go `ContentsSpec`; pointer fields are options, slices are lists. -/
structure ContentsSpec where
  Text : Option TextSpec := none
  Highlights : Option HighlightsSpec := none
  Summary : Option SummarySpec := none
  Livecrawl : String := ""
  Subpages : Int := 0
  SubpageTarget : List String := []
  Extras : Option ExtrasSpec := none
  deriving DecidableEq, Repr

/-- Go `SearchRequest` (`Type_` is the Go field `Type`). -/
structure SearchRequest where
  Query : String := ""
  Type_ : String := ""
  NumResults : Int := 0
  Category : String := ""
  IncludeDomains : List String := []
  ExcludeDomains : List String := []
  StartPublishedDate : String := ""
  EndPublishedDate : String := ""
  StartCrawlDate : String := ""
  EndCrawlDate : String := ""
  IncludeText : String := ""
  ExcludeText : String := ""
  Moderation : Option Bool := none
  Contents : Option ContentsSpec := none
  deriving DecidableEq, Repr

/-- Go `ContentsRequest`. -/
structure ContentsRequest where
  IDs : List String := []
  URLs : List String := []
  Text : Option TextSpec := none
  Highlights : Option HighlightsSpec := none
  Summary : Option SummarySpec := none
  Livecrawl : String := ""
  Subpages : Int := 0
  deriving DecidableEq, Repr

/-! ### `json.Marshal` of the request structures

`encoding/json` writes the fields of a struct in declaration order under the name
of the `json` tag; a field tagged `omitempty` is left out when it is `false`, `0`,
a nil pointer, or an empty string or slice. -/

/-- The value of key `k` in a JSON object (`none` when absent or not an object). -/
def JSON.get? (j : JSON) (k : String) : Option JSON :=
  match j with
  | .obj entries => entries.lookup k
  | _ => none

/-- A `string` field tagged `omitempty`. -/
def omitEmptyString (name : String) (s : String) : List (String × JSON) :=
  if s = "" then [] else [(name, .str s)]

/-- An `int` field tagged `omitempty`. -/
def omitEmptyInt (name : String) (n : Int) : List (String × JSON) :=
  if n = 0 then [] else [(name, .num n 0)]

/-- A `bool` field tagged `omitempty`. -/
def omitEmptyBool (name : String) (b : Bool) : List (String × JSON) :=
  if b then [(name, .bool true)] else []

/-- A `[]string` field tagged `omitempty`. -/
def omitEmptyStrings (name : String) (xs : List String) : List (String × JSON) :=
  if xs.isEmpty then [] else [(name, .arr (xs.map JSON.str))]

/-- A pointer field tagged `omitempty`, rendered by `f` when not nil. -/
def omitNil {α : Type} (name : String) (p : Option α) (f : α → JSON) : List (String × JSON) :=
  match p with
  | none => []
  | some v => [(name, f v)]

/-- Rendering of `TextSpec` by `json.Marshal`. -/
def TextSpec.marshal (t : TextSpec) : JSON :=
  .obj (omitEmptyInt "maxCharacters" t.MaxCharacters ++
        omitEmptyBool "includeHtmlTags" t.IncludeHtmlTags)

/-- Rendering of `HighlightsSpec` by `json.Marshal`. -/
def HighlightsSpec.marshal (h : HighlightsSpec) : JSON :=
  .obj (omitEmptyInt "numSentences" h.NumSentences ++
        omitEmptyInt "highlightsPerUrl" h.HighlightsPerURL ++
        omitEmptyString "query" h.Query)

/-- Rendering of `SummarySpec` by `json.Marshal`. -/
def SummarySpec.marshal (s : SummarySpec) : JSON :=
  .obj (omitEmptyString "query" s.Query)

/-- Rendering of `ExtrasSpec` by `json.Marshal`. -/
def ExtrasSpec.marshal (e : ExtrasSpec) : JSON :=
  .obj (omitEmptyBool "links" e.Links ++ omitEmptyBool "imageLinks" e.ImageLinks)

/-- Rendering of `ContentsSpec` by `json.Marshal`. -/
def ContentsSpec.marshal (c : ContentsSpec) : JSON :=
  .obj (omitNil "text" c.Text TextSpec.marshal ++
        omitNil "highlights" c.Highlights HighlightsSpec.marshal ++
        omitNil "summary" c.Summary SummarySpec.marshal ++
        omitEmptyString "livecrawl" c.Livecrawl ++
        omitEmptyInt "subpages" c.Subpages ++
        omitEmptyStrings "subpageTarget" c.SubpageTarget ++
        omitNil "extras" c.Extras ExtrasSpec.marshal)

/-- Rendering of `SearchRequest` by `json.Marshal`; `query` has no `omitempty`. -/
def SearchRequest.marshal (r : SearchRequest) : JSON :=
  .obj ([("query", .str r.Query)] ++
        omitEmptyString "type" r.Type_ ++
        omitEmptyInt "numResults" r.NumResults ++
        omitEmptyString "category" r.Category ++
        omitEmptyStrings "includeDomains" r.IncludeDomains ++
        omitEmptyStrings "excludeDomains" r.ExcludeDomains ++
        omitEmptyString "startPublishedDate" r.StartPublishedDate ++
        omitEmptyString "endPublishedDate" r.EndPublishedDate ++
        omitEmptyString "startCrawlDate" r.StartCrawlDate ++
        omitEmptyString "endCrawlDate" r.EndCrawlDate ++
        omitEmptyString "includeText" r.IncludeText ++
        omitEmptyString "excludeText" r.ExcludeText ++
        omitNil "moderation" r.Moderation JSON.bool ++
        omitNil "contents" r.Contents ContentsSpec.marshal)

/-- Rendering of `ContentsRequest` by `json.Marshal`. -/
def ContentsRequest.marshal (r : ContentsRequest) : JSON :=
  .obj (omitEmptyStrings "ids" r.IDs ++
        omitEmptyStrings "urls" r.URLs ++
        omitNil "text" r.Text TextSpec.marshal ++
        omitNil "highlights" r.Highlights HighlightsSpec.marshal ++
        omitNil "summary" r.Summary SummarySpec.marshal ++
        omitEmptyString "livecrawl" r.Livecrawl ++
        omitEmptyInt "subpages" r.Subpages)

/-! ## `pkg/api/client.go` -/

/-- Go `truncate`. -/
def truncate (s : String) (max : Nat) : String :=
  if s.length ≤ max then s
  else String.mk (s.data.take max) ++ "..."

/-- Go `Client`; `debug` tells whether a debug function has been set
(`c.debug != nil`). -/
structure Client where
  baseURL : String
  apiKey : String := ""
  debug : Bool := false
  deriving DecidableEq, Repr

/-- Go `debugLog`: the messages handed to the debug function, none when it is nil. -/
def Client.debugLog (c : Client) (msg : String) : List String :=
  if c.debug then [msg] else []

/-- What the HTTP transport hands back: the status code, the bytes `io.ReadAll`
obtains from the body together with its error, and, for the streaming path, the
lines `bufio.Scanner` yields from the body together with `scanner.Err()`. -/
structure Response where
  StatusCode : Int
  Body : String := ""
  ReadErr : Option String := none
  Lines : List String := []
  ScanErr : Option String := none
  deriving DecidableEq, Repr

/-- Outcome of `doJSON`: the debug messages in order, the body handed to
`json.Unmarshal(respBody, result)` when that call is reached, and the returned
error message (`none` is the nil error). -/
structure CallResult where
  debug : List String
  unmarshalled : Option String
  err : Option String
  deriving DecidableEq, Repr

/-- Go `doJSON`.  `body` is `none` for a nil body and otherwise the outcome of
`json.Marshal(body)`; `newRequest` is the error of `http.NewRequestWithContext`;
`transport` the outcome of `httpClient.Do`; `result` is `none` for a nil result
and otherwise the error `json.Unmarshal` reports on a response body. -/
def doJSON (c : Client) (method endpoint : String) (body : Option (Except String String))
    (newRequest : Option String) (transport : Except String Response)
    (result : Option (String → Option String)) : CallResult :=
  let url := c.baseURL ++ "/" ++ TrimLeft endpoint "/"
  match body with
  | some (.error e) => ⟨[], none, some ("marshal request: " ++ e)⟩
  | body =>
    let log₁ :=
      match body with
      | some (.ok jsonBody) => c.debugLog (method ++ " " ++ url ++ " body=" ++ jsonBody)
      | _ => c.debugLog (method ++ " " ++ url)
    match newRequest with
    | some e => ⟨log₁, none, some ("create request: " ++ e)⟩
    | none =>
      match transport with
      | .error e => ⟨log₁, none, some ("request failed: " ++ e)⟩
      | .ok resp =>
        match resp.ReadErr with
        | some e => ⟨log₁, none, some ("read response: " ++ e)⟩
        | none =>
          let respBody := resp.Body
          let log₂ := log₁ ++ c.debugLog ("Response status: " ++ toString resp.StatusCode) ++
            c.debugLog ("Response body: " ++ truncate respBody 2000)
          if resp.StatusCode < 200 ∨ resp.StatusCode ≥ 300 then
            ⟨log₂, none, some ("API error (status " ++ toString resp.StatusCode ++ "): " ++
              truncate respBody 500)⟩
          else
            match result with
            | none => ⟨log₂, none, none⟩
            | some unmarshal =>
              match unmarshal respBody with
              | some e => ⟨log₂, some respBody, some ("parse response: " ++ e)⟩
              | none => ⟨log₂, some respBody, none⟩

/-- An observable effect of `AnswerStream`, in the order performed: a call of
the text callback, a call of the completion callback, a debug message. -/
inductive Effect where
  | text (s : String) : Effect
  | done (resp : AnswerResponse) : Effect
  | debug (msg : String) : Effect
  deriving DecidableEq, Repr

/-- The scanner loop of `AnswerStream` over the lines the scanner yields.
`unmarshal` is `json.Unmarshal([]byte(data), &chunk)`; `textFn` and `doneFn` tell
whether the respective callback is not nil. -/
def scanLoop (c : Client) (unmarshal : String → Except String AnswerStreamChunk)
    (textFn doneFn : Bool) : List String → List Effect
  | [] => []
  | line :: rest =>
    if HasPrefix line "data: " then
      let data := TrimPrefix line "data: "
      if data = "[DONE]" then []
      else
        match unmarshal data with
        | .error e =>
          (if c.debug then [Effect.debug ("Failed to parse SSE chunk: " ++ e)] else []) ++
            scanLoop c unmarshal textFn doneFn rest
        | .ok chunk =>
          (if chunk.Text ≠ "" ∧ textFn = true then [Effect.text chunk.Text] else []) ++
          (if chunk.Citations.isSome = true ∧ doneFn = true then
            [Effect.done { Answer := chunk.Answer, Citations := chunk.Citations,
                           CostDollars := chunk.CostDollars }]
           else []) ++
          scanLoop c unmarshal textFn doneFn rest
    else scanLoop c unmarshal textFn doneFn rest

/-- Outcome of `AnswerStream`: its effects in order and the returned error. -/
structure StreamResult where
  effects : List Effect
  err : Option String
  deriving DecidableEq, Repr

/-- Go `AnswerStream`.  `jsonBody` is the outcome of `json.Marshal(req)` (taken
after `req.StreamOutput = true`), `newRequest` the error of
`http.NewRequestWithContext`, `transport` the outcome of `streamClient.Do`. -/
def AnswerStream (c : Client) (jsonBody : Except String String) (newRequest : Option String)
    (transport : Except String Response)
    (unmarshal : String → Except String AnswerStreamChunk)
    (textFn doneFn : Bool) : StreamResult :=
  let url := c.baseURL ++ "/answer"
  match jsonBody with
  | .error e => ⟨[], some ("marshal request: " ++ e)⟩
  | .ok jsonBody =>
    let log := (c.debugLog ("POST " ++ url ++ " body=" ++ jsonBody)).map Effect.debug
    match newRequest with
    | some e => ⟨log, some ("create request: " ++ e)⟩
    | none =>
      match transport with
      | .error e => ⟨log, some ("request failed: " ++ e)⟩
      | .ok resp =>
        if resp.StatusCode < 200 ∨ resp.StatusCode ≥ 300 then
          ⟨log, some ("API error (status " ++ toString resp.StatusCode ++ "): " ++
            truncate resp.Body 500)⟩
        else
          ⟨log ++ scanLoop c unmarshal textFn doneFn resp.Lines, resp.ScanErr⟩

/-- The strings passed to the text callback, in order. -/
def textCalls : List Effect → List String
  | [] => []
  | .text s :: rest => s :: textCalls rest
  | _ :: rest => textCalls rest

/-- The responses passed to the completion callback, in order. -/
def doneCalls : List Effect → List AnswerResponse
  | [] => []
  | .done r :: rest => r :: doneCalls rest
  | _ :: rest => doneCalls rest

/-- The callback invocations (text and completion), in order, without the debug messages. -/
def callbacks : List Effect → List Effect
  | [] => []
  | .debug _ :: rest => callbacks rest
  | e :: rest => e :: callbacks rest

/-- Concatenation of strings in order. -/
def concat : List String → String
  | [] => ""
  | s :: rest => s ++ concat rest

/-- The payloads of the `data: ` lines that precede the first `data: [DONE]` line. -/
def dataPayloads (lines : List String) : List String :=
  (((lines.filter (fun l => HasPrefix l "data: ")).map (fun l => TrimPrefix l "data: "))).takeWhile
    (fun p => p ≠ "[DONE]")

/-- The chunks successfully parsed from the `data: ` lines that precede the
first `data: [DONE]` line, in input order. -/
def parsedChunks (unmarshal : String → Except String AnswerStreamChunk)
    (lines : List String) : List AnswerStreamChunk :=
  (dataPayloads lines).filterMap (fun p =>
    match unmarshal p with
    | .ok chunk => some chunk
    | .error _ => none)

/-- A decoder for sample payloads: it agrees with `json.Unmarshal` into an
`AnswerStreamChunk` on the three payloads it knows (`{"text":"Hello"}`,
`{"answer":"Hello world","citations":[]}`, `{"answer":"Hello","citations":[]}`) and on
`{"text":` (truncated, a syntax error); any other payload is reported as an error. -/
def sampleUnmarshal (data : String) : Except String AnswerStreamChunk :=
  if data = "\x7b\"text\":\"Hello\"\x7d" then .ok { Text := "Hello" }
  else if data = "\x7b\"answer\":\"Hello world\",\"citations\":[]\x7d" then
    .ok { Answer := "Hello world", Citations := some [] }
  else if data = "\x7b\"answer\":\"Hello\",\"citations\":[]\x7d" then
    .ok { Answer := "Hello", Citations := some [] }
  else .error "unexpected end of JSON input"

/-! ## `pkg/output/errors.go` -/

/-- Go `CLIError`. -/
structure CLIError where
  Code : String
  Message : String
  Recoverable : Bool := false
  Suggestion : String := ""
  deriving DecidableEq, Repr

/-- Go `toStructuredError`, on the message `err.Error()` of the error. -/
def toStructuredError (msg : String) : CLIError :=
  if Contains msg "EXA_API_KEY" then
    { Code := "AUTH_REQUIRED", Message := msg, Recoverable := true,
      Suggestion := "Set EXA_API_KEY environment variable or run \x27exa auth\x27" }
  else if Contains msg "status 401" then
    { Code := "AUTH_INVALID", Message := "Invalid API key", Recoverable := true,
      Suggestion := "Check your EXA_API_KEY value" }
  else if Contains msg "status 429" then
    { Code := "RATE_LIMITED", Message := msg, Recoverable := true,
      Suggestion := "Wait and retry, or reduce request frequency" }
  else if Contains msg "request failed" then
    { Code := "NETWORK_ERROR", Message := msg, Recoverable := true,
      Suggestion := "Check network connectivity" }
  else
    { Code := "UNKNOWN", Message := msg }

/-! ## `cmd/search.go`, `cmd/contents.go` -/

/-- The flag variables of `cmd/search.go`, with the defaults registered in `init`. -/
structure SearchFlags where
  searchNumResults : Int := 25
  searchType : String := "auto"
  searchCategory : String := ""
  searchIncDomains : List String := []
  searchExcDomains : List String := []
  searchStartDate : String := ""
  searchEndDate : String := ""
  searchIncludeText : String := ""
  searchExcludeText : String := ""
  searchText : Bool := false
  searchTextMax : Int := 10000
  searchHighlights : Bool := false
  searchSummary : Bool := false
  searchNoContents : Bool := false
  searchMaxAge : Int := -1
  searchModeration : Bool := false
  searchSubpages : Int := 0
  deriving DecidableEq, Repr

/-- The block of `runSearch` guarded by `!searchNoContents`: the `contents`
structure it fills and the final value of `hasContents`. -/
def searchContents (f : SearchFlags) : ContentsSpec × Bool :=
  let s₀ : ContentsSpec × Bool := ({}, false)
  let s₁ : ContentsSpec × Bool :=
    if f.searchText then
      ({ s₀.1 with Text := some { MaxCharacters := f.searchTextMax } }, true)
    else s₀
  let s₂ : ContentsSpec × Bool :=
    if f.searchHighlights then ({ s₁.1 with Highlights := some {} }, true) else s₁
  let s₃ : ContentsSpec × Bool :=
    if f.searchSummary then ({ s₂.1 with Summary := some {} }, true) else s₂
  let s₄ : ContentsSpec × Bool :=
    if f.searchMaxAge ≥ 0 then
      if f.searchMaxAge = 0 then ({ s₃.1 with Livecrawl := "always" }, true)
      else ({ s₃.1 with Livecrawl := "fallback" }, true)
    else s₃
  let s₅ : ContentsSpec × Bool :=
    if f.searchSubpages > 0 then ({ s₄.1 with Subpages := f.searchSubpages }, true) else s₄
  s₅

/-- The request `runSearch` hands to `client.Search`, from the positional
arguments and the flag values. -/
def runSearchRequest (args : List String) (f : SearchFlags) : SearchRequest :=
  let req : SearchRequest :=
    { Query := " ".intercalate args, NumResults := f.searchNumResults }
  let req := if f.searchType ≠ "auto" then { req with Type_ := f.searchType } else req
  let req := if f.searchCategory ≠ "" then { req with Category := f.searchCategory } else req
  let req :=
    if f.searchIncDomains.length > 0 then { req with IncludeDomains := f.searchIncDomains }
    else req
  let req :=
    if f.searchExcDomains.length > 0 then { req with ExcludeDomains := f.searchExcDomains }
    else req
  let req :=
    if f.searchStartDate ≠ "" then
      { req with StartPublishedDate := f.searchStartDate ++ "T00:00:00.000Z" }
    else req
  let req :=
    if f.searchEndDate ≠ "" then
      { req with EndPublishedDate := f.searchEndDate ++ "T00:00:00.000Z" }
    else req
  let req :=
    if f.searchIncludeText ≠ "" then { req with IncludeText := f.searchIncludeText } else req
  let req :=
    if f.searchExcludeText ≠ "" then { req with ExcludeText := f.searchExcludeText } else req
  let req := if f.searchModeration then { req with Moderation := some true } else req
  if !f.searchNoContents then
    if (searchContents f).2 then { req with Contents := some (searchContents f).1 } else req
  else req

/-- The flag variables of `cmd/contents.go`, with the defaults registered in `init`. -/
structure ContentsFlags where
  contentsText : Bool := true
  contentsTextMax : Int := 10000
  contentsHighlights : Bool := false
  contentsSummary : Bool := false
  contentsMaxAge : Int := -1
  contentsSubpages : Int := 0
  deriving DecidableEq, Repr

/-- The request `runContents` hands to `client.GetContents`. -/
def runContentsRequest (args : List String) (f : ContentsFlags) : ContentsRequest :=
  let req : ContentsRequest := { URLs := args }
  let req :=
    if f.contentsText then { req with Text := some { MaxCharacters := f.contentsTextMax } }
    else req
  let req := if f.contentsHighlights then { req with Highlights := some {} } else req
  let req := if f.contentsSummary then { req with Summary := some {} } else req
  let req :=
    if f.contentsMaxAge ≥ 0 then
      if f.contentsMaxAge = 0 then { req with Livecrawl := "always" }
      else { req with Livecrawl := "fallback" }
    else req
  let req :=
    if f.contentsSubpages > 0 then { req with Subpages := f.contentsSubpages } else req
  req

/-- The `livecrawl` value nested under `contents` in a serialized search request. -/
def searchLivecrawl (j : JSON) : Option JSON :=
  (j.get? "contents").bind (fun c => c.get? "livecrawl")

/-- A client as `NewClient` builds it for the default base URL, without debug function. -/
def sampleClient : Client := { baseURL := "https://api.exa.ai", apiKey := "key" }

/-- A marshalled answer request. -/
def sampleRequestBody : String := "\x7b\"query\":\"q\",\"stream\":true\x7d"

/-- A stream whose terminal chunk carries an answer longer than the streamed text. -/
def gapStreamLines : List String :=
  ["data: \x7b\"text\":\"Hello\"\x7d", "",
   "data: \x7b\"answer\":\"Hello world\",\"citations\":[]\x7d", "data: [DONE]"]

/-- A stream whose terminal chunk carries exactly the streamed text. -/
def gaplessStreamLines : List String :=
  ["data: \x7b\"text\":\"Hello\"\x7d", "",
   "data: \x7b\"answer\":\"Hello\",\"citations\":[]\x7d", "data: [DONE]"]

/-- The five codes of the classifier. -/
def errorCodes : List String :=
  ["AUTH_REQUIRED", "AUTH_INVALID", "RATE_LIMITED", "NETWORK_ERROR", "UNKNOWN"]

/-- The search response of the field-selection scenario:
two results with `title`, `url` and `score`, wrapped in a `results` envelope. -/
def scenarioRecords : List (List (String × JSON)) :=
  [[("title", .str "A"), ("url", .str "u1"), ("score", .num 9 (-1))],
   [("title", .str "B"), ("url", .str "u2"), ("score", .num 5 (-1))]]

/-! ## `pkg/auth/auth.go` -/

/-- Go `AuthConfig`. -/
structure AuthConfig where
  APIKey : String := ""
  deriving DecidableEq, Repr

/-- Go `ConfigPath`; `home` is the outcome of `os.UserHomeDir`. -/
def ConfigPath (home : Except String String) : Except String String :=
  match home with
  | .error e => .error e
  | .ok dir => .ok (dir ++ "/.exa-auth.json")

/-- Go `loadAuth`; `readFile` is `os.ReadFile`, `unmarshal` is
`json.Unmarshal(data, &config)`.  The result is the error when there is one. -/
def loadAuth (home : Except String String) (readFile : String → Except String String)
    (unmarshal : String → Except String AuthConfig) : Except String AuthConfig :=
  match ConfigPath home with
  | .error e => .error e
  | .ok path =>
    match readFile path with
    | .error e => .error e
    | .ok data => unmarshal data

/-- Go `GetAPIKey`; `env` is `os.Getenv("EXA_API_KEY")` (empty when unset). -/
def GetAPIKey (env : String) (home : Except String String)
    (readFile : String → Except String String)
    (unmarshal : String → Except String AuthConfig) : Except String String :=
  if env ≠ "" then .ok env
  else
    match loadAuth home readFile unmarshal with
    | .error _ =>
      .error ("EXA_API_KEY not set and no config file found.\n" ++
        "Run \x27exa auth\x27 to configure or set EXA_API_KEY environment variable")
    | .ok config =>
      if config.APIKey ≠ "" then .ok config.APIKey
      else .error "no valid authentication found"

/-- A decoder for sample config files: it agrees with `json.Unmarshal` into an
`AuthConfig` on `{"api_key":""}` and on `{"api_key":"k"}`; any other content is
reported as an error. -/
def sampleAuthUnmarshal (data : String) : Except String AuthConfig :=
  if data = "\x7b\"api_key\":\"\"\x7d" then .ok { APIKey := "" }
  else if data = "\x7b\"api_key\":\"k\"\x7d" then .ok { APIKey := "k" }
  else .error "invalid character"

/-! ## `cmd/usage.go` -/

/-- Go `UsageEntry`; `F` is the carrier of `float64`. -/
structure UsageEntry (F : Type) where
  Date : String
  RequestCount : Int
  CreditUsage : F

/-- The `float64` operations `runUsage` uses: the constant `0.0`, the addition,
and `fmt.Sprintf("%.4f", x)`. -/
structure FloatOps (F : Type) where
  zero : F
  add : F → F → F
  fmt4 : F → String

/-- Go `output.TableData`. -/
structure TableData where
  Headers : List String := []
  Rows : List (List String) := []
  Footer : String := ""
  deriving DecidableEq, Repr

/-- Reduction of an integer to the range of a 64-bit Go `int`: the value `+`
yields when the exact result does not fit (wrap-around modulo `2 ^ 64`). -/
def wrapInt (n : Int) : Int :=
  (n + 9223372036854775808) % 18446744073709551616 - 9223372036854775808

/-- The variables the loop of `runUsage` updates. -/
structure UsageAcc (F : Type) where
  Rows : List (List String)
  totalRequests : Int
  totalCredits : F

/-- The loop `for _, u := range resp.Usage` of `runUsage`. -/
def usageLoop {F : Type} (ops : FloatOps F) : List (UsageEntry F) → UsageAcc F → UsageAcc F
  | [], acc => acc
  | u :: rest, acc =>
    usageLoop ops rest
      { Rows := acc.Rows ++ [[u.Date, toString u.RequestCount, ops.fmt4 u.CreditUsage]],
        totalRequests := wrapInt (acc.totalRequests + u.RequestCount),
        totalCredits := ops.add acc.totalCredits u.CreditUsage }

/-- The state of the variables of `runUsage` when its loop is left. -/
def usageTotals {F : Type} (ops : FloatOps F) (usage : List (UsageEntry F)) : UsageAcc F :=
  usageLoop ops usage { Rows := [], totalRequests := 0, totalCredits := ops.zero }

/-- The table part of `runUsage`: the `TableData` and the data it hands to
`output.RenderTable`, from the usage entries of the response and the two dates. -/
def runUsageTable {F : Type} (ops : FloatOps F) (usage : List (UsageEntry F))
    (usageStartDate usageEndDate : String) : TableData × List (UsageEntry F) :=
  let acc := usageTotals ops usage
  ({ Headers := ["DATE", "REQUESTS", "CREDITS"],
     Rows := acc.Rows,
     Footer := "Total: " ++ toString acc.totalRequests ++ " requests, " ++
       ops.fmt4 acc.totalCredits ++ " credits | " ++ usageStartDate ++ " to " ++ usageEndDate },
   usage)

/-- Exact arithmetic on rationals, for values on which `float64` addition is
exact; the formatting is left blank. -/
def exactOps : FloatOps ℚ :=
  { zero := 0, add := fun x y => x + y, fmt4 := fun _ => "" }

/-- The usage entries of the aggregation scenario. -/
def scenarioUsage : List (UsageEntry ℚ) :=
  [{ Date := "2025-01-01", RequestCount := 3, CreditUsage := 3 / 2 },
   { Date := "2025-01-02", RequestCount := 2, CreditUsage := 1 / 2 }]

/-- Two usage entries whose request counts add up to more than a Go `int` holds. -/
def overflowUsage : List (UsageEntry ℚ) :=
  [{ Date := "2025-01-01", RequestCount := 9223372036854775807, CreditUsage := 0 },
   { Date := "2025-01-02", RequestCount := 1, CreditUsage := 0 }]

/-- The rows of the classification table of the spec, in order: marker, code,
recoverable. -/
def classifierRows : List (String × String × Bool) :=
  [("EXA_API_KEY", "AUTH_REQUIRED", true),
   ("status 401", "AUTH_INVALID", true),
   ("status 429", "RATE_LIMITED", true),
   ("request failed", "NETWORK_ERROR", true)]

/-- The first row of the table whose marker occurs in the message. -/
def firstRow (msg : String) : Option (String × String × Bool) :=
  classifierRows.find? (fun row => Contains msg row.1)

/-- A stream in which two chunks carry citations. -/
def twoTerminalLines : List String :=
  ["data: \x7b\"text\":\"Hello\"\x7d",
   "data: \x7b\"answer\":\"Hello\",\"citations\":[]\x7d",
   "data: \x7b\"answer\":\"Hello world\",\"citations\":[]\x7d", "data: [DONE]"]

/-! ## `cmd/similar.go`, `cmd/context.go` -/

/-- Go `FindSimilarRequest`. -/
structure FindSimilarRequest where
  URL : String := ""
  NumResults : Int := 0
  IncludeDomains : List String := []
  ExcludeDomains : List String := []
  StartPublishedDate : String := ""
  EndPublishedDate : String := ""
  ExcludeSourceDomain : Bool := false
  Category : String := ""
  Contents : Option ContentsSpec := none
  deriving DecidableEq, Repr

/-- Rendering of `FindSimilarRequest` by `json.Marshal`; `url` has no `omitempty`. -/
def FindSimilarRequest.marshal (r : FindSimilarRequest) : JSON :=
  .obj ([("url", .str r.URL)] ++
        omitEmptyInt "numResults" r.NumResults ++
        omitEmptyStrings "includeDomains" r.IncludeDomains ++
        omitEmptyStrings "excludeDomains" r.ExcludeDomains ++
        omitEmptyString "startPublishedDate" r.StartPublishedDate ++
        omitEmptyString "endPublishedDate" r.EndPublishedDate ++
        omitEmptyBool "excludeSourceDomain" r.ExcludeSourceDomain ++
        omitEmptyString "category" r.Category ++
        omitNil "contents" r.Contents ContentsSpec.marshal)

/-- The flag variables of `cmd/similar.go`, with the defaults registered in `init`. -/
structure SimilarFlags where
  similarNumResults : Int := 10
  similarExcludeSource : Bool := false
  similarIncDomains : List String := []
  similarExcDomains : List String := []
  similarStartDate : String := ""
  similarEndDate : String := ""
  similarText : Bool := false
  similarHighlights : Bool := false
  similarCategory : String := ""
  deriving DecidableEq, Repr

/-- The request `runSimilar` hands to `client.FindSimilar`; `url` is `args[0]`
(the command takes exactly one argument). -/
def runSimilarRequest (url : String) (f : SimilarFlags) : FindSimilarRequest :=
  let req : FindSimilarRequest :=
    { URL := url, NumResults := f.similarNumResults,
      ExcludeSourceDomain := f.similarExcludeSource }
  let req :=
    if f.similarIncDomains.length > 0 then { req with IncludeDomains := f.similarIncDomains }
    else req
  let req :=
    if f.similarExcDomains.length > 0 then { req with ExcludeDomains := f.similarExcDomains }
    else req
  let req :=
    if f.similarStartDate ≠ "" then
      { req with StartPublishedDate := f.similarStartDate ++ "T00:00:00.000Z" }
    else req
  let req :=
    if f.similarEndDate ≠ "" then
      { req with EndPublishedDate := f.similarEndDate ++ "T00:00:00.000Z" }
    else req
  let req := if f.similarCategory ≠ "" then { req with Category := f.similarCategory } else req
  if f.similarText ∨ f.similarHighlights then
    let contents : ContentsSpec := {}
    let contents :=
      if f.similarText then { contents with Text := some { MaxCharacters := 10000 } }
      else contents
    let contents :=
      if f.similarHighlights then { contents with Highlights := some {} } else contents
    { req with Contents := some contents }
  else req

/-- Go `ContextRequest`.  `TokensNum` is an `interface{}`: `none` is the nil
interface, otherwise the JSON rendering of the value it holds. -/
structure ContextRequest where
  Query : String := ""
  TokensNum : Option JSON := none

/-- Rendering of `ContextRequest` by `json.Marshal`: an `interface{}` field tagged
`omitempty` is left out only when it is nil. -/
def ContextRequest.marshal (r : ContextRequest) : JSON :=
  .obj ([("query", .str r.Query)] ++ omitNil "tokensNum" r.TokensNum id)

/-- The request `runContext` hands to `client.GetContext`. -/
def runContextRequest (args : List String) (contextTokens : Int) : ContextRequest :=
  let req : ContextRequest := { Query := " ".intercalate args }
  if contextTokens > 0 then { req with TokensNum := some (.num contextTokens 0) }
  else { req with TokensNum := some (.str "dynamic") }

/-- The entries of a JSON object (none for any other value). -/
def JSON.entries : JSON → List (String × JSON)
  | .obj es => es
  | _ => []

/-! ## `pkg/output/output.go`, `pkg/output/jq.go` -/

/-- Go `output.Mode`. -/
inductive Mode where
  | ModeTable : Mode
  | ModePlaintext : Mode
  | ModeJSON : Mode
  deriving DecidableEq, Repr

/-- Go `output.Options`. -/
structure Options where
  Mode : Mode := .ModeTable
  NoColor : Bool := false
  Debug : Bool := false
  Fields : String := ""
  JQ : String := ""
  deriving DecidableEq, Repr

/-- The jq library and the JSON encoder as `RunJQ` uses them: `parse` is
`gojq.Parse`; `run q input` lists, in order, what `iter.Next()` yields for
`query.Run(input)` (a value, or an error value); `marshalIndent` is
`json.MarshalIndent(v, "", "  ")` on a yielded value. -/
structure JQEngine (Q V : Type) where
  parse : String → Except String Q
  run : Q → JSON → List (Except String V)
  marshalIndent : V → Except String String

/-- What a rendering call did: the lines printed to standard output, in order,
and the returned error (`none` is the nil error). -/
structure RenderResult where
  stdout : List String
  err : Option String
  deriving DecidableEq, Repr

/-- The `for` loop of `RunJQ` over the values the iterator yields. -/
def jqLoop {V : Type} (marshalIndent : V → Except String String) :
    List (Except String V) → RenderResult
  | [] => ⟨[], none⟩
  | .error e :: _ => ⟨[], some ("jq error: " ++ e)⟩
  | .ok v :: rest =>
    match marshalIndent v with
    | .error e => ⟨[], some ("marshal jq result: " ++ e)⟩
    | .ok out =>
      let r := jqLoop marshalIndent rest
      ⟨out :: r.stdout, r.err⟩

/-- Go `RunJQ`.  `marshalled` is the outcome of `json.Marshal(data)`: the document
as rendered, or the error; the engine runs on the document as `json.Unmarshal`
reads it back into `interface{}`. -/
def RunJQ {Q V : Type} (nd : NumberDecoder) (eng : JQEngine Q V)
    (marshalled : Except String JSON) (expr : String) : RenderResult :=
  match eng.parse expr with
  | .error e => ⟨[], some ("invalid jq expression: " ++ e)⟩
  | .ok query =>
    match marshalled with
    | .error e => ⟨[], some ("marshal for jq: " ++ e)⟩
    | .ok raw =>
      match unmarshalValue nd raw with
      | .error e => ⟨[], some ("unmarshal for jq: " ++ e)⟩
      | .ok input => jqLoop eng.marshalIndent (eng.run query input)

/-- Go `renderJSONOutput`; `marshalDoc` is `json.MarshalIndent(data, "", "  ")`
on the document.  What `FilterFields` returns is a JSON tree, which
`json.Marshal` in `RunJQ` renders as itself. -/
def renderJSONOutput {Q V : Type} (nd : NumberDecoder) (eng : JQEngine Q V)
    (marshalDoc : JSON → Except String String) (data : JSON) (opts : Options) : RenderResult :=
  let data := FilterFields nd data opts.Fields
  if opts.JQ ≠ "" then RunJQ nd eng (.ok data) opts.JQ
  else
    match marshalDoc data with
    | .error e => ⟨[], some ("json marshal: " ++ e)⟩
    | .ok out => ⟨[out], none⟩

/-- A sample engine: the expression `1, nan, 2` yields the number 1, the
`float64` NaN (here `none`) and the number 2, and `.` yields its input; the
encoder renders a JSON number as its integer digits, any other JSON value as a
blank, and rejects NaN as `encoding/json` does. -/
def sampleEngine : JQEngine String (Option JSON) :=
  { parse := fun expr =>
      if expr = "1, nan, 2" ∨ expr = "." then .ok expr
      else .error "unexpected token",
    run := fun query input =>
      if query = "1, nan, 2" then [.ok (some (.num 1 0)), .ok none, .ok (some (.num 2 0))]
      else [.ok (some input)],
    marshalIndent := fun v =>
      match v with
      | some (.num n 0) => .ok (toString n)
      | some _ => .ok ""
      | none => .error "json: unsupported value: NaN" }

/-- The sample decoder extended with the payload `{"type":"ping"}`, a chunk that
carries neither text nor citations. -/
def noopUnmarshal (data : String) : Except String AnswerStreamChunk :=
  if data = "\x7b\"type\":\"ping\"\x7d" then .ok { Type_ := "ping" }
  else sampleUnmarshal data

/-- The sample client with a debug function set. -/
def debugClient : Client := { baseURL := "https://api.exa.ai", apiKey := "key", debug := true }

/-- A response body of 2001 bytes. -/
def longBody : String := String.mk (List.replicate 2001 'a')

/-! # Theorems -/

/-! ## Field selection -/

theorem mem_filterMap (m : List (String × JSON)) (fields : List String) (k : String) (v : JSON) :
    (k, v) ∈ filterMap m fields ↔ (k, v) ∈ m ∧ k ∈ fields := by
  induction m with
  | nil => simp [filterMap]
  | cons e rest ih =>
    obtain ⟨k', v'⟩ := e
    by_cases hk : fields.contains k' = true
    · have hk' : k' ∈ fields := by simpa using hk
      rw [filterMap, if_pos hk]
      simp only [List.mem_cons, ih, Prod.mk.injEq]
      constructor
      · rintro (⟨rfl, rfl⟩ | ⟨h₁, h₂⟩)
        · exact ⟨Or.inl ⟨rfl, rfl⟩, hk'⟩
        · exact ⟨Or.inr h₁, h₂⟩
      · rintro ⟨h | h, h₂⟩
        · exact Or.inl h
        · exact Or.inr ⟨h, h₂⟩
    · have hk' : k' ∉ fields := by simpa using hk
      rw [filterMap, if_neg hk]
      simp only [List.mem_cons, ih, Prod.mk.injEq]
      constructor
      · rintro ⟨h₁, h₂⟩
        exact ⟨Or.inr h₁, h₂⟩
      · rintro ⟨⟨rfl, rfl⟩ | h, h₂⟩
        · exact absurd h₂ hk'
        · exact ⟨h, h₂⟩

theorem filterMap_sublist (m : List (String × JSON)) (fields : List String) :
    (filterMap m fields).Sublist m := by
  induction m with
  | nil => simp [filterMap]
  | cons e rest ih =>
    obtain ⟨k', v'⟩ := e
    by_cases hk : fields.contains k' = true
    · rw [filterMap, if_pos hk]
      exact ih.cons₂ _
    · rw [filterMap, if_neg hk]
      exact ih.cons _

/-! ### Reading a document back -/

theorem unmarshalList_nil (nd : NumberDecoder) : unmarshalList nd [] = .ok [] := by
  simp [unmarshalList]

theorem unmarshalList_cons_ok (nd : NumberDecoder) (x : JSON) (rest ys : List JSON)
    (h : unmarshalList nd (x :: rest) = .ok ys) :
    ∃ y ys', unmarshalValue nd x = .ok y ∧ unmarshalList nd rest = .ok ys' ∧ ys = y :: ys' := by
  rw [unmarshalList] at h
  cases hx : unmarshalValue nd x with
  | error err => rw [hx] at h; cases h
  | ok y =>
    cases hr : unmarshalList nd rest with
    | error err => rw [hx, hr] at h; cases h
    | ok ys' =>
      rw [hx, hr] at h
      cases h
      exact ⟨y, ys', rfl, rfl, rfl⟩

theorem unmarshalEntries_cons_ok (nd : NumberDecoder) (k : String) (v : JSON)
    (rest es : List (String × JSON)) (h : unmarshalEntries nd ((k, v) :: rest) = .ok es) :
    ∃ w es', unmarshalValue nd v = .ok w ∧ unmarshalEntries nd rest = .ok es' ∧
      es = (k, w) :: es' := by
  rw [unmarshalEntries] at h
  cases hx : unmarshalValue nd v with
  | error err => rw [hx] at h; cases h
  | ok w =>
    cases hr : unmarshalEntries nd rest with
    | error err => rw [hx, hr] at h; cases h
    | ok es' =>
      rw [hx, hr] at h
      cases h
      exact ⟨w, es', rfl, rfl, rfl⟩

theorem unmarshalList_cons_of_ok (nd : NumberDecoder) (x y : JSON) (rest ys : List JSON)
    (hx : unmarshalValue nd x = .ok y) (hr : unmarshalList nd rest = .ok ys) :
    unmarshalList nd (x :: rest) = .ok (y :: ys) := by
  rw [unmarshalList, hx, hr]

theorem unmarshalEntries_cons_of_ok (nd : NumberDecoder) (k : String) (v w : JSON)
    (rest es : List (String × JSON))
    (hx : unmarshalValue nd v = .ok w) (hr : unmarshalEntries nd rest = .ok es) :
    unmarshalEntries nd ((k, v) :: rest) = .ok ((k, w) :: es) := by
  rw [unmarshalEntries, hx, hr]

theorem unmarshalValue_arr_ok (nd : NumberDecoder) (items : List JSON) (j : JSON)
    (h : unmarshalValue nd (.arr items) = .ok j) :
    ∃ xs, unmarshalList nd items = .ok xs ∧ j = .arr xs := by
  rw [unmarshalValue] at h
  cases hr : unmarshalList nd items with
  | error err => rw [hr] at h; cases h
  | ok xs =>
    rw [hr] at h
    cases h
    exact ⟨xs, rfl, rfl⟩

theorem unmarshalValue_obj_ok (nd : NumberDecoder) (entries : List (String × JSON)) (j : JSON)
    (h : unmarshalValue nd (.obj entries) = .ok j) :
    ∃ es, unmarshalEntries nd entries = .ok es ∧ j = .obj es := by
  rw [unmarshalValue] at h
  cases hr : unmarshalEntries nd entries with
  | error err => rw [hr] at h; cases h
  | ok es =>
    rw [hr] at h
    cases h
    exact ⟨es, rfl, rfl⟩

/-- Reading back leaves the kind of a value as it is: what reads back as an array
was an array. -/
theorem unmarshalValue_arr_inv (nd : NumberDecoder) (v : JSON) (xs : List JSON)
    (h : unmarshalValue nd v = .ok (.arr xs)) :
    ∃ items, v = .arr items ∧ unmarshalList nd items = .ok xs := by
  cases v with
  | null => rw [unmarshalValue] at h; cases h
  | bool b => rw [unmarshalValue] at h; cases h
  | str s => rw [unmarshalValue] at h; cases h
  | num m e =>
    rw [unmarshalValue] at h
    cases hc : nd.convertNumber m e with
    | error err => rw [hc] at h; cases h
    | ok p => rw [hc] at h; cases h
  | arr items =>
    obtain ⟨ys, hys, hj⟩ := unmarshalValue_arr_ok nd items _ h
    cases hj
    exact ⟨items, rfl, hys⟩
  | obj entries =>
    obtain ⟨es, _, hj⟩ := unmarshalValue_obj_ok nd entries _ h
    cases hj

theorem unmarshalValue_not_arr (nd : NumberDecoder) (v w : JSON)
    (h : unmarshalValue nd v = .ok w) (hv : ∀ a, v ≠ JSON.arr a) : ∀ a, w ≠ JSON.arr a := by
  intro a hw
  subst hw
  obtain ⟨items, hitems, _⟩ := unmarshalValue_arr_inv nd v a h
  exact hv items hitems

mutual
theorem unmarshalValue_fixed (nd : NumberDecoder) :
    ∀ (j j' : JSON), unmarshalValue nd j = .ok j' → unmarshalValue nd j' = .ok j'
  | .null, j', h => by
    rw [unmarshalValue] at h
    cases h
    rw [unmarshalValue]
  | .bool b, j', h => by
    rw [unmarshalValue] at h
    cases h
    rw [unmarshalValue]
  | .str s, j', h => by
    rw [unmarshalValue] at h
    cases h
    rw [unmarshalValue]
  | .num m e, j', h => by
    rw [unmarshalValue] at h
    cases hc : nd.convertNumber m e with
    | error err => rw [hc] at h; cases h
    | ok p =>
      rw [hc] at h
      cases h
      rw [unmarshalValue, nd.convertNumber_fixed m e p hc]
  | .arr items, j', h => by
    obtain ⟨xs, hxs, rfl⟩ := unmarshalValue_arr_ok nd items j' h
    rw [unmarshalValue, unmarshalList_fixed nd items xs hxs]
  | .obj entries, j', h => by
    obtain ⟨es, hes, rfl⟩ := unmarshalValue_obj_ok nd entries j' h
    rw [unmarshalValue, unmarshalEntries_fixed nd entries es hes]
theorem unmarshalList_fixed (nd : NumberDecoder) :
    ∀ (xs ys : List JSON), unmarshalList nd xs = .ok ys → unmarshalList nd ys = .ok ys
  | [], ys, h => by
    rw [unmarshalList] at h
    cases h
    rw [unmarshalList]
  | x :: rest, ys, h => by
    obtain ⟨y, ys', hy, hys, rfl⟩ := unmarshalList_cons_ok nd x rest ys h
    exact unmarshalList_cons_of_ok nd y y ys' ys' (unmarshalValue_fixed nd x y hy)
      (unmarshalList_fixed nd rest ys' hys)
theorem unmarshalEntries_fixed (nd : NumberDecoder) :
    ∀ (es es' : List (String × JSON)), unmarshalEntries nd es = .ok es' →
      unmarshalEntries nd es' = .ok es'
  | [], es', h => by
    rw [unmarshalEntries] at h
    cases h
    rw [unmarshalEntries]
  | (k, v) :: rest, es', h => by
    obtain ⟨w, es'', hw, hes, rfl⟩ := unmarshalEntries_cons_ok nd k v rest es' h
    exact unmarshalEntries_cons_of_ok nd k w w es'' es'' (unmarshalValue_fixed nd v w hw)
      (unmarshalEntries_fixed nd rest es'' hes)
end

/-! ### Filtering -/

theorem unmarshalEntries_keys (nd : NumberDecoder) (es es' : List (String × JSON))
    (h : unmarshalEntries nd es = .ok es') : es'.map Prod.fst = es.map Prod.fst := by
  induction es generalizing es' with
  | nil =>
    rw [unmarshalEntries] at h
    cases h
    rfl
  | cons e rest ih =>
    obtain ⟨k, v⟩ := e
    obtain ⟨w, es'', _, hes, rfl⟩ := unmarshalEntries_cons_ok nd k v rest es' h
    simp [ih es'' hes]

theorem lookup_unmarshalEntries_none (nd : NumberDecoder) (es es' : List (String × JSON))
    (h : unmarshalEntries nd es = .ok es') (k : String) (hk : es.lookup k = none) :
    es'.lookup k = none := by
  induction es generalizing es' with
  | nil =>
    rw [unmarshalEntries] at h
    cases h
    rfl
  | cons e rest ih =>
    obtain ⟨k', v⟩ := e
    obtain ⟨w, es'', _, hes, rfl⟩ := unmarshalEntries_cons_ok nd k' v rest es' h
    by_cases hkk : (k == k') = true
    · simp [List.lookup, hkk] at hk
    · have hb : (k == k') = false := by simpa using hkk
      simp only [List.lookup, hb] at hk ⊢
      exact ih es'' hes hk

theorem lookup_unmarshalEntries_some (nd : NumberDecoder) (es es' : List (String × JSON))
    (h : unmarshalEntries nd es = .ok es') (k : String) (v : JSON)
    (hk : es.lookup k = some v) :
    ∃ w, unmarshalValue nd v = .ok w ∧ es'.lookup k = some w := by
  induction es generalizing es' with
  | nil => simp [List.lookup] at hk
  | cons e rest ih =>
    obtain ⟨k', v'⟩ := e
    obtain ⟨w, es'', hw, hes, rfl⟩ := unmarshalEntries_cons_ok nd k' v' rest es' h
    by_cases hkk : (k == k') = true
    · simp only [List.lookup, hkk] at hk ⊢
      cases hk
      exact ⟨w, hw, rfl⟩
    · have hb : (k == k') = false := by simpa using hkk
      simp only [List.lookup, hb] at hk ⊢
      exact ih es'' hes hk

theorem lookup_unmarshalEntries_inv (nd : NumberDecoder) (es es' : List (String × JSON))
    (h : unmarshalEntries nd es = .ok es') (k : String) (w : JSON)
    (hk : es'.lookup k = some w) :
    ∃ v, es.lookup k = some v ∧ unmarshalValue nd v = .ok w := by
  cases hv : es.lookup k with
  | none =>
    rw [lookup_unmarshalEntries_none nd es es' h k hv] at hk
    cases hk
  | some v =>
    obtain ⟨w', hw', hl⟩ := lookup_unmarshalEntries_some nd es es' h k v hv
    rw [hl] at hk
    cases hk
    exact ⟨v, rfl, hw'⟩

theorem unmarshalEntries_filterMap (nd : NumberDecoder) (m m' : List (String × JSON))
    (fs : List String) (h : unmarshalEntries nd m = .ok m') :
    unmarshalEntries nd (filterMap m fs) = .ok (filterMap m' fs) := by
  induction m generalizing m' with
  | nil =>
    rw [unmarshalEntries] at h
    cases h
    simp [filterMap, unmarshalEntries]
  | cons e rest ih =>
    obtain ⟨k, v⟩ := e
    obtain ⟨w, es, hw, hes, rfl⟩ := unmarshalEntries_cons_ok nd k v rest m' h
    by_cases hk : fs.contains k = true
    · rw [filterMap, if_pos hk, filterMap, if_pos hk]
      exact unmarshalEntries_cons_of_ok nd k v w _ _ hw (ih es hes)
    · rw [filterMap, if_neg hk, filterMap, if_neg hk]
      exact ih es hes

theorem unmarshalMapItems_objs (nd : NumberDecoder) (recs recs' : List (List (String × JSON)))
    (h : List.Forall₂ (fun r r' => unmarshalEntries nd r = .ok r') recs recs') :
    unmarshalMapItems nd (recs.map JSON.obj) = some recs' := by
  induction h with
  | nil => rfl
  | cons hr _ ih => simp [unmarshalMapItems, hr, ih]

theorem unmarshalList_objs (nd : NumberDecoder) (recs : List (List (String × JSON)))
    (xs : List JSON) (h : unmarshalList nd (recs.map JSON.obj) = .ok xs) :
    ∃ recs', xs = recs'.map JSON.obj ∧
      List.Forall₂ (fun r r' => unmarshalEntries nd r = .ok r') recs recs' := by
  induction recs generalizing xs with
  | nil =>
    rw [List.map_nil, unmarshalList] at h
    cases h
    exact ⟨[], rfl, List.Forall₂.nil⟩
  | cons r rest ih =>
    rw [List.map_cons] at h
    obtain ⟨y, ys, hy, hys, rfl⟩ := unmarshalList_cons_ok nd _ _ xs h
    obtain ⟨es, hes, rfl⟩ := unmarshalValue_obj_ok nd r y hy
    obtain ⟨recs', rfl, hall⟩ := ih ys hys
    exact ⟨es :: recs', rfl, List.Forall₂.cons hes hall⟩

theorem filterFields_array_of_objects (nd : NumberDecoder) (F : String) (hF : F ≠ "")
    (recs recs' : List (List (String × JSON)))
    (h : List.Forall₂ (fun r r' => unmarshalEntries nd r = .ok r') recs recs') :
    FilterFields nd (.arr (recs.map JSON.obj)) F =
      .arr ((recs'.map (fun r => filterMap r (fieldList F))).map JSON.obj) := by
  simp [FilterFields, hF, unmarshalMapSlice, unmarshalMapItems_objs nd recs recs' h,
    List.map_map, Function.comp_def]

/-- An object whose numbers can all be read is filtered as read back. -/
theorem filterFields_obj (nd : NumberDecoder) (F : String) (hF : F ≠ "")
    (env env' : List (String × JSON)) (hread : unmarshalEntries nd env = .ok env') :
    FilterFields nd (.obj env) F =
      match env'.lookup "results" with
      | some (.arr resultsArr) =>
        .arr (resultsArr.map (fun item =>
          match item with
          | .obj m => .obj (filterMap m (fieldList F))
          | other => other))
      | _ => .obj (filterMap env' (fieldList F)) := by
  cases h : env'.lookup "results" with
  | none => simp [FilterFields, hF, unmarshalMapSlice, unmarshalMap, hread, h]
  | some v =>
    cases v with
    | arr items =>
      simp only [FilterFields, hF, if_false, unmarshalMapSlice, unmarshalMap, hread, h]
      try rfl
    | null => simp [FilterFields, hF, unmarshalMapSlice, unmarshalMap, hread, h]
    | bool b => simp [FilterFields, hF, unmarshalMapSlice, unmarshalMap, hread, h]
    | num m e => simp [FilterFields, hF, unmarshalMapSlice, unmarshalMap, hread, h]
    | str s => simp [FilterFields, hF, unmarshalMapSlice, unmarshalMap, hread, h]
    | obj m => simp [FilterFields, hF, unmarshalMapSlice, unmarshalMap, hread, h]

/-- An object holding a number outside the `float64` range is returned as it is. -/
theorem filterFields_obj_unread (nd : NumberDecoder) (F : String)
    (env : List (String × JSON)) (err : String) (hread : unmarshalEntries nd env = .error err) :
    FilterFields nd (.obj env) F = .obj env := by
  by_cases hF : F = ""
  · simp [FilterFields, hF]
  · simp [FilterFields, hF, unmarshalMapSlice, unmarshalMap, hread]

theorem filterFields_results_of_objects (nd : NumberDecoder) (F : String) (hF : F ≠ "")
    (env env' : List (String × JSON)) (recs : List (List (String × JSON)))
    (hread : unmarshalEntries nd env = .ok env')
    (hres : env.lookup "results" = some (.arr (recs.map JSON.obj))) :
    ∃ recs', List.Forall₂ (fun r r' => unmarshalEntries nd r = .ok r') recs recs' ∧
      FilterFields nd (.obj env) F =
        .arr ((recs'.map (fun r => filterMap r (fieldList F))).map JSON.obj) := by
  obtain ⟨w, hw, hl⟩ := lookup_unmarshalEntries_some nd env env' hread "results" _ hres
  obtain ⟨xs, hxs, rfl⟩ := unmarshalValue_arr_ok nd _ w hw
  obtain ⟨recs', rfl, hall⟩ := unmarshalList_objs nd recs xs hxs
  refine ⟨recs', hall, ?_⟩
  rw [filterFields_obj nd F hF env env' hread, hl]
  simp [List.map_map, Function.comp_def]

theorem forall₂_get {α β : Type} (R : α → β → Prop) (xs : List α) (ys : List β)
    (h : List.Forall₂ R xs ys) (i : Nat) (h₁ : i < xs.length) (h₂ : i < ys.length) :
    R (xs.get ⟨i, h₁⟩) (ys.get ⟨i, h₂⟩) := by
  induction h generalizing i with
  | nil => exact absurd h₁ (Nat.not_lt_zero _)
  | cons hr _ ih =>
    cases i with
    | zero => exact hr
    | succ n => exact ih n (Nat.lt_of_succ_lt_succ h₁) (Nat.lt_of_succ_lt_succ h₂)

theorem mem_keys_filterMap (m : List (String × JSON)) (fields : List String) (k : String) :
    k ∈ (filterMap m fields).map Prod.fst ↔ k ∈ m.map Prod.fst ∧ k ∈ fields := by
  constructor
  · intro h
    obtain ⟨⟨k', v⟩, hmem, rfl⟩ := List.mem_map.mp h
    have hkv := (mem_filterMap m fields k' v).mp hmem
    exact ⟨List.mem_map.mpr ⟨(k', v), hkv.1, rfl⟩, hkv.2⟩
  · rintro ⟨h, hk⟩
    obtain ⟨⟨k', v⟩, hmem, rfl⟩ := List.mem_map.mp h
    exact List.mem_map.mpr ⟨(k', v), (mem_filterMap m fields k' v).mpr ⟨hmem, hk⟩, rfl⟩

/-- C1, as stated, fails: the value kept for a requested key is the value as the
JSON round trip reads it, a `float64`: of the record `{"n":9007199254740993,
"title":"A"}` the field list `n` keeps `{"n":9007199254740992}`, which is not
an entry of the input record. -/
theorem filterFields_value_counterexample :
    FilterFields sampleNumbers
        (.obj [("results", .arr [.obj [("n", .num 9007199254740993 0), ("title", .str "A")]])])
        "n" =
      .arr [.obj [("n", .num 9007199254740992 0)]] ∧
    (("n", JSON.num 9007199254740992 0) ∉
      [("n", JSON.num 9007199254740993 0), ("title", JSON.str "A")]) := by
  refine ⟨rfl, ?_⟩
  simp

/-- C1 (amended): for a non-empty field list `F` and a document `d`, all of whose
numbers are within the `float64` range, that is an array of objects or an
object whose `results` entry is an array of objects, `FilterFields` returns an
array of objects of the same length in which record `i` holds exactly the keys
of input record `i` that are names of `F` (the comma-separated pieces of `F`,
each trimmed of surrounding white space), in their original order and each
with its value as the JSON round trip reads it (`recs'`: the same keys, every
number a `float64`); every other key and the envelope are gone. -/
theorem filterFields_projects_records (nd : NumberDecoder) (F : String) (hF : F ≠ "")
    (d d' : JSON) (recs : List (List (String × JSON)))
    (hd : d = .arr (recs.map JSON.obj) ∨
      ∃ env, d = .obj env ∧ env.lookup "results" = some (.arr (recs.map JSON.obj)))
    (hread : unmarshalValue nd d = .ok d') :
    ∃ recs' out : List (List (String × JSON)),
      List.Forall₂ (fun r r' => unmarshalEntries nd r = .ok r') recs recs' ∧
      FilterFields nd d F = .arr (out.map JSON.obj) ∧ out.length = recs.length ∧
      ∀ (i : Nat) (h₁ : i < out.length) (h₂ : i < recs.length) (h₃ : i < recs'.length),
        (recs'.get ⟨i, h₃⟩).map Prod.fst = (recs.get ⟨i, h₂⟩).map Prod.fst ∧
        (out.get ⟨i, h₁⟩).Sublist (recs'.get ⟨i, h₃⟩) ∧
        (∀ k v, (k, v) ∈ out.get ⟨i, h₁⟩ ↔ (k, v) ∈ recs'.get ⟨i, h₃⟩ ∧ k ∈ fieldList F) ∧
        ∀ k, k ∈ (out.get ⟨i, h₁⟩).map Prod.fst ↔
          k ∈ (recs.get ⟨i, h₂⟩).map Prod.fst ∧ k ∈ fieldList F := by
  have key : ∃ recs', List.Forall₂ (fun r r' => unmarshalEntries nd r = .ok r') recs recs' ∧
      FilterFields nd d F =
        .arr ((recs'.map (fun r => filterMap r (fieldList F))).map JSON.obj) := by
    rcases hd with rfl | ⟨env, rfl, hres⟩
    · obtain ⟨xs, hxs, _⟩ := unmarshalValue_arr_ok nd _ d' hread
      obtain ⟨recs', _, hall⟩ := unmarshalList_objs nd recs xs hxs
      exact ⟨recs', hall, filterFields_array_of_objects nd F hF recs recs' hall⟩
    · obtain ⟨env', henv, _⟩ := unmarshalValue_obj_ok nd env d' hread
      exact filterFields_results_of_objects nd F hF env env' recs henv hres
  obtain ⟨recs', hall, hff⟩ := key
  have hlen : recs'.length = recs.length := hall.length_eq.symm
  refine ⟨recs', recs'.map (fun r => filterMap r (fieldList F)), hall, hff, by simp [hlen], ?_⟩
  intro i h₁ h₂ h₃
  have hget : (recs'.map (fun r => filterMap r (fieldList F))).get ⟨i, h₁⟩ =
      filterMap (recs'.get ⟨i, h₃⟩) (fieldList F) := by simp
  have hkeys := unmarshalEntries_keys nd _ _ (forall₂_get _ recs recs' hall i h₂ h₃)
  rw [hget]
  refine ⟨hkeys, filterMap_sublist _ _, fun k v => mem_filterMap _ _ k v, ?_⟩
  intro k
  rw [mem_keys_filterMap, hkeys]

/-- Witness of the amended C1 on the scenario: the two-result search response
filtered with `title,url`. -/
theorem filterFields_projects_records_witness :
    FilterFields sampleNumbers (.obj [("results", .arr (scenarioRecords.map JSON.obj))])
        "title,url" =
      .arr [.obj [("title", .str "A"), ("url", .str "u1")],
            .obj [("title", .str "B"), ("url", .str "u2")]] ∧
    ∃ recs' out : List (List (String × JSON)),
      List.Forall₂ (fun r r' => unmarshalEntries sampleNumbers r = .ok r')
        scenarioRecords recs' ∧
      FilterFields sampleNumbers (.obj [("results", .arr (scenarioRecords.map JSON.obj))])
        "title,url" = .arr (out.map JSON.obj) ∧ out.length = scenarioRecords.length ∧
      ∀ (i : Nat) (h₁ : i < out.length) (h₂ : i < scenarioRecords.length)
        (h₃ : i < recs'.length),
        (recs'.get ⟨i, h₃⟩).map Prod.fst = (scenarioRecords.get ⟨i, h₂⟩).map Prod.fst ∧
        (out.get ⟨i, h₁⟩).Sublist (recs'.get ⟨i, h₃⟩) ∧
        (∀ k v, (k, v) ∈ out.get ⟨i, h₁⟩ ↔
          (k, v) ∈ recs'.get ⟨i, h₃⟩ ∧ k ∈ fieldList "title,url") ∧
        ∀ k, k ∈ (out.get ⟨i, h₁⟩).map Prod.fst ↔
          k ∈ (scenarioRecords.get ⟨i, h₂⟩).map Prod.fst ∧ k ∈ fieldList "title,url" :=
  ⟨rfl, filterFields_projects_records sampleNumbers "title,url" (by decide)
    (.obj [("results", .arr (scenarioRecords.map JSON.obj))])
    (.obj [("results", .arr (scenarioRecords.map JSON.obj))]) scenarioRecords
    (Or.inr ⟨_, rfl, rfl⟩) rfl⟩

/-- A number outside the `float64` range makes both readings of the document
fail, and the last statement of `FilterFields` returns the document unfiltered:
the array `[{"a":1e400,"b":1}]`, the object `{"a":1e400,"b":1}` and the envelope
`{"results":[{"a":1e400,"b":1}]}` all come back whole for the field list `b`. -/
theorem filterFields_out_of_range :
    FilterFields sampleNumbers (.arr [.obj [("a", .num 1 400), ("b", .num 1 0)]]) "b" =
      .arr [.obj [("a", .num 1 400), ("b", .num 1 0)]] ∧
    FilterFields sampleNumbers (.obj [("a", .num 1 400), ("b", .num 1 0)]) "b" =
      .obj [("a", .num 1 400), ("b", .num 1 0)] ∧
    FilterFields sampleNumbers
        (.obj [("results", .arr [.obj [("a", .num 1 400), ("b", .num 1 0)]])]) "b" =
      .obj [("results", .arr [.obj [("a", .num 1 400), ("b", .num 1 0)]])] :=
  ⟨rfl, rfl, rfl⟩

/-- C2, as stated, fails: with `results = [{"x":1}, 1]` and field list `y` the
envelope path filters the object element and keeps the number, `[{}, 1]`, while
the array path cannot decode the array into maps and returns it unchanged. -/
theorem filterFields_results_vs_array_counterexample :
    FilterFields sampleNumbers
        (.obj [("results", .arr [.obj [("x", .num 1 0)], .num 1 0])]) "y" =
      .arr [.obj [], .num 1 0] ∧
    FilterFields sampleNumbers (.arr [.obj [("x", .num 1 0)], .num 1 0]) "y" =
      .arr [.obj [("x", .num 1 0)], .num 1 0] ∧
    FilterFields sampleNumbers
        (.obj [("results", .arr [.obj [("x", .num 1 0)], .num 1 0])]) "y" ≠
      FilterFields sampleNumbers (.arr [.obj [("x", .num 1 0)], .num 1 0]) "y" := by
  have h₁ : FilterFields sampleNumbers
      (.obj [("results", .arr [.obj [("x", .num 1 0)], .num 1 0])]) "y" =
      .arr [.obj [], .num 1 0] := rfl
  have h₂ : FilterFields sampleNumbers (.arr [.obj [("x", .num 1 0)], .num 1 0]) "y" =
      .arr [.obj [("x", .num 1 0)], .num 1 0] := rfl
  refine ⟨h₁, h₂, ?_⟩
  rw [h₁, h₂]
  simp

theorem unmarshalMapItems_no_maps (nd : NumberDecoder) (a : List JSON) (hne : a ≠ [])
    (ha : ∀ x ∈ a, x ≠ JSON.null ∧ ∀ m, x ≠ JSON.obj m) :
    unmarshalMapItems nd a = none := by
  cases a with
  | nil => exact absurd rfl hne
  | cons x rest =>
    have hx := ha x (List.mem_cons_self _ _)
    cases x with
    | null => exact absurd rfl hx.1
    | obj m => exact absurd rfl (hx.2 m)
    | bool b => rfl
    | num m e => rfl
    | str s => rfl
    | arr items => rfl

theorem map_keep_non_objects (a : List JSON) (fs : List String)
    (ha : ∀ x ∈ a, ∀ m, x ≠ JSON.obj m) :
    a.map (fun item =>
      match item with
      | .obj m => JSON.obj (filterMap m fs)
      | other => other) = a := by
  induction a with
  | nil => rfl
  | cons x rest ih =>
    have hx := ha x (List.mem_cons_self _ _)
    have hrest := ih (fun y hy => ha y (List.mem_cons_of_mem _ hy))
    rw [List.map_cons, hrest]
    cases x with
    | obj m => exact absurd rfl (hx m)
    | null => rfl
    | bool b => rfl
    | num m e => rfl
    | str s => rfl
    | arr items => rfl

theorem objs_of_all_obj (a : List JSON) (hobj : ∀ x ∈ a, ∃ m, x = JSON.obj m) :
    ∃ recs : List (List (String × JSON)), a = recs.map JSON.obj := by
  induction a with
  | nil => exact ⟨[], rfl⟩
  | cons x rest ih =>
    obtain ⟨m, rfl⟩ := hobj x (List.mem_cons_self _ _)
    obtain ⟨recs, rfl⟩ := ih (fun y hy => hobj y (List.mem_cons_of_mem _ hy))
    exact ⟨m :: recs, rfl⟩

/-- C2 (amended): for a non-empty field list `F` and an object `d`, all of whose
numbers are within the `float64` range, whose `results` value is an array `a`
whose elements are all objects, or an array none of whose elements is an object
or `null` and which the JSON round trip reads back as it is,
`FilterFields d F` equals `FilterFields a F`. -/
theorem filterFields_results_eq_array (nd : NumberDecoder) (F : String) (hF : F ≠ "")
    (env env' : List (String × JSON)) (a : List JSON)
    (hread : unmarshalEntries nd env = .ok env')
    (hres : env.lookup "results" = some (.arr a))
    (ha : (∀ x ∈ a, ∃ m, x = JSON.obj m) ∨
      ((∀ x ∈ a, x ≠ JSON.null ∧ ∀ m, x ≠ JSON.obj m) ∧ unmarshalList nd a = .ok a)) :
    FilterFields nd (.obj env) F = FilterFields nd (.arr a) F := by
  rcases ha with hobj | ⟨hnone, hfix⟩
  · obtain ⟨recs, rfl⟩ := objs_of_all_obj a hobj
    obtain ⟨recs', hall, hff⟩ := filterFields_results_of_objects nd F hF env env' recs hread hres
    rw [hff, filterFields_array_of_objects nd F hF recs recs' hall]
  · obtain ⟨w, hw, hl⟩ := lookup_unmarshalEntries_some nd env env' hread "results" _ hres
    obtain ⟨xs, hxs, rfl⟩ := unmarshalValue_arr_ok nd a w hw
    rw [hfix] at hxs
    cases hxs
    rw [filterFields_obj nd F hF env env' hread, hl]
    have hkeep := map_keep_non_objects a (fieldList F) (fun x hx => (hnone x hx).2)
    by_cases hne : a = []
    · subst hne
      simp [FilterFields, hF, unmarshalMapSlice, unmarshalMapItems]
    · simp only [FilterFields, hF, if_false, unmarshalMapSlice, unmarshalMap,
        unmarshalMapItems_no_maps nd a hne hnone, hkeep]

/-- Witness of the amended C2 on the scenario response. -/
theorem filterFields_results_eq_array_witness :
    FilterFields sampleNumbers (.obj [("results", .arr (scenarioRecords.map JSON.obj))])
        "title,url" =
      FilterFields sampleNumbers (.arr (scenarioRecords.map JSON.obj)) "title,url" :=
  filterFields_results_eq_array sampleNumbers "title,url" (by decide)
    [("results", .arr (scenarioRecords.map JSON.obj))]
    [("results", .arr (scenarioRecords.map JSON.obj))] _ rfl rfl
    (Or.inl (by
      intro x hx
      simp only [scenarioRecords, List.map_cons, List.map_nil, List.mem_cons,
        List.mem_singleton, List.not_mem_nil, or_false] at hx
      rcases hx with rfl | rfl
      · exact ⟨_, rfl⟩
      · exact ⟨_, rfl⟩))

/-- C3: with the empty field list `FilterFields` returns the document itself. -/
theorem filterFields_empty (nd : NumberDecoder) (d : JSON) : FilterFields nd d "" = d := by
  simp [FilterFields]

/-- C4, as stated, fails: the value kept for a requested key is the value as the
JSON round trip reads it, a `float64`: of `{"n":9007199254740993,"requestId":"r1"}`
the field list `n` keeps `{"n":9007199254740992}`, which is not an entry of
the document. -/
theorem filterFields_plain_value_counterexample :
    FilterFields sampleNumbers
        (.obj [("n", .num 9007199254740993 0), ("requestId", .str "r1")]) "n" =
      .obj [("n", .num 9007199254740992 0)] ∧
    (("n", JSON.num 9007199254740992 0) ∉
      [("n", JSON.num 9007199254740993 0), ("requestId", JSON.str "r1")]) := by
  refine ⟨rfl, ?_⟩
  simp

/-- C4 (amended): for a non-empty field list `F` and an object `d`, all of whose
numbers are within the `float64` range, with no `results` key or whose `results`
value is not an array, `FilterFields d F` is an object holding exactly the
top-level keys of `d` that are names of `F`, in their original order and each
with its value as the JSON round trip reads it (`env'`: the same keys, every
number a `float64`). -/
theorem filterFields_plain_object (nd : NumberDecoder) (F : String) (hF : F ≠ "")
    (env env' : List (String × JSON))
    (hread : unmarshalEntries nd env = .ok env')
    (hres : env.lookup "results" = none ∨
      ∃ v, env.lookup "results" = some v ∧ ∀ a, v ≠ JSON.arr a) :
    ∃ out : List (String × JSON),
      FilterFields nd (.obj env) F = .obj out ∧
      env'.map Prod.fst = env.map Prod.fst ∧ out.Sublist env' ∧
      (∀ k v, (k, v) ∈ out ↔ (k, v) ∈ env' ∧ k ∈ fieldList F) ∧
      ∀ k, k ∈ out.map Prod.fst ↔ k ∈ env.map Prod.fst ∧ k ∈ fieldList F := by
  have hkeys := unmarshalEntries_keys nd env env' hread
  refine ⟨filterMap env' (fieldList F), ?_, hkeys, filterMap_sublist _ _,
    fun k v => mem_filterMap _ _ k v, ?_⟩
  · rw [filterFields_obj nd F hF env env' hread]
    rcases hres with hnone | ⟨v, hv, hnot⟩
    · rw [lookup_unmarshalEntries_none nd env env' hread "results" hnone]
    · obtain ⟨w, hw, hl⟩ := lookup_unmarshalEntries_some nd env env' hread "results" v hv
      have hwn := unmarshalValue_not_arr nd v w hw hnot
      rw [hl]
      cases w with
      | arr items => exact absurd rfl (hwn items)
      | null => rfl
      | bool b => rfl
      | num m e => rfl
      | str s => rfl
      | obj m => rfl
  · intro k
    rw [mem_keys_filterMap, hkeys]

/-- Witness of the amended C4: an answer response (no `results` key) filtered
with `answer`. -/
theorem filterFields_plain_object_witness :
    FilterFields sampleNumbers (.obj [("answer", .str "Paris"), ("requestId", .str "r1")])
        "answer" = .obj [("answer", .str "Paris")] ∧
    ∃ out : List (String × JSON),
      FilterFields sampleNumbers (.obj [("answer", .str "Paris"), ("requestId", .str "r1")])
        "answer" = .obj out ∧
      [("answer", JSON.str "Paris"), ("requestId", JSON.str "r1")].map Prod.fst =
        [("answer", JSON.str "Paris"), ("requestId", JSON.str "r1")].map Prod.fst ∧
      out.Sublist [("answer", .str "Paris"), ("requestId", .str "r1")] ∧
      (∀ k v, (k, v) ∈ out ↔
        (k, v) ∈ [("answer", JSON.str "Paris"), ("requestId", JSON.str "r1")] ∧
          k ∈ fieldList "answer") ∧
      ∀ k, k ∈ out.map Prod.fst ↔
        k ∈ [("answer", JSON.str "Paris"), ("requestId", JSON.str "r1")].map Prod.fst ∧
          k ∈ fieldList "answer" :=
  ⟨rfl, filterFields_plain_object sampleNumbers "answer" (by decide)
    [("answer", .str "Paris"), ("requestId", .str "r1")]
    [("answer", .str "Paris"), ("requestId", .str "r1")] rfl (Or.inl rfl)⟩

/-! ## Stream decoding -/

theorem textCalls_append (a b : List Effect) :
    textCalls (a ++ b) = textCalls a ++ textCalls b := by
  induction a with
  | nil => rfl
  | cons e rest ih => cases e <;> simp [textCalls, ih]

theorem doneCalls_append (a b : List Effect) :
    doneCalls (a ++ b) = doneCalls a ++ doneCalls b := by
  induction a with
  | nil => rfl
  | cons e rest ih => cases e <;> simp [doneCalls, ih]

theorem callbacks_append (a b : List Effect) :
    callbacks (a ++ b) = callbacks a ++ callbacks b := by
  induction a with
  | nil => rfl
  | cons e rest ih => cases e <;> simp [callbacks, ih]

theorem parsedChunks_cons (unmarshal : String → Except String AnswerStreamChunk)
    (line : String) (rest : List String) :
    parsedChunks unmarshal (line :: rest) =
      if HasPrefix line "data: " then
        if TrimPrefix line "data: " = "[DONE]" then []
        else
          match unmarshal (TrimPrefix line "data: ") with
          | .error _ => parsedChunks unmarshal rest
          | .ok chunk => chunk :: parsedChunks unmarshal rest
      else parsedChunks unmarshal rest := by
  by_cases hp : HasPrefix line "data: " = true
  · by_cases hd : TrimPrefix line "data: " = "[DONE]"
    · simp [parsedChunks, dataPayloads, hp, hd]
    · cases hu : unmarshal (TrimPrefix line "data: ") <;>
        simp [parsedChunks, dataPayloads, hp, hd, hu]
  · simp [parsedChunks, dataPayloads, hp]

theorem concat_filter_nonempty (xs : List String) :
    concat (xs.filter (fun s => !decide (s = ""))) = concat xs := by
  induction xs with
  | nil => rfl
  | cons s rest ih =>
    by_cases hs : s = ""
    · subst hs
      simp [concat, ih]
    · simp [concat, hs, ih]

theorem textCalls_scanLoop (c : Client) (unmarshal : String → Except String AnswerStreamChunk)
    (doneFn : Bool) (lines : List String) :
    textCalls (scanLoop c unmarshal true doneFn lines) =
      ((parsedChunks unmarshal lines).map (fun chunk => chunk.Text)).filter
        (fun s => !decide (s = "")) := by
  cases doneFn <;> induction lines with
  | nil => rfl
  | cons line rest ih =>
    rw [parsedChunks_cons, scanLoop]
    by_cases hp : HasPrefix line "data: " = true
    · by_cases hd : TrimPrefix line "data: " = "[DONE]"
      · simp [hp, hd, textCalls]
      · cases hu : unmarshal (TrimPrefix line "data: ") with
        | error e =>
          by_cases hdbg : c.debug = true <;>
            simp [hp, hd, hu, hdbg, textCalls_append, textCalls, ih]
        | ok chunk =>
          by_cases ht : chunk.Text = "" <;>
          by_cases hc : chunk.Citations.isSome = true <;>
            simp [hp, hd, hu, ht, hc, textCalls_append, textCalls, ih]
    · simp [hp, ih]

theorem doneCalls_scanLoop (c : Client) (unmarshal : String → Except String AnswerStreamChunk)
    (textFn : Bool) (lines : List String) :
    doneCalls (scanLoop c unmarshal textFn true lines) =
      ((parsedChunks unmarshal lines).filter (fun chunk => chunk.Citations.isSome)).map
        (fun chunk => { Answer := chunk.Answer, Citations := chunk.Citations,
                        CostDollars := chunk.CostDollars }) := by
  cases textFn <;> induction lines with
  | nil => rfl
  | cons line rest ih =>
    rw [parsedChunks_cons, scanLoop]
    by_cases hp : HasPrefix line "data: " = true
    · by_cases hd : TrimPrefix line "data: " = "[DONE]"
      · simp [hp, hd, doneCalls]
      · cases hu : unmarshal (TrimPrefix line "data: ") with
        | error e =>
          by_cases hdbg : c.debug = true <;>
            simp [hp, hd, hu, hdbg, doneCalls_append, doneCalls, ih]
        | ok chunk =>
          by_cases ht : chunk.Text = "" <;>
          by_cases hc : chunk.Citations.isSome = true <;>
            simp [hp, hd, hu, ht, hc, doneCalls_append, doneCalls, ih]
    · simp [hp, ih]

theorem callbacks_scanLoop_skip (c : Client) (unmarshal : String → Except String AnswerStreamChunk)
    (textFn doneFn : Bool) (xs ys : List String) (b : String)
    (hb : HasPrefix b "data: " = true) (hnd : TrimPrefix b "data: " ≠ "[DONE]")
    (hbad : ∃ e, unmarshal (TrimPrefix b "data: ") = .error e) :
    callbacks (scanLoop c unmarshal textFn doneFn (xs ++ b :: ys)) =
      callbacks (scanLoop c unmarshal textFn doneFn (xs ++ ys)) := by
  obtain ⟨e, he⟩ := hbad
  induction xs with
  | nil =>
    by_cases hdbg : c.debug = true <;>
      simp [scanLoop, hb, hnd, he, hdbg, callbacks_append, callbacks]
  | cons x rest ih =>
    simp only [List.cons_append]
    rw [scanLoop, scanLoop]
    by_cases hp : HasPrefix x "data: " = true
    · by_cases hd : TrimPrefix x "data: " = "[DONE]"
      · simp [hp, hd]
      · cases hu : unmarshal (TrimPrefix x "data: ") with
        | error e' => simp [hp, hd, hu, callbacks_append, ih]
        | ok chunk => simp [hp, hd, hu, callbacks_append, ih]
    · simp [hp, ih]

/-- C5, as stated, fails: the server streams the delta `Hello` and then a terminal
chunk whose `answer` is `Hello world`; the text callback receives `Hello`, the
completion callback receives the answer `Hello world` as sent. -/
theorem answerStream_answer_vs_text_counterexample :
    (AnswerStream sampleClient (.ok sampleRequestBody) none
        (.ok { StatusCode := 200, Lines := gapStreamLines }) sampleUnmarshal true true).effects =
      [Effect.text "Hello",
       Effect.done { Answer := "Hello world", Citations := some [] }] ∧
    ¬ (∀ r ∈ doneCalls (AnswerStream sampleClient (.ok sampleRequestBody) none
          (.ok { StatusCode := 200, Lines := gapStreamLines }) sampleUnmarshal true true).effects,
        concat (textCalls (AnswerStream sampleClient (.ok sampleRequestBody) none
          (.ok { StatusCode := 200, Lines := gapStreamLines })
          sampleUnmarshal true true).effects) = r.Answer) := by
  have h : (AnswerStream sampleClient (.ok sampleRequestBody) none
        (.ok { StatusCode := 200, Lines := gapStreamLines }) sampleUnmarshal true true).effects =
      [Effect.text "Hello",
       Effect.done { Answer := "Hello world", Citations := some [] }] := rfl
  refine ⟨h, ?_⟩
  rw [h]
  intro hall
  have := hall { Answer := "Hello world", Citations := some [] } (by simp [doneCalls])
  revert this
  decide

/-- C5 (amended): when the lines hold a terminal chunk (one carrying citations)
whose `answer` equals the concatenation of the `text` fields of the chunks parsed
from the `data: ` lines before the first `data: [DONE]`, the completion callback
is invoked with that chunk's `answer`, citations and cost, and the
concatenation, in delivery order, of the strings passed to the text callback
equals that `answer`. -/
theorem answerStream_answer_consistent (c : Client) (body : String) (resp : Response)
    (unmarshal : String → Except String AnswerStreamChunk) (chunk : AnswerStreamChunk)
    (hstatus : 200 ≤ resp.StatusCode ∧ resp.StatusCode < 300)
    (hterm : chunk ∈ parsedChunks unmarshal resp.Lines)
    (hcit : chunk.Citations.isSome = true)
    (hgap : chunk.Answer =
      concat ((parsedChunks unmarshal resp.Lines).map (fun ch => ch.Text))) :
    ({ Answer := chunk.Answer, Citations := chunk.Citations,
       CostDollars := chunk.CostDollars } : AnswerResponse) ∈
      doneCalls (AnswerStream c (.ok body) none (.ok resp) unmarshal true true).effects ∧
    concat (textCalls (AnswerStream c (.ok body) none (.ok resp) unmarshal true true).effects) =
      chunk.Answer := by
  have hnot : ¬ (resp.StatusCode < 200 ∨ resp.StatusCode ≥ 300) := by omega
  have hlog : ∀ msg : String, textCalls ((c.debugLog msg).map Effect.debug) = [] ∧
      doneCalls ((c.debugLog msg).map Effect.debug) = [] := by
    intro msg
    by_cases hd : c.debug = true <;> simp [Client.debugLog, hd, textCalls, doneCalls]
  simp only [AnswerStream, hnot, if_false, textCalls_append, doneCalls_append, hlog,
    List.nil_append, textCalls_scanLoop, doneCalls_scanLoop, concat_filter_nonempty]
  refine ⟨?_, hgap.symm⟩
  exact List.mem_map.mpr ⟨chunk, List.mem_filter.mpr ⟨hterm, hcit⟩, rfl⟩

/-- Witness of the amended C5: a delta `Hello` followed by a terminal chunk with answer `Hello`. -/
theorem answerStream_answer_consistent_witness :
    ({ Answer := "Hello", Citations := some [] } : AnswerResponse) ∈
      doneCalls (AnswerStream sampleClient (.ok sampleRequestBody) none
        (.ok { StatusCode := 200, Lines := gaplessStreamLines }) sampleUnmarshal true true).effects ∧
    concat (textCalls (AnswerStream sampleClient (.ok sampleRequestBody) none
      (.ok { StatusCode := 200, Lines := gaplessStreamLines })
      sampleUnmarshal true true).effects) = "Hello" :=
  answerStream_answer_consistent sampleClient sampleRequestBody
    { StatusCode := 200, Lines := gaplessStreamLines } sampleUnmarshal
    { Answer := "Hello", Citations := some [] } (by decide) (by decide) rfl rfl

/-- C6: a `data: ` line whose payload is not `[DONE]` and does not parse changes
neither the sequence of text and completion callbacks nor the returned error:
decoding `xs ++ [b] ++ ys` and decoding `xs ++ ys` agree on both. -/
theorem answerStream_skips_malformed (c : Client) (jsonBody : Except String String)
    (newRequest : Option String) (resp : Response)
    (unmarshal : String → Except String AnswerStreamChunk) (textFn doneFn : Bool)
    (xs ys : List String) (b : String)
    (hb : HasPrefix b "data: " = true) (hnd : TrimPrefix b "data: " ≠ "[DONE]")
    (hbad : ∃ e, unmarshal (TrimPrefix b "data: ") = .error e) :
    callbacks (AnswerStream c jsonBody newRequest (.ok { resp with Lines := xs ++ [b] ++ ys })
        unmarshal textFn doneFn).effects =
      callbacks (AnswerStream c jsonBody newRequest (.ok { resp with Lines := xs ++ ys })
        unmarshal textFn doneFn).effects ∧
    (AnswerStream c jsonBody newRequest (.ok { resp with Lines := xs ++ [b] ++ ys })
        unmarshal textFn doneFn).err =
      (AnswerStream c jsonBody newRequest (.ok { resp with Lines := xs ++ ys })
        unmarshal textFn doneFn).err := by
  have hskip := callbacks_scanLoop_skip c unmarshal textFn doneFn xs ys b hb hnd hbad
  cases jsonBody with
  | error e => exact ⟨rfl, rfl⟩
  | ok body =>
    cases newRequest with
    | some e => exact ⟨rfl, rfl⟩
    | none =>
      by_cases hs : resp.StatusCode < 200 ∨ resp.StatusCode ≥ 300
      · simp [AnswerStream, hs]
      · simp only [AnswerStream, hs, if_false, callbacks_append, List.append_assoc,
          List.singleton_append, hskip, and_self]

/-- Witness of C6: a truncated chunk between a text delta and the terminal chunk. -/
theorem answerStream_skips_malformed_witness :
    callbacks (AnswerStream sampleClient (.ok sampleRequestBody) none
        (.ok { StatusCode := 200,
               Lines := ["data: \x7b\"text\":\"Hello\"\x7d"] ++ ["data: \x7b\"text\":"] ++
                 ["data: \x7b\"answer\":\"Hello\",\"citations\":[]\x7d"] })
        sampleUnmarshal true true).effects =
      callbacks (AnswerStream sampleClient (.ok sampleRequestBody) none
        (.ok { StatusCode := 200,
               Lines := ["data: \x7b\"text\":\"Hello\"\x7d"] ++
                 ["data: \x7b\"answer\":\"Hello\",\"citations\":[]\x7d"] })
        sampleUnmarshal true true).effects ∧
    (AnswerStream sampleClient (.ok sampleRequestBody) none
        (.ok { StatusCode := 200,
               Lines := ["data: \x7b\"text\":\"Hello\"\x7d"] ++ ["data: \x7b\"text\":"] ++
                 ["data: \x7b\"answer\":\"Hello\",\"citations\":[]\x7d"] })
        sampleUnmarshal true true).err =
      (AnswerStream sampleClient (.ok sampleRequestBody) none
        (.ok { StatusCode := 200,
               Lines := ["data: \x7b\"text\":\"Hello\"\x7d"] ++
                 ["data: \x7b\"answer\":\"Hello\",\"citations\":[]\x7d"] })
        sampleUnmarshal true true).err :=
  answerStream_skips_malformed sampleClient (.ok sampleRequestBody) none { StatusCode := 200 }
    sampleUnmarshal true true ["data: \x7b\"text\":\"Hello\"\x7d"]
    ["data: \x7b\"answer\":\"Hello\",\"citations\":[]\x7d"] "data: \x7b\"text\":"
    (by decide) (by decide) ⟨_, rfl⟩

/-! ## Error classification -/

/-- C7: `toStructuredError` returns, for every message, a `CLIError` whose code is
one of the five (pairwise distinct) codes. -/
theorem toStructuredError_code_total (msg : String) :
    (toStructuredError msg).Code ∈ errorCodes ∧ errorCodes.Nodup := by
  refine ⟨?_, by decide⟩
  unfold toStructuredError errorCodes
  split_ifs <;> simp

theorem contains_apiError401_key (t : String) :
    Contains ("API error (status 401): " ++ t) "EXA_API_KEY" = Contains t "EXA_API_KEY" := by
  unfold Contains
  congr 1
  simp only [String.data_append]
  apply propext
  simp [List.infix_cons_iff, List.cons_prefix_cons]

theorem contains_apiError401_status (t : String) :
    Contains ("API error (status 401): " ++ t) "status 401" = true := by
  unfold Contains
  simp only [String.data_append, decide_eq_true_eq]
  exact ⟨"API error (".data, "): ".data ++ t.data, by simp⟩

/-- C8, as stated, fails: for the 401 response body `Invalid EXA_API_KEY` the
error returned by `doJSON` is classified `AUTH_REQUIRED`, the first row of the
classifier, not `AUTH_INVALID`. -/
theorem doJSON_401_classification_counterexample :
    (doJSON sampleClient "POST" "/search" (some (.ok sampleRequestBody)) none
        (.ok { StatusCode := 401, Body := "Invalid EXA_API_KEY" }) none).err =
      some "API error (status 401): Invalid EXA_API_KEY" ∧
    (toStructuredError "API error (status 401): Invalid EXA_API_KEY").Code = "AUTH_REQUIRED" ∧
    (toStructuredError "API error (status 401): Invalid EXA_API_KEY").Code ≠ "AUTH_INVALID" := by
  refine ⟨rfl, by decide, by decide⟩

/-- C8 (amended): for a response with status 401 whose body was read, `doJSON`
returns an error that `toStructuredError` classifies as recoverable, with code
`AUTH_INVALID` unless the body text carried in the message (the body truncated
to 500 units) contains `EXA_API_KEY`, in which case the code is `AUTH_REQUIRED`. -/
theorem doJSON_401_classification (c : Client) (method endpoint : String)
    (jsonBody : Option String) (result : Option (String → Option String)) (resp : Response)
    (h401 : resp.StatusCode = 401) (hread : resp.ReadErr = none) :
    ∃ msg, (doJSON c method endpoint (jsonBody.map Except.ok) none (.ok resp) result).err =
        some msg ∧
      (toStructuredError msg).Recoverable = true ∧
      (toStructuredError msg).Code =
        if Contains (truncate resp.Body 500) "EXA_API_KEY" then "AUTH_REQUIRED"
        else "AUTH_INVALID" := by
  refine ⟨"API error (status 401): " ++ truncate resp.Body 500, ?_, ?_, ?_⟩
  · have h401s : toString (401 : Int) = "401" := rfl
    have hmsg : "API error (status " ++ "401" ++ "): " ++ truncate resp.Body 500 =
        "API error (status 401): " ++ truncate resp.Body 500 := by
      rw [show "API error (status " ++ "401" ++ "): " = "API error (status 401): " from rfl]
    cases jsonBody <;> simp [doJSON, h401, hread, h401s, hmsg]
  · simp only [toStructuredError, contains_apiError401_key, contains_apiError401_status]
    split_ifs <;> rfl
  · simp only [toStructuredError, contains_apiError401_key, contains_apiError401_status]
    split_ifs <;> rfl

/-- Witness of the amended C8: a 401 response with an ordinary error body. -/
theorem doJSON_401_classification_witness :
    ∃ msg, (doJSON sampleClient "POST" "/search" ((some sampleRequestBody).map Except.ok) none
        (.ok { StatusCode := 401, Body := "unauthorized" }) none).err = some msg ∧
      (toStructuredError msg).Recoverable = true ∧
      (toStructuredError msg).Code =
        if Contains (truncate "unauthorized" 500) "EXA_API_KEY" then "AUTH_REQUIRED"
        else "AUTH_INVALID" :=
  doJSON_401_classification sampleClient "POST" "/search" (some sampleRequestBody) none
    { StatusCode := 401, Body := "unauthorized" } rfl rfl

/-! ## Request building -/

theorem lookup_omitEmptyString (k name s : String) :
    (omitEmptyString name s).lookup k =
      if s = "" then none else if k = name then some (JSON.str s) else none := by
  unfold omitEmptyString
  by_cases hs : s = ""
  · simp [hs]
  · by_cases hk : k = name <;> simp [hs, hk, List.lookup, beq_eq_false_iff_ne.mpr]

theorem lookup_omitEmptyInt (k name : String) (n : Int) :
    (omitEmptyInt name n).lookup k =
      if n = 0 then none else if k = name then some (JSON.num n 0) else none := by
  unfold omitEmptyInt
  by_cases hn : n = 0
  · simp [hn]
  · by_cases hk : k = name <;> simp [hn, hk, List.lookup, beq_eq_false_iff_ne.mpr]

theorem lookup_omitEmptyStrings (k name : String) (xs : List String) :
    (omitEmptyStrings name xs).lookup k =
      if xs.isEmpty then none else if k = name then some (JSON.arr (xs.map JSON.str)) else none := by
  unfold omitEmptyStrings
  by_cases hx : xs.isEmpty = true
  · simp [hx]
  · by_cases hk : k = name <;> simp [hx, hk, List.lookup, beq_eq_false_iff_ne.mpr]

theorem lookup_omitNil {α : Type} (k name : String) (p : Option α) (f : α → JSON) :
    (omitNil name p f).lookup k = if k = name then p.map f else none := by
  cases p with
  | none => simp [omitNil]
  | some v => by_cases hk : k = name <;> simp [omitNil, hk, List.lookup, beq_eq_false_iff_ne.mpr]

theorem contents_of_runSearchRequest (args : List String) (f : SearchFlags) :
    (runSearchRequest args f).marshal.get? "contents" =
      ((runSearchRequest args f).Contents).map ContentsSpec.marshal := by
  simp [SearchRequest.marshal, JSON.get?, List.lookup_append, lookup_omitEmptyString,
    lookup_omitEmptyInt, lookup_omitEmptyStrings, lookup_omitNil, List.lookup]

theorem livecrawl_of_contentsSpec (c : ContentsSpec) :
    c.marshal.get? "livecrawl" = if c.Livecrawl = "" then none else some (JSON.str c.Livecrawl) := by
  simp [ContentsSpec.marshal, JSON.get?, List.lookup_append, lookup_omitEmptyString,
    lookup_omitEmptyInt, lookup_omitEmptyStrings, lookup_omitNil]

theorem contents_field_of_runSearchRequest (args : List String) (f : SearchFlags) :
    (runSearchRequest args f).Contents =
      if f.searchNoContents = false ∧ (searchContents f).2 = true then some (searchContents f).1
      else none := by
  cases hnc : f.searchNoContents <;> cases hh : (searchContents f).2 <;>
    simp only [runSearchRequest, hnc, hh, apply_ite SearchRequest.Contents, ite_self,
      Bool.not_true, Bool.not_false, if_true, if_false, Bool.false_eq_true, and_self,
      and_false, false_and, and_true, true_and, reduceCtorEq]

theorem searchContents_livecrawl (f : SearchFlags) :
    (searchContents f).1.Livecrawl =
      if f.searchMaxAge ≥ 0 then (if f.searchMaxAge = 0 then "always" else "fallback")
      else "" := by
  unfold searchContents
  split_ifs <;> rfl

theorem searchContents_hasContents (f : SearchFlags) :
    (searchContents f).2 = true ↔
      (f.searchText = true ∨ f.searchHighlights = true ∨ f.searchSummary = true ∨
        f.searchMaxAge ≥ 0 ∨ f.searchSubpages > 0) := by
  unfold searchContents
  split_ifs <;> simp_all

theorem livecrawl_of_contentsRequest (r : ContentsRequest) :
    r.marshal.get? "livecrawl" =
      if r.Livecrawl = "" then none else some (JSON.str r.Livecrawl) := by
  simp [ContentsRequest.marshal, JSON.get?, List.lookup_append, lookup_omitEmptyString,
    lookup_omitEmptyInt, lookup_omitEmptyStrings, lookup_omitNil]

theorem runContentsRequest_livecrawl (args : List String) (g : ContentsFlags) :
    (runContentsRequest args g).Livecrawl =
      if g.contentsMaxAge ≥ 0 then (if g.contentsMaxAge = 0 then "always" else "fallback")
      else "" := by
  simp only [runContentsRequest, apply_ite ContentsRequest.Livecrawl, ite_self]

theorem livecrawl_of_runContentsRequest (args : List String) (g : ContentsFlags) :
    (runContentsRequest args g).marshal.get? "livecrawl" =
      if g.contentsMaxAge ≥ 0 then
        (if g.contentsMaxAge = 0 then some (JSON.str "always") else some (JSON.str "fallback"))
      else none := by
  rw [livecrawl_of_contentsRequest, runContentsRequest_livecrawl]
  split_ifs <;> simp_all

theorem searchLivecrawl_of_runSearchRequest (args : List String) (f : SearchFlags)
    (hnc : f.searchNoContents = false) :
    searchLivecrawl (runSearchRequest args f).marshal =
      if f.searchMaxAge ≥ 0 then
        (if f.searchMaxAge = 0 then some (JSON.str "always") else some (JSON.str "fallback"))
      else none := by
  rw [searchLivecrawl, contents_of_runSearchRequest, contents_field_of_runSearchRequest]
  by_cases hh : (searchContents f).2 = true
  · simp only [hnc, hh, and_self, if_true, Option.map_some', Option.some_bind,
      livecrawl_of_contentsSpec, searchContents_livecrawl]
    split_ifs <;> simp_all
  · have hno := mt (searchContents_hasContents f).mpr hh
    have hage : ¬ f.searchMaxAge ≥ 0 := fun h => hno (Or.inr (Or.inr (Or.inr (Or.inl h))))
    simp [hh, hage]

/-- C9: for every freshness age `a`, the serialized search request (no-contents
toggle unset) carries `contents.livecrawl`, and the serialized contents request
carries `livecrawl`, equal to `"always"` when `a = 0` and to `"fallback"` when
`a > 0`; when `a < 0` the field is absent from both. -/
theorem livecrawl_of_freshness_age (a : Int) (args₁ args₂ : List String) (f : SearchFlags)
    (g : ContentsFlags) (hnc : f.searchNoContents = false)
    (hf : f.searchMaxAge = a) (hg : g.contentsMaxAge = a) :
    (a = 0 →
      searchLivecrawl (runSearchRequest args₁ f).marshal = some (JSON.str "always") ∧
        (runContentsRequest args₂ g).marshal.get? "livecrawl" = some (JSON.str "always")) ∧
    (a > 0 →
      searchLivecrawl (runSearchRequest args₁ f).marshal = some (JSON.str "fallback") ∧
        (runContentsRequest args₂ g).marshal.get? "livecrawl" = some (JSON.str "fallback")) ∧
    (a < 0 →
      searchLivecrawl (runSearchRequest args₁ f).marshal = none ∧
        (runContentsRequest args₂ g).marshal.get? "livecrawl" = none) := by
  rw [searchLivecrawl_of_runSearchRequest args₁ f hnc, livecrawl_of_runContentsRequest args₂ g,
    hf, hg]
  refine ⟨fun h0 => ?_, fun hpos => ?_, fun hneg => ?_⟩
  · simp [h0]
  · have h1 : a ≥ 0 := by omega
    have h2 : a ≠ 0 := by omega
    simp [h1, h2]
  · have h1 : ¬ a ≥ 0 := by omega
    simp [h1]

/-- Witness of C9: the scenario inputs `0`, `5` and `-1` on otherwise default flags. -/
theorem livecrawl_of_freshness_age_witness :
    (searchLivecrawl (runSearchRequest ["q"] { searchMaxAge := 0 }).marshal =
        some (JSON.str "always") ∧
      (runContentsRequest ["u"] { contentsMaxAge := 0 }).marshal.get? "livecrawl" =
        some (JSON.str "always")) ∧
    (searchLivecrawl (runSearchRequest ["q"] { searchMaxAge := 5 }).marshal =
        some (JSON.str "fallback") ∧
      (runContentsRequest ["u"] { contentsMaxAge := 5 }).marshal.get? "livecrawl" =
        some (JSON.str "fallback")) ∧
    (searchLivecrawl (runSearchRequest ["q"] { searchMaxAge := -1 }).marshal = none ∧
      (runContentsRequest ["u"] { contentsMaxAge := -1 }).marshal.get? "livecrawl" = none) :=
  ⟨(livecrawl_of_freshness_age 0 ["q"] ["u"] { searchMaxAge := 0 } { contentsMaxAge := 0 }
      rfl rfl rfl).1 rfl,
   (livecrawl_of_freshness_age 5 ["q"] ["u"] { searchMaxAge := 5 } { contentsMaxAge := 5 }
      rfl rfl rfl).2.1 (by decide),
   (livecrawl_of_freshness_age (-1) ["q"] ["u"] { searchMaxAge := -1 } { contentsMaxAge := -1 }
      rfl rfl rfl).2.2 (by decide)⟩

/-- C10: with the no-contents toggle unset, the serialized search request has a
`contents` field exactly when at least one content sub-option was requested
(text, highlights or summary set, freshness age at least 0, or subpage count
above 0). -/
theorem contents_present_iff_requested (args : List String) (f : SearchFlags)
    (hnc : f.searchNoContents = false) :
    ((runSearchRequest args f).marshal.get? "contents").isSome = true ↔
      (f.searchText = true ∨ f.searchHighlights = true ∨ f.searchSummary = true ∨
        f.searchMaxAge ≥ 0 ∨ f.searchSubpages > 0) := by
  rw [contents_of_runSearchRequest, contents_field_of_runSearchRequest,
    ← searchContents_hasContents]
  by_cases hh : (searchContents f).2 = true <;> simp [hnc, hh]

/-- Witness of C10: with `--highlights` alone the serialized request has a `contents` field. -/
theorem contents_present_iff_requested_witness :
    ((runSearchRequest ["q"] { searchHighlights := true }).marshal.get? "contents").isSome =
        true ↔
      ((false = true) ∨ (true = true) ∨ (false = true) ∨ (-1 : Int) ≥ 0 ∨ (0 : Int) > 0) :=
  contents_present_iff_requested ["q"] { searchHighlights := true } rfl

/-! ## Usage totals -/

theorem wrapInt_of_fits (n : Int)
    (h : -9223372036854775808 ≤ n ∧ n < 9223372036854775808) : wrapInt n = n := by
  unfold wrapInt
  omega

theorem wrapInt_add_wrapInt (a b : Int) : wrapInt (wrapInt a + b) = wrapInt (a + b) := by
  unfold wrapInt
  omega

theorem usageLoop_totalRequests {F : Type} (ops : FloatOps F) (usage : List (UsageEntry F))
    (acc : UsageAcc F) :
    wrapInt (usageLoop ops usage acc).totalRequests =
      wrapInt (acc.totalRequests + (usage.map (fun u => u.RequestCount)).sum) := by
  induction usage generalizing acc with
  | nil => simp [usageLoop]
  | cons u rest ih =>
    rw [usageLoop, ih]
    simp only [List.map_cons, List.sum_cons]
    rw [wrapInt_add_wrapInt, add_assoc]

theorem usageLoop_totalRequests_wrapped {F : Type} (ops : FloatOps F)
    (usage : List (UsageEntry F)) (acc : UsageAcc F)
    (hacc : wrapInt acc.totalRequests = acc.totalRequests) :
    wrapInt (usageLoop ops usage acc).totalRequests = (usageLoop ops usage acc).totalRequests := by
  induction usage generalizing acc with
  | nil => simpa [usageLoop] using hacc
  | cons u rest ih =>
    rw [usageLoop]
    apply ih
    simp only
    unfold wrapInt
    omega

theorem usageTotals_totalRequests {F : Type} (ops : FloatOps F) (usage : List (UsageEntry F)) :
    (usageTotals ops usage).totalRequests =
      wrapInt ((usage.map (fun u => u.RequestCount)).sum) := by
  have h₁ := usageLoop_totalRequests ops usage
    { Rows := [], totalRequests := 0, totalCredits := ops.zero }
  have h₂ := usageLoop_totalRequests_wrapped ops usage
    { Rows := [], totalRequests := 0, totalCredits := ops.zero }
    (by show wrapInt 0 = 0; decide)
  simp only [zero_add] at h₁
  rw [usageTotals, ← h₂, h₁]

theorem usageLoop_totalCredits {F : Type} (ops : FloatOps F) (usage : List (UsageEntry F))
    (acc : UsageAcc F) :
    (usageLoop ops usage acc).totalCredits =
      usage.foldl (fun x u => ops.add x u.CreditUsage) acc.totalCredits := by
  induction usage generalizing acc with
  | nil => rfl
  | cons u rest ih => rw [usageLoop, ih, List.foldl_cons]

theorem usageLoop_rows {F : Type} (ops : FloatOps F) (usage : List (UsageEntry F))
    (acc : UsageAcc F) :
    (usageLoop ops usage acc).Rows =
      acc.Rows ++ usage.map (fun u =>
        [u.Date, toString u.RequestCount, ops.fmt4 u.CreditUsage]) := by
  induction usage generalizing acc with
  | nil => simp [usageLoop]
  | cons u rest ih => rw [usageLoop, ih]; simp

/-- C11, as stated, fails: the request counts `9223372036854775807` and `1` add
up to `9223372036854775808`, but the total kept in a Go `int` wraps around to
`-9223372036854775808`. -/
theorem usage_total_requests_counterexample :
    (usageTotals exactOps overflowUsage).totalRequests = -9223372036854775808 ∧
    (overflowUsage.map (fun u => u.RequestCount)).sum = 9223372036854775808 ∧
    (usageTotals exactOps overflowUsage).totalRequests ≠
      (overflowUsage.map (fun u => u.RequestCount)).sum := by
  have h₁ : (usageTotals exactOps overflowUsage).totalRequests = -9223372036854775808 := by
    rw [usageTotals_totalRequests]
    decide
  have h₂ : (overflowUsage.map (fun u => u.RequestCount)).sum = 9223372036854775808 := by
    decide
  refine ⟨h₁, h₂, ?_⟩
  rw [h₁, h₂]
  decide

/-- C11 (amended): for every sequence of usage entries whose request counts add
up to a value a Go `int` holds (64 bits), the total request count of the footer
is the sum of the `requestCount` of the entries; the total credits are the
`creditUsage` of the entries added up by `float64` addition in input order starting from `0.0`;
there is one row per entry in input order; the entries handed on to the renderer
are the input entries. -/
theorem usage_totals (F : Type) (ops : FloatOps F) (usage : List (UsageEntry F))
    (usageStartDate usageEndDate : String)
    (hfit : -9223372036854775808 ≤ (usage.map (fun u => u.RequestCount)).sum ∧
      (usage.map (fun u => u.RequestCount)).sum < 9223372036854775808) :
    (usageTotals ops usage).totalRequests = (usage.map (fun u => u.RequestCount)).sum ∧
    (usageTotals ops usage).totalCredits =
      usage.foldl (fun x u => ops.add x u.CreditUsage) ops.zero ∧
    (runUsageTable ops usage usageStartDate usageEndDate).1.Rows =
      usage.map (fun u => [u.Date, toString u.RequestCount, ops.fmt4 u.CreditUsage]) ∧
    (runUsageTable ops usage usageStartDate usageEndDate).1.Footer =
      "Total: " ++ toString ((usage.map (fun u => u.RequestCount)).sum) ++ " requests, " ++
        ops.fmt4 (usage.foldl (fun x u => ops.add x u.CreditUsage) ops.zero) ++
        " credits | " ++ usageStartDate ++ " to " ++ usageEndDate ∧
    (runUsageTable ops usage usageStartDate usageEndDate).2 = usage := by
  have hreq : (usageTotals ops usage).totalRequests =
      (usage.map (fun u => u.RequestCount)).sum := by
    rw [usageTotals_totalRequests, wrapInt_of_fits _ hfit]
  have hcred : (usageTotals ops usage).totalCredits =
      usage.foldl (fun x u => ops.add x u.CreditUsage) ops.zero := by
    rw [usageTotals, usageLoop_totalCredits]
  have hrows : (usageTotals ops usage).Rows =
      usage.map (fun u => [u.Date, toString u.RequestCount, ops.fmt4 u.CreditUsage]) := by
    rw [usageTotals, usageLoop_rows]
    simp
  refine ⟨hreq, hcred, ?_, ?_, rfl⟩
  · simp only [runUsageTable, hrows]
  · simp only [runUsageTable, hreq, hcred]

/-- Witness of the amended C11 on the scenario: the totals are 5 and 2. -/
theorem usage_totals_witness :
    ((scenarioUsage.map (fun u => u.RequestCount)).sum = 5 ∧
      scenarioUsage.foldl (fun x u => exactOps.add x u.CreditUsage) exactOps.zero = 2) ∧
    (usageTotals exactOps scenarioUsage).totalRequests =
      (scenarioUsage.map (fun u => u.RequestCount)).sum ∧
    (usageTotals exactOps scenarioUsage).totalCredits =
      scenarioUsage.foldl (fun x u => exactOps.add x u.CreditUsage) exactOps.zero ∧
    (runUsageTable exactOps scenarioUsage "2025-01-01" "2025-01-02").1.Rows =
      scenarioUsage.map (fun u =>
        [u.Date, toString u.RequestCount, exactOps.fmt4 u.CreditUsage]) ∧
    (runUsageTable exactOps scenarioUsage "2025-01-01" "2025-01-02").1.Footer =
      "Total: " ++ toString ((scenarioUsage.map (fun u => u.RequestCount)).sum) ++
        " requests, " ++
        exactOps.fmt4 (scenarioUsage.foldl (fun x u => exactOps.add x u.CreditUsage)
          exactOps.zero) ++
        " credits | " ++ "2025-01-01" ++ " to " ++ "2025-01-02" ∧
    (runUsageTable exactOps scenarioUsage "2025-01-01" "2025-01-02").2 = scenarioUsage :=
  ⟨⟨by decide, by norm_num [scenarioUsage, exactOps]⟩,
   usage_totals ℚ exactOps scenarioUsage "2025-01-01" "2025-01-02" (by decide)⟩

/-! ## Classification table -/

/-- C12: `toStructuredError` returns the code and the recoverable flag of the
first row of the table whose marker occurs in the message, with a suggestion
that is not empty; when no marker occurs it returns `UNKNOWN`, not recoverable,
with the empty suggestion. -/
theorem toStructuredError_first_row (m : String) :
    match firstRow m with
    | some row =>
      (toStructuredError m).Code = row.2.1 ∧ (toStructuredError m).Recoverable = row.2.2 ∧
        (toStructuredError m).Suggestion ≠ ""
    | none =>
      (toStructuredError m).Code = "UNKNOWN" ∧ (toStructuredError m).Recoverable = false ∧
        (toStructuredError m).Suggestion = "" := by
  by_cases h₁ : Contains m "EXA_API_KEY" = true
  · simp [firstRow, classifierRows, List.find?, toStructuredError, h₁]
  · by_cases h₂ : Contains m "status 401" = true
    · simp [firstRow, classifierRows, List.find?, toStructuredError, h₁, h₂]
    · by_cases h₃ : Contains m "status 429" = true
      · simp [firstRow, classifierRows, List.find?, toStructuredError, h₁, h₂, h₃]
      · by_cases h₄ : Contains m "request failed" = true
        · simp [firstRow, classifierRows, List.find?, toStructuredError, h₁, h₂, h₃, h₄]
        · simp [firstRow, classifierRows, List.find?, toStructuredError, h₁, h₂, h₃, h₄]

/-! ## Missing credential -/

theorem getAPIKey_load_failure_classified (home : Except String String)
    (readFile : String → Except String String)
    (unmarshal : String → Except String AuthConfig) (e : String)
    (hload : loadAuth home readFile unmarshal = .error e) :
    ∃ msg, GetAPIKey "" home readFile unmarshal = .error msg ∧
      (toStructuredError msg).Code = "AUTH_REQUIRED" ∧
      (toStructuredError msg).Recoverable = true ∧
      (toStructuredError msg).Suggestion =
        "Set EXA_API_KEY environment variable or run \x27exa auth\x27" := by
  refine ⟨"EXA_API_KEY not set and no config file found.\n" ++
    "Run \x27exa auth\x27 to configure or set EXA_API_KEY environment variable",
    by simp [GetAPIKey, hload], ?_, ?_, ?_⟩ <;> decide

/-- C13 at the failing input: with the environment variable unset and a config
file holding an empty key, `GetAPIKey` returns `no valid authentication found`,
which `toStructuredError` classifies as `UNKNOWN`, not recoverable, without
suggestion. -/
theorem getAPIKey_empty_key_unknown :
    GetAPIKey "" (.ok "/home/u") (fun _ => .ok "\x7b\"api_key\":\"\"\x7d")
        sampleAuthUnmarshal = .error "no valid authentication found" ∧
    toStructuredError "no valid authentication found" =
      { Code := "UNKNOWN", Message := "no valid authentication found",
        Recoverable := false, Suggestion := "" } := by
  constructor
  · rfl
  · decide

/-! ## Status errors -/

theorem hasPrefix_apiError (rest : String) :
    HasPrefix ("API error (status " ++ rest) "API error (status " = true := by
  simp [HasPrefix, String.data_append]

theorem hasPrefix_parseResponse (e : String) :
    HasPrefix ("parse response: " ++ e) "API error (status " = false := by
  simp [HasPrefix, String.data_append, List.isPrefixOf]

/-- C14: once the body `b` of a response with status `s` has been read, `doJSON`
returns an API error exactly when `s < 200` or `s >= 300`; it then has not handed
`b` to `json.Unmarshal`, and the message is `API error (status s): ` followed by
`b` when `b` is at most 500 long and by the first 500 units of `b` and `...`
otherwise. -/
theorem doJSON_status_error (c : Client) (method endpoint : String) (jsonBody : Option String)
    (result : Option (String → Option String)) (resp : Response)
    (hread : resp.ReadErr = none) :
    ((∃ msg, (doJSON c method endpoint (jsonBody.map Except.ok) none (.ok resp) result).err =
          some msg ∧ HasPrefix msg "API error (status " = true) ↔
        (resp.StatusCode < 200 ∨ resp.StatusCode ≥ 300)) ∧
    ((resp.StatusCode < 200 ∨ resp.StatusCode ≥ 300) →
      (doJSON c method endpoint (jsonBody.map Except.ok) none (.ok resp) result).unmarshalled =
          none ∧
        (doJSON c method endpoint (jsonBody.map Except.ok) none (.ok resp) result).err =
          some ("API error (status " ++ toString resp.StatusCode ++ "): " ++
            (if resp.Body.length ≤ 500 then resp.Body
             else String.mk (resp.Body.data.take 500) ++ "..."))) := by
  by_cases hs : resp.StatusCode < 200 ∨ resp.StatusCode ≥ 300
  · have herr : (doJSON c method endpoint (jsonBody.map Except.ok) none (.ok resp) result).err =
        some ("API error (status " ++ toString resp.StatusCode ++ "): " ++
          truncate resp.Body 500) := by
      cases jsonBody <;> simp [doJSON, hread, hs]
    have hun : (doJSON c method endpoint (jsonBody.map Except.ok) none (.ok resp)
        result).unmarshalled = none := by
      cases jsonBody <;> simp [doJSON, hread, hs]
    refine ⟨⟨fun _ => hs, fun _ => ⟨_, herr, ?_⟩⟩, fun _ => ⟨hun, ?_⟩⟩
    · rw [String.append_assoc, String.append_assoc]
      exact hasPrefix_apiError _
    · rw [herr]
      rfl
  · refine ⟨⟨?_, fun h => absurd h hs⟩, fun h => absurd h hs⟩
    rintro ⟨msg, hmsg, hpre⟩
    exfalso
    cases jsonBody <;> cases result with
    | none => simp [doJSON, hread, hs] at hmsg
    | some unmarshal =>
      cases hu : unmarshal resp.Body with
      | none => simp [doJSON, hread, hs, hu] at hmsg
      | some e =>
        simp [doJSON, hread, hs, hu] at hmsg
        rw [← hmsg, hasPrefix_parseResponse] at hpre
        exact Bool.noConfusion hpre

/-- Witness of C14: a 500 response with a short body. -/
theorem doJSON_status_error_witness :
    ((∃ msg, (doJSON sampleClient "POST" "/search" ((some sampleRequestBody).map Except.ok) none
          (.ok { StatusCode := 500, Body := "oops" }) none).err = some msg ∧
        HasPrefix msg "API error (status " = true) ↔
        ((500 : Int) < 200 ∨ (500 : Int) ≥ 300)) ∧
    (((500 : Int) < 200 ∨ (500 : Int) ≥ 300) →
      (doJSON sampleClient "POST" "/search" ((some sampleRequestBody).map Except.ok) none
          (.ok { StatusCode := 500, Body := "oops" }) none).unmarshalled = none ∧
        (doJSON sampleClient "POST" "/search" ((some sampleRequestBody).map Except.ok) none
          (.ok { StatusCode := 500, Body := "oops" }) none).err =
          some ("API error (status " ++ toString (500 : Int) ++ "): " ++
            (if "oops".length ≤ 500 then "oops"
             else String.mk ("oops".data.take 500) ++ "..."))) :=
  doJSON_status_error sampleClient "POST" "/search" (some sampleRequestBody) none
    { StatusCode := 500, Body := "oops" } rfl

/-- C15: for a status outside `[200, 300)` and a body that has been read,
`AnswerStream` returns the error `doJSON` returns for the same status and body,
and performs no callback. -/
theorem answerStream_error_as_doJSON (c : Client) (method endpoint body : String)
    (jsonBody : Option String) (result : Option (String → Option String)) (resp : Response)
    (unmarshal : String → Except String AnswerStreamChunk) (textFn doneFn : Bool)
    (hs : resp.StatusCode < 200 ∨ resp.StatusCode ≥ 300) (hread : resp.ReadErr = none) :
    (AnswerStream c (.ok body) none (.ok resp) unmarshal textFn doneFn).err =
      (doJSON c method endpoint (jsonBody.map Except.ok) none (.ok resp) result).err ∧
    (∃ msg, (AnswerStream c (.ok body) none (.ok resp) unmarshal textFn doneFn).err =
      some msg) ∧
    callbacks (AnswerStream c (.ok body) none (.ok resp) unmarshal textFn doneFn).effects = [] := by
  have hcb : ∀ msg : String, callbacks ((c.debugLog msg).map Effect.debug) = [] := by
    intro msg
    by_cases hd : c.debug = true <;> simp [Client.debugLog, hd, callbacks]
  refine ⟨?_, ?_, ?_⟩
  · cases jsonBody <;> simp [AnswerStream, doJSON, hread, hs]
  · simp [AnswerStream, hs]
  · simp [AnswerStream, hs, hcb]

/-- Witness of C15: a 429 response. -/
theorem answerStream_error_as_doJSON_witness :
    (AnswerStream sampleClient (.ok sampleRequestBody) none
        (.ok { StatusCode := 429, Body := "slow down", Lines := ["data: [DONE]"] })
        sampleUnmarshal true true).err =
      (doJSON sampleClient "POST" "/answer" ((some sampleRequestBody).map Except.ok) none
        (.ok { StatusCode := 429, Body := "slow down", Lines := ["data: [DONE]"] }) none).err ∧
    (∃ msg, (AnswerStream sampleClient (.ok sampleRequestBody) none
        (.ok { StatusCode := 429, Body := "slow down", Lines := ["data: [DONE]"] })
        sampleUnmarshal true true).err = some msg) ∧
    callbacks (AnswerStream sampleClient (.ok sampleRequestBody) none
        (.ok { StatusCode := 429, Body := "slow down", Lines := ["data: [DONE]"] })
        sampleUnmarshal true true).effects = [] :=
  answerStream_error_as_doJSON sampleClient "POST" "/answer" sampleRequestBody
    (some sampleRequestBody) none
    { StatusCode := 429, Body := "slow down", Lines := ["data: [DONE]"] }
    sampleUnmarshal true true (by decide) rfl

/-! ## Stream decoding: sentinel, ignored lines, delivery -/

theorem scanLoop_stops_at_done (c : Client) (unmarshal : String → Except String AnswerStreamChunk)
    (textFn doneFn : Bool) (xs ys : List String) :
    scanLoop c unmarshal textFn doneFn (xs ++ "data: [DONE]" :: ys) =
      scanLoop c unmarshal textFn doneFn (xs ++ ["data: [DONE]"]) := by
  have hp : HasPrefix "data: [DONE]" "data: " = true := by decide
  have hd : TrimPrefix "data: [DONE]" "data: " = "[DONE]" := by decide
  induction xs with
  | nil => simp [scanLoop, hp, hd]
  | cons x rest ih =>
    simp only [List.cons_append]
    rw [scanLoop, scanLoop, ih]

theorem scanLoop_congr_unmarshal (c : Client)
    (unmarshal unmarshal₂ : String → Except String AnswerStreamChunk)
    (textFn doneFn : Bool) (lines : List String)
    (hagree : ∀ p, p ≠ "[DONE]" → unmarshal₂ p = unmarshal p) :
    scanLoop c unmarshal₂ textFn doneFn lines = scanLoop c unmarshal textFn doneFn lines := by
  induction lines with
  | nil => rfl
  | cons x rest ih =>
    rw [scanLoop, scanLoop, ih]
    by_cases hp : HasPrefix x "data: " = true
    · by_cases hd : TrimPrefix x "data: " = "[DONE]"
      · simp [hp, hd]
      · simp [hp, hd, hagree _ hd]
    · simp [hp]

theorem scanLoop_skip_other (c : Client) (unmarshal : String → Except String AnswerStreamChunk)
    (textFn doneFn : Bool) (xs ys : List String) (l : String)
    (hl : HasPrefix l "data: " = false) :
    scanLoop c unmarshal textFn doneFn (xs ++ l :: ys) =
      scanLoop c unmarshal textFn doneFn (xs ++ ys) := by
  induction xs with
  | nil => simp [scanLoop, hl]
  | cons x rest ih =>
    simp only [List.cons_append]
    rw [scanLoop, scanLoop, ih]

/-- C16: whatever follows the first `data: [DONE]` line has no effect: decoding
`xs ++ ["data: [DONE]"] ++ ys` performs exactly the callbacks (and debug messages)
of decoding `xs ++ ["data: [DONE]"]` and returns the same error; and the sentinel
is never parsed: the outcome does not depend on what `json.Unmarshal` would
make of the payload `[DONE]`. -/
theorem answerStream_stops_at_done (c : Client) (jsonBody : Except String String)
    (newRequest : Option String) (resp : Response)
    (unmarshal : String → Except String AnswerStreamChunk) (textFn doneFn : Bool)
    (xs ys : List String) :
    AnswerStream c jsonBody newRequest
        (.ok { resp with Lines := xs ++ ["data: [DONE]"] ++ ys }) unmarshal textFn doneFn =
      AnswerStream c jsonBody newRequest
        (.ok { resp with Lines := xs ++ ["data: [DONE]"] }) unmarshal textFn doneFn ∧
    ∀ unmarshal₂ : String → Except String AnswerStreamChunk,
      (∀ p, p ≠ "[DONE]" → unmarshal₂ p = unmarshal p) →
      AnswerStream c jsonBody newRequest
          (.ok { resp with Lines := xs ++ ["data: [DONE]"] ++ ys }) unmarshal₂ textFn doneFn =
        AnswerStream c jsonBody newRequest
          (.ok { resp with Lines := xs ++ ["data: [DONE]"] ++ ys }) unmarshal textFn doneFn := by
  constructor
  · cases jsonBody with
    | error e => rfl
    | ok body =>
      cases newRequest with
      | some e => rfl
      | none =>
        simp only [AnswerStream, List.append_assoc, List.singleton_append,
          scanLoop_stops_at_done]
  · intro unmarshal₂ hagree
    cases jsonBody with
    | error e => rfl
    | ok body =>
      cases newRequest with
      | some e => rfl
      | none =>
        simp only [AnswerStream, scanLoop_congr_unmarshal c unmarshal unmarshal₂ textFn doneFn _
          hagree]

/-- Witness of C16: a terminal chunk placed after the sentinel is not delivered, and a
decoder that would accept `[DONE]` changes nothing. -/
theorem answerStream_stops_at_done_witness :
    (AnswerStream sampleClient (.ok sampleRequestBody) none
        (.ok { StatusCode := 200,
               Lines := ["data: \x7b\"text\":\"Hello\"\x7d"] ++ ["data: [DONE]"] ++
                 ["data: \x7b\"answer\":\"Hello\",\"citations\":[]\x7d"] })
        sampleUnmarshal true true).effects = [Effect.text "Hello"] ∧
    AnswerStream sampleClient (.ok sampleRequestBody) none
        (.ok { StatusCode := 200,
               Lines := ["data: \x7b\"text\":\"Hello\"\x7d"] ++ ["data: [DONE]"] ++
                 ["data: \x7b\"answer\":\"Hello\",\"citations\":[]\x7d"] })
        (fun p => if p = "[DONE]" then .ok { Text := "done" } else sampleUnmarshal p)
        true true =
      AnswerStream sampleClient (.ok sampleRequestBody) none
        (.ok { StatusCode := 200,
               Lines := ["data: \x7b\"text\":\"Hello\"\x7d"] ++ ["data: [DONE]"] ++
                 ["data: \x7b\"answer\":\"Hello\",\"citations\":[]\x7d"] })
        sampleUnmarshal true true :=
  ⟨rfl,
   (answerStream_stops_at_done sampleClient (.ok sampleRequestBody) none { StatusCode := 200 }
      sampleUnmarshal true true ["data: \x7b\"text\":\"Hello\"\x7d"]
      ["data: \x7b\"answer\":\"Hello\",\"citations\":[]\x7d"]).2
      (fun p => if p = "[DONE]" then .ok { Text := "done" } else sampleUnmarshal p)
      (fun p hp => by simp [hp])⟩

/-- C17: a line that does not start with `data: ` (the empty line included) is
ignored: decoding `xs ++ [l] ++ ys` performs exactly the callbacks (and debug
messages) of decoding `xs ++ ys` and returns the same error. -/
theorem answerStream_ignores_other_lines (c : Client) (jsonBody : Except String String)
    (newRequest : Option String) (resp : Response)
    (unmarshal : String → Except String AnswerStreamChunk) (textFn doneFn : Bool)
    (xs ys : List String) (l : String) (hl : HasPrefix l "data: " = false) :
    AnswerStream c jsonBody newRequest (.ok { resp with Lines := xs ++ [l] ++ ys })
        unmarshal textFn doneFn =
      AnswerStream c jsonBody newRequest (.ok { resp with Lines := xs ++ ys })
        unmarshal textFn doneFn := by
  cases jsonBody with
  | error e => rfl
  | ok body =>
    cases newRequest with
    | some e => rfl
    | none =>
      simp only [AnswerStream, List.append_assoc, List.singleton_append,
        scanLoop_skip_other c unmarshal textFn doneFn xs ys l hl]

/-- Witness of C17: an empty keep-alive line between two chunks. -/
theorem answerStream_ignores_other_lines_witness :
    AnswerStream sampleClient (.ok sampleRequestBody) none
        (.ok { StatusCode := 200,
               Lines := ["data: \x7b\"text\":\"Hello\"\x7d"] ++ [""] ++
                 ["data: \x7b\"answer\":\"Hello\",\"citations\":[]\x7d"] })
        sampleUnmarshal true true =
      AnswerStream sampleClient (.ok sampleRequestBody) none
        (.ok { StatusCode := 200,
               Lines := ["data: \x7b\"text\":\"Hello\"\x7d"] ++
                 ["data: \x7b\"answer\":\"Hello\",\"citations\":[]\x7d"] })
        sampleUnmarshal true true :=
  answerStream_ignores_other_lines sampleClient (.ok sampleRequestBody) none
    { StatusCode := 200 } sampleUnmarshal true true ["data: \x7b\"text\":\"Hello\"\x7d"]
    ["data: \x7b\"answer\":\"Hello\",\"citations\":[]\x7d"] "" (by decide)

theorem effects_of_ok (c : Client) (body : String) (resp : Response)
    (unmarshal : String → Except String AnswerStreamChunk) (textFn doneFn : Bool)
    (hstatus : 200 ≤ resp.StatusCode ∧ resp.StatusCode < 300) :
    textCalls (AnswerStream c (.ok body) none (.ok resp) unmarshal textFn doneFn).effects =
        textCalls (scanLoop c unmarshal textFn doneFn resp.Lines) ∧
    doneCalls (AnswerStream c (.ok body) none (.ok resp) unmarshal textFn doneFn).effects =
        doneCalls (scanLoop c unmarshal textFn doneFn resp.Lines) ∧
    (AnswerStream c (.ok body) none (.ok resp) unmarshal textFn doneFn).err = resp.ScanErr := by
  have hnot : ¬ (resp.StatusCode < 200 ∨ resp.StatusCode ≥ 300) := by omega
  have hlog : ∀ msg : String, textCalls ((c.debugLog msg).map Effect.debug) = [] ∧
      doneCalls ((c.debugLog msg).map Effect.debug) = [] := by
    intro msg
    by_cases hd : c.debug = true <;> simp [Client.debugLog, hd, textCalls, doneCalls]
  simp only [AnswerStream, hnot, if_false, textCalls_append, doneCalls_append, hlog,
    List.nil_append, and_self]

/-- C18: the strings passed to the text callback are, in input order, exactly the
non-empty `text` fields of the chunks successfully parsed from the `data: ` lines
that precede the first `data: [DONE]` line. -/
theorem answerStream_text_calls (c : Client) (body : String) (resp : Response)
    (unmarshal : String → Except String AnswerStreamChunk) (doneFn : Bool)
    (hstatus : 200 ≤ resp.StatusCode ∧ resp.StatusCode < 300) :
    textCalls (AnswerStream c (.ok body) none (.ok resp) unmarshal true doneFn).effects =
      ((parsedChunks unmarshal resp.Lines).map (fun chunk => chunk.Text)).filter
        (fun s => s ≠ "") := by
  rw [(effects_of_ok c body resp unmarshal true doneFn hstatus).1, textCalls_scanLoop]
  simp

/-- Witness of C18: one delta, a blank line, a truncated chunk, a terminal chunk, the sentinel. -/
theorem answerStream_text_calls_witness :
    textCalls (AnswerStream sampleClient (.ok sampleRequestBody) none
        (.ok { StatusCode := 200,
               Lines := ["data: \x7b\"text\":\"Hello\"\x7d", "", "data: \x7b\"text\":",
                 "data: \x7b\"answer\":\"Hello\",\"citations\":[]\x7d", "data: [DONE]",
                 "data: \x7b\"text\":\"Hello\"\x7d"] })
        sampleUnmarshal true true).effects = ["Hello"] ∧
    textCalls (AnswerStream sampleClient (.ok sampleRequestBody) none
        (.ok { StatusCode := 200,
               Lines := ["data: \x7b\"text\":\"Hello\"\x7d", "", "data: \x7b\"text\":",
                 "data: \x7b\"answer\":\"Hello\",\"citations\":[]\x7d", "data: [DONE]",
                 "data: \x7b\"text\":\"Hello\"\x7d"] })
        sampleUnmarshal true true).effects =
      ((parsedChunks sampleUnmarshal
          ["data: \x7b\"text\":\"Hello\"\x7d", "", "data: \x7b\"text\":",
           "data: \x7b\"answer\":\"Hello\",\"citations\":[]\x7d", "data: [DONE]",
           "data: \x7b\"text\":\"Hello\"\x7d"]).map (fun chunk => chunk.Text)).filter
        (fun s => s ≠ "") :=
  ⟨rfl, answerStream_text_calls sampleClient sampleRequestBody
    { StatusCode := 200,
      Lines := ["data: \x7b\"text\":\"Hello\"\x7d", "", "data: \x7b\"text\":",
        "data: \x7b\"answer\":\"Hello\",\"citations\":[]\x7d", "data: [DONE]",
        "data: \x7b\"text\":\"Hello\"\x7d"] }
    sampleUnmarshal true (by decide)⟩

/-- C19, as stated, fails: when two chunks carry citations the completion
callback is invoked twice. -/
theorem answerStream_done_twice_counterexample :
    doneCalls (AnswerStream sampleClient (.ok sampleRequestBody) none
        (.ok { StatusCode := 200, Lines := twoTerminalLines }) sampleUnmarshal true true).effects =
      [{ Answer := "Hello", Citations := some [] },
       { Answer := "Hello world", Citations := some [] }] ∧
    ¬ (doneCalls (AnswerStream sampleClient (.ok sampleRequestBody) none
        (.ok { StatusCode := 200, Lines := twoTerminalLines })
        sampleUnmarshal true true).effects).length ≤ 1 := by
  have h : doneCalls (AnswerStream sampleClient (.ok sampleRequestBody) none
        (.ok { StatusCode := 200, Lines := twoTerminalLines }) sampleUnmarshal true true).effects =
      [{ Answer := "Hello", Citations := some [] },
       { Answer := "Hello world", Citations := some [] }] := rfl
  refine ⟨h, ?_⟩
  rw [h]
  decide

/-- C19 (amended): the completion callback is invoked once for each successfully
parsed chunk carrying citations among the `data: ` lines before the first
`data: [DONE]`, in input order, with the answer, citations and cost of that
chunk; so it is invoked exactly once when exactly one such chunk is present. -/
theorem answerStream_done_calls (c : Client) (body : String) (resp : Response)
    (unmarshal : String → Except String AnswerStreamChunk) (textFn : Bool)
    (hstatus : 200 ≤ resp.StatusCode ∧ resp.StatusCode < 300) :
    doneCalls (AnswerStream c (.ok body) none (.ok resp) unmarshal textFn true).effects =
      ((parsedChunks unmarshal resp.Lines).filter (fun chunk => chunk.Citations.isSome)).map
        (fun chunk => { Answer := chunk.Answer, Citations := chunk.Citations,
                        CostDollars := chunk.CostDollars }) ∧
    ∀ chunk, (parsedChunks unmarshal resp.Lines).filter (fun ch => ch.Citations.isSome) =
        [chunk] →
      doneCalls (AnswerStream c (.ok body) none (.ok resp) unmarshal textFn true).effects =
        [{ Answer := chunk.Answer, Citations := chunk.Citations,
           CostDollars := chunk.CostDollars }] := by
  have h := (effects_of_ok c body resp unmarshal textFn true hstatus).2.1
  rw [doneCalls_scanLoop] at h
  refine ⟨h, fun chunk hone => ?_⟩
  rw [h, hone]
  rfl

/-- Witness of the amended C19: one terminal chunk, one completion callback. -/
theorem answerStream_done_calls_witness :
    doneCalls (AnswerStream sampleClient (.ok sampleRequestBody) none
        (.ok { StatusCode := 200, Lines := gaplessStreamLines })
        sampleUnmarshal true true).effects =
      [{ Answer := "Hello", Citations := some [] }] :=
  (answerStream_done_calls sampleClient sampleRequestBody
    { StatusCode := 200, Lines := gaplessStreamLines } sampleUnmarshal true (by decide)).2
    { Answer := "Hello", Citations := some [] } (by decide)

theorem dataPayloads_of_no_done (lines : List String)
    (hnd : ∀ l ∈ lines, HasPrefix l "data: " = true → TrimPrefix l "data: " ≠ "[DONE]") :
    dataPayloads lines =
      (lines.filter (fun l => HasPrefix l "data: ")).map (fun l => TrimPrefix l "data: ") := by
  unfold dataPayloads
  rw [List.takeWhile_eq_self_iff]
  intro p hp
  obtain ⟨l, hl, rfl⟩ := List.mem_map.mp hp
  have hl' := List.mem_filter.mp hl
  simpa using hnd l hl'.1 hl'.2

/-- C20: when no parsed chunk carries citations and no line is the sentinel
`data: [DONE]`, and the scanner reports no error, `AnswerStream` returns no
error, never invokes the completion callback, and has passed to the text
callback every non-empty `text` of the chunks parsed from the `data: ` lines. -/
theorem answerStream_without_terminal (c : Client) (body : String) (resp : Response)
    (unmarshal : String → Except String AnswerStreamChunk) (doneFn : Bool)
    (hstatus : 200 ≤ resp.StatusCode ∧ resp.StatusCode < 300)
    (hscan : resp.ScanErr = none)
    (hnd : ∀ l ∈ resp.Lines, HasPrefix l "data: " = true → TrimPrefix l "data: " ≠ "[DONE]")
    (hnc : ∀ l ∈ resp.Lines, HasPrefix l "data: " = true →
      ∀ chunk, unmarshal (TrimPrefix l "data: ") = .ok chunk → chunk.Citations = none) :
    (AnswerStream c (.ok body) none (.ok resp) unmarshal true doneFn).err = none ∧
    doneCalls (AnswerStream c (.ok body) none (.ok resp) unmarshal true doneFn).effects = [] ∧
    textCalls (AnswerStream c (.ok body) none (.ok resp) unmarshal true doneFn).effects =
      ((((resp.Lines.filter (fun l => HasPrefix l "data: ")).map
          (fun l => TrimPrefix l "data: ")).filterMap (fun p =>
            match unmarshal p with
            | .ok chunk => some chunk
            | .error _ => none)).map (fun chunk => chunk.Text)).filter (fun s => s ≠ "") := by
  obtain ⟨ht, hd, he⟩ := effects_of_ok c body resp unmarshal true doneFn hstatus
  refine ⟨by rw [he, hscan], ?_, ?_⟩
  · rw [hd]
    clear ht hd he hnd
    generalize resp.Lines = lines at hnc
    induction lines with
    | nil => rfl
    | cons x rest ih =>
      have hrest := ih (fun l hl => hnc l (List.mem_cons_of_mem _ hl))
      have hx := hnc x (List.mem_cons_self _ _)
      rw [scanLoop]
      by_cases hp : HasPrefix x "data: " = true
      · by_cases hdone : TrimPrefix x "data: " = "[DONE]"
        · simp [hp, hdone, doneCalls]
        · cases hu : unmarshal (TrimPrefix x "data: ") with
          | error e =>
            by_cases hdbg : c.debug = true <;>
              simp [hp, hdone, hu, hdbg, doneCalls_append, doneCalls, hrest]
          | ok chunk =>
            have hcit := hx hp chunk hu
            by_cases htx : chunk.Text = "" <;>
              simp [hp, hdone, hu, hcit, htx, doneCalls_append, doneCalls, hrest]
      · simp [hp, hrest]
  · rw [ht, textCalls_scanLoop, parsedChunks, dataPayloads_of_no_done _ hnd]
    simp

/-- Witness of C20: a stream of one delta that ends without terminal chunk or sentinel. -/
theorem answerStream_without_terminal_witness :
    (AnswerStream sampleClient (.ok sampleRequestBody) none
        (.ok { StatusCode := 200, Lines := ["data: \x7b\"text\":\"Hello\"\x7d", ""] })
        sampleUnmarshal true true).effects = [Effect.text "Hello"] ∧
    (AnswerStream sampleClient (.ok sampleRequestBody) none
        (.ok { StatusCode := 200, Lines := ["data: \x7b\"text\":\"Hello\"\x7d", ""] })
        sampleUnmarshal true true).err = none ∧
    doneCalls (AnswerStream sampleClient (.ok sampleRequestBody) none
        (.ok { StatusCode := 200, Lines := ["data: \x7b\"text\":\"Hello\"\x7d", ""] })
        sampleUnmarshal true true).effects = [] ∧
    textCalls (AnswerStream sampleClient (.ok sampleRequestBody) none
        (.ok { StatusCode := 200, Lines := ["data: \x7b\"text\":\"Hello\"\x7d", ""] })
        sampleUnmarshal true true).effects =
      ((((["data: \x7b\"text\":\"Hello\"\x7d", ""].filter
          (fun l => HasPrefix l "data: ")).map
          (fun l => TrimPrefix l "data: ")).filterMap (fun p =>
            match sampleUnmarshal p with
            | .ok chunk => some chunk
            | .error _ => none)).map (fun chunk => chunk.Text)).filter (fun s => s ≠ "") :=
  ⟨rfl, answerStream_without_terminal sampleClient sampleRequestBody
    { StatusCode := 200, Lines := ["data: \x7b\"text\":\"Hello\"\x7d", ""] }
    sampleUnmarshal true (by decide) rfl (by decide) (by
      intro l hl hp chunk hu
      simp only [List.mem_cons, List.mem_singleton, List.not_mem_nil, or_false] at hl
      rcases hl with rfl | rfl
      · have : chunk = { Text := "Hello" } := by
          have h2 : sampleUnmarshal (TrimPrefix "data: \x7b\"text\":\"Hello\"\x7d" "data: ") =
              .ok { Text := "Hello" } := rfl
          rw [h2] at hu
          exact (Except.ok.inj hu).symm
        rw [this]
      · exact absurd hp (by decide))⟩

/-! ## No-op chunks -/

theorem scanLoop_skip_noop (c : Client) (unmarshal : String → Except String AnswerStreamChunk)
    (textFn doneFn : Bool) (xs ys : List String) (b : String) (chunk : AnswerStreamChunk)
    (hb : HasPrefix b "data: " = true) (hnd : TrimPrefix b "data: " ≠ "[DONE]")
    (hok : unmarshal (TrimPrefix b "data: ") = .ok chunk)
    (htext : chunk.Text = "") (hcit : chunk.Citations = none) :
    scanLoop c unmarshal textFn doneFn (xs ++ b :: ys) =
      scanLoop c unmarshal textFn doneFn (xs ++ ys) := by
  induction xs with
  | nil => simp [scanLoop, hb, hnd, hok, htext, hcit]
  | cons x rest ih =>
    simp only [List.cons_append]
    rw [scanLoop, scanLoop, ih]

/-- C21: a successfully parsed chunk whose `text` is empty and whose `citations` is
nil is a no-op: decoding `xs ++ [b] ++ ys` has exactly the outcome of decoding
`xs ++ ys` (no callback, no debug message, no error for `b`, and the lines after
`b` are processed as before). -/
theorem answerStream_noop_chunk (c : Client) (jsonBody : Except String String)
    (newRequest : Option String) (resp : Response)
    (unmarshal : String → Except String AnswerStreamChunk) (textFn doneFn : Bool)
    (xs ys : List String) (b : String) (chunk : AnswerStreamChunk)
    (hb : HasPrefix b "data: " = true) (hnd : TrimPrefix b "data: " ≠ "[DONE]")
    (hok : unmarshal (TrimPrefix b "data: ") = .ok chunk)
    (htext : chunk.Text = "") (hcit : chunk.Citations = none) :
    AnswerStream c jsonBody newRequest (.ok { resp with Lines := xs ++ [b] ++ ys })
        unmarshal textFn doneFn =
      AnswerStream c jsonBody newRequest (.ok { resp with Lines := xs ++ ys })
        unmarshal textFn doneFn ∧
    scanLoop c unmarshal textFn doneFn [b] = [] := by
  constructor
  · cases jsonBody with
    | error e => rfl
    | ok body =>
      cases newRequest with
      | some e => rfl
      | none =>
        simp only [AnswerStream, List.append_assoc, List.singleton_append,
          scanLoop_skip_noop c unmarshal textFn doneFn xs ys b chunk hb hnd hok htext hcit]
  · simp [scanLoop, hb, hnd, hok, htext, hcit]

/-- Witness of C21: a chunk that only carries a `type` between a delta and the terminal chunk. -/
theorem answerStream_noop_chunk_witness :
    AnswerStream sampleClient (.ok sampleRequestBody) none
        (.ok { StatusCode := 200,
               Lines := ["data: \x7b\"text\":\"Hello\"\x7d"] ++ ["data: \x7b\"type\":\"ping\"\x7d"] ++
                 ["data: \x7b\"answer\":\"Hello\",\"citations\":[]\x7d"] })
        noopUnmarshal true true =
      AnswerStream sampleClient (.ok sampleRequestBody) none
        (.ok { StatusCode := 200,
               Lines := ["data: \x7b\"text\":\"Hello\"\x7d"] ++
                 ["data: \x7b\"answer\":\"Hello\",\"citations\":[]\x7d"] })
        noopUnmarshal true true ∧
    scanLoop sampleClient noopUnmarshal true true ["data: \x7b\"type\":\"ping\"\x7d"] = [] :=
  answerStream_noop_chunk sampleClient (.ok sampleRequestBody) none { StatusCode := 200 }
    noopUnmarshal true true ["data: \x7b\"text\":\"Hello\"\x7d"]
    ["data: \x7b\"answer\":\"Hello\",\"citations\":[]\x7d"] "data: \x7b\"type\":\"ping\"\x7d"
    { Type_ := "ping" } (by decide) (by decide) rfl rfl rfl

/-! ## Serialized request members -/

theorem mem_omitEmptyString (k name s : String) (v : JSON) :
    (k, v) ∈ omitEmptyString name s ↔ s ≠ "" ∧ k = name ∧ v = JSON.str s := by
  unfold omitEmptyString
  by_cases hs : s = "" <;> simp [hs]

theorem mem_omitEmptyInt (k name : String) (n : Int) (v : JSON) :
    (k, v) ∈ omitEmptyInt name n ↔ n ≠ 0 ∧ k = name ∧ v = JSON.num n 0 := by
  unfold omitEmptyInt
  by_cases hn : n = 0 <;> simp [hn]

theorem mem_omitEmptyBool (k name : String) (b : Bool) (v : JSON) :
    (k, v) ∈ omitEmptyBool name b ↔ b = true ∧ k = name ∧ v = JSON.bool true := by
  unfold omitEmptyBool
  cases b <;> simp

theorem mem_omitEmptyStrings (k name : String) (xs : List String) (v : JSON) :
    (k, v) ∈ omitEmptyStrings name xs ↔
      xs ≠ [] ∧ k = name ∧ v = JSON.arr (xs.map JSON.str) := by
  unfold omitEmptyStrings
  cases xs <;> simp

theorem mem_omitNil {α : Type} (k name : String) (p : Option α) (f : α → JSON) (v : JSON) :
    (k, v) ∈ omitNil name p f ↔ ∃ a, p = some a ∧ k = name ∧ v = f a := by
  cases p <;> simp [omitNil]

theorem runSearchRequest_fields (args : List String) (f : SearchFlags) :
    (runSearchRequest args f).Query = " ".intercalate args ∧
    (runSearchRequest args f).NumResults = f.searchNumResults ∧
    (runSearchRequest args f).Type_ = (if f.searchType ≠ "auto" then f.searchType else "") ∧
    (runSearchRequest args f).Category = f.searchCategory ∧
    (runSearchRequest args f).IncludeDomains = f.searchIncDomains ∧
    (runSearchRequest args f).ExcludeDomains = f.searchExcDomains ∧
    (runSearchRequest args f).StartPublishedDate =
      (if f.searchStartDate ≠ "" then f.searchStartDate ++ "T00:00:00.000Z" else "") ∧
    (runSearchRequest args f).EndPublishedDate =
      (if f.searchEndDate ≠ "" then f.searchEndDate ++ "T00:00:00.000Z" else "") ∧
    (runSearchRequest args f).StartCrawlDate = "" ∧
    (runSearchRequest args f).EndCrawlDate = "" ∧
    (runSearchRequest args f).IncludeText = f.searchIncludeText ∧
    (runSearchRequest args f).ExcludeText = f.searchExcludeText ∧
    (runSearchRequest args f).Moderation = (if f.searchModeration then some true else none) := by
  refine ⟨?_, ?_, ?_, ?_, ?_, ?_, ?_, ?_, ?_, ?_, ?_, ?_, ?_⟩
  · simp only [runSearchRequest, apply_ite SearchRequest.Query, ite_self]
  · simp only [runSearchRequest, apply_ite SearchRequest.NumResults, ite_self]
  · simp only [runSearchRequest, apply_ite SearchRequest.Type_, ite_self]
  · simp only [runSearchRequest, apply_ite SearchRequest.Category, ite_self]
    split_ifs with h
    · rfl
    · exact (not_not.mp h).symm
  · simp only [runSearchRequest, apply_ite SearchRequest.IncludeDomains, ite_self]
    split_ifs with h
    · rfl
    · exact (List.length_eq_zero.mp (by omega)).symm
  · simp only [runSearchRequest, apply_ite SearchRequest.ExcludeDomains, ite_self]
    split_ifs with h
    · rfl
    · exact (List.length_eq_zero.mp (by omega)).symm
  · simp only [runSearchRequest, apply_ite SearchRequest.StartPublishedDate, ite_self]
  · simp only [runSearchRequest, apply_ite SearchRequest.EndPublishedDate, ite_self]
  · simp only [runSearchRequest, apply_ite SearchRequest.StartCrawlDate, ite_self]
  · simp only [runSearchRequest, apply_ite SearchRequest.EndCrawlDate, ite_self]
  · simp only [runSearchRequest, apply_ite SearchRequest.IncludeText, ite_self]
    split_ifs with h
    · rfl
    · exact (not_not.mp h).symm
  · simp only [runSearchRequest, apply_ite SearchRequest.ExcludeText, ite_self]
    split_ifs with h
    · rfl
    · exact (not_not.mp h).symm
  · simp only [runSearchRequest, apply_ite SearchRequest.Moderation, ite_self]

/-- C22, as stated, fails: with every option at its default the serialized
search request holds `numResults: 25` beside the query. -/
theorem search_defaults_counterexample :
    (runSearchRequest ["q"] {}).marshal =
      JSON.obj [("query", JSON.str "q"), ("numResults", JSON.num 25 0)] ∧
    (runSearchRequest ["q"] {}).marshal.get? "numResults" = some (JSON.num 25 0) ∧
    (runSearchRequest ["q"] {}).marshal ≠ JSON.obj [("query", JSON.str "q")] := by
  have h : (runSearchRequest ["q"] {}).marshal =
      JSON.obj [("query", JSON.str "q"), ("numResults", JSON.num 25 0)] := rfl
  refine ⟨h, rfl, ?_⟩
  rw [h]
  simp

/-- C22 (amended): every member of the serialized search request other than
`query` and `numResults` is there only if the user gave the corresponding
option a value different from its default; `numResults` is sent with the value
of its option whenever that is not 0, the default 25 included; with all options
at their defaults the serialized request holds the query and `numResults: 25`. -/
theorem search_members_non_default (args : List String) (f : SearchFlags) :
    (∀ k v, (k, v) ∈ (runSearchRequest args f).marshal.entries →
      k = "query" ∨ k = "numResults" ∨
      (k = "type" ∧ f.searchType ≠ "auto") ∨
      (k = "category" ∧ f.searchCategory ≠ "") ∨
      (k = "includeDomains" ∧ f.searchIncDomains ≠ []) ∨
      (k = "excludeDomains" ∧ f.searchExcDomains ≠ []) ∨
      (k = "startPublishedDate" ∧ f.searchStartDate ≠ "") ∨
      (k = "endPublishedDate" ∧ f.searchEndDate ≠ "") ∨
      (k = "includeText" ∧ f.searchIncludeText ≠ "") ∨
      (k = "excludeText" ∧ f.searchExcludeText ≠ "") ∨
      (k = "moderation" ∧ f.searchModeration ≠ false) ∨
      (k = "contents" ∧ f.searchNoContents = false ∧
        (f.searchText ≠ false ∨ f.searchHighlights ≠ false ∨ f.searchSummary ≠ false ∨
          f.searchMaxAge ≠ -1 ∨ f.searchSubpages ≠ 0))) ∧
    (runSearchRequest args f).marshal.get? "numResults" =
      (if f.searchNumResults = 0 then none else some (JSON.num f.searchNumResults 0)) ∧
    (runSearchRequest args {}).marshal =
      JSON.obj [("query", JSON.str (" ".intercalate args)), ("numResults", JSON.num 25 0)] := by
  obtain ⟨hq, hn, ht, hc, hi, he, hs, hen, hsc, hec, hit, het, hm⟩ :=
    runSearchRequest_fields args f
  refine ⟨?_, ?_, rfl⟩
  · intro k v hmem
    simp only [SearchRequest.marshal, JSON.entries, List.mem_append, List.mem_singleton,
      Prod.mk.injEq, mem_omitEmptyString, mem_omitEmptyInt, mem_omitEmptyStrings,
      mem_omitNil, or_assoc] at hmem
    rcases hmem with h | h | h | h | h | h | h | h | h | h | h | h | h | h
    · exact Or.inl h.1
    · rw [ht] at h
      by_cases hty : f.searchType = "auto"
      · simp [hty] at h
      · exact Or.inr (Or.inr (Or.inl ⟨h.2.1, hty⟩))
    · exact Or.inr (Or.inl h.2.1)
    · rw [hc] at h
      exact Or.inr (Or.inr (Or.inr (Or.inl ⟨h.2.1, h.1⟩)))
    · rw [hi] at h
      exact Or.inr (Or.inr (Or.inr (Or.inr (Or.inl ⟨h.2.1, h.1⟩))))
    · rw [he] at h
      exact Or.inr (Or.inr (Or.inr (Or.inr (Or.inr (Or.inl ⟨h.2.1, h.1⟩)))))
    · rw [hs] at h
      by_cases hd : f.searchStartDate = ""
      · simp [hd] at h
      · exact Or.inr (Or.inr (Or.inr (Or.inr (Or.inr (Or.inr (Or.inl ⟨h.2.1, hd⟩))))))
    · rw [hen] at h
      by_cases hd : f.searchEndDate = ""
      · simp [hd] at h
      · exact Or.inr (Or.inr (Or.inr (Or.inr (Or.inr (Or.inr (Or.inr (Or.inl ⟨h.2.1, hd⟩)))))))
    · rw [hsc] at h
      exact absurd rfl h.1
    · rw [hec] at h
      exact absurd rfl h.1
    · rw [hit] at h
      exact Or.inr (Or.inr (Or.inr (Or.inr (Or.inr (Or.inr (Or.inr (Or.inr
        (Or.inl ⟨h.2.1, h.1⟩))))))))
    · rw [het] at h
      exact Or.inr (Or.inr (Or.inr (Or.inr (Or.inr (Or.inr (Or.inr (Or.inr (Or.inr
        (Or.inl ⟨h.2.1, h.1⟩)))))))))
    · rw [hm] at h
      obtain ⟨a, ha, hk, -⟩ := h
      by_cases hmod : f.searchModeration = true
      · exact Or.inr (Or.inr (Or.inr (Or.inr (Or.inr (Or.inr (Or.inr (Or.inr (Or.inr (Or.inr
          (Or.inl ⟨hk, by simp [hmod]⟩))))))))))
      · simp [hmod] at ha
    · obtain ⟨a, ha, hk, -⟩ := h
      rw [contents_field_of_runSearchRequest] at ha
      by_cases hcond : f.searchNoContents = false ∧ (searchContents f).2 = true
      · have hreq := (searchContents_hasContents f).mp hcond.2
        refine Or.inr (Or.inr (Or.inr (Or.inr (Or.inr (Or.inr (Or.inr (Or.inr (Or.inr (Or.inr
          (Or.inr ⟨hk, hcond.1, ?_⟩))))))))))
        rcases hreq with h1 | h1 | h1 | h1 | h1
        · exact Or.inl (by simp [h1])
        · exact Or.inr (Or.inl (by simp [h1]))
        · exact Or.inr (Or.inr (Or.inl (by simp [h1])))
        · exact Or.inr (Or.inr (Or.inr (Or.inl (by omega))))
        · exact Or.inr (Or.inr (Or.inr (Or.inr (by omega))))
      · rw [if_neg hcond] at ha
        exact absurd ha (by simp)
  · simp only [SearchRequest.marshal, JSON.get?, List.lookup_append, lookup_omitEmptyString,
      lookup_omitEmptyInt, lookup_omitEmptyStrings, lookup_omitNil, hn]
    by_cases h0 : f.searchNumResults = 0 <;> simp [h0, List.lookup]

/-- Witness of the amended C22: with `--type deep` only `type` joins the two members. -/
theorem search_members_non_default_witness :
    (runSearchRequest ["q"] { searchType := "deep" }).marshal =
      JSON.obj [("query", JSON.str "q"), ("type", JSON.str "deep"),
        ("numResults", JSON.num 25 0)] ∧
    (runSearchRequest ["q"] { searchType := "deep" }).marshal.get? "numResults" =
      (if (25 : Int) = 0 then none else some (JSON.num 25 0)) :=
  ⟨rfl, (search_members_non_default ["q"] { searchType := "deep" }).2.1⟩

theorem searchContents_text (f : SearchFlags) :
    (searchContents f).1.Text =
      (if f.searchText then some { MaxCharacters := f.searchTextMax } else none) := by
  unfold searchContents
  split_ifs <;> rfl

theorem searchContents_highlights (f : SearchFlags) :
    (searchContents f).1.Highlights = (if f.searchHighlights then some {} else none) := by
  unfold searchContents
  split_ifs <;> rfl

theorem searchContents_summary (f : SearchFlags) :
    (searchContents f).1.Summary = (if f.searchSummary then some {} else none) := by
  unfold searchContents
  split_ifs <;> rfl

theorem searchContents_subpages (f : SearchFlags) :
    (searchContents f).1.Subpages = (if f.searchSubpages > 0 then f.searchSubpages else 0) := by
  unfold searchContents
  split_ifs <;> rfl

theorem searchContents_entries_ne_nil (f : SearchFlags) (h : (searchContents f).2 = true) :
    (searchContents f).1.marshal.entries ≠ [] := by
  have ht := searchContents_text f
  have hh := searchContents_highlights f
  have hs := searchContents_summary f
  have hsub := searchContents_subpages f
  have hl := searchContents_livecrawl f
  rcases (searchContents_hasContents f).mp h with h1 | h1 | h1 | h1 | h1
  · apply List.ne_nil_of_mem (a := ("text", TextSpec.marshal { MaxCharacters := f.searchTextMax }))
    simp [ContentsSpec.marshal, JSON.entries, mem_omitNil, ht, h1]
  · apply List.ne_nil_of_mem (a := ("highlights", HighlightsSpec.marshal {}))
    simp [ContentsSpec.marshal, JSON.entries, mem_omitNil, hh, h1]
  · apply List.ne_nil_of_mem (a := ("summary", SummarySpec.marshal {}))
    simp [ContentsSpec.marshal, JSON.entries, mem_omitNil, hs, h1]
  · apply List.ne_nil_of_mem (a := ("livecrawl", JSON.str (searchContents f).1.Livecrawl))
    have hne : (searchContents f).1.Livecrawl ≠ "" := by
      rw [hl, if_pos h1]
      split_ifs <;> decide
    simp [ContentsSpec.marshal, JSON.entries, mem_omitEmptyString, hne]
  · apply List.ne_nil_of_mem (a := ("subpages", JSON.num f.searchSubpages 0))
    have hne : f.searchSubpages ≠ 0 := by omega
    simp [ContentsSpec.marshal, JSON.entries, mem_omitEmptyInt, hsub, h1, hne]

theorem runSimilarRequest_contents (url : String) (g : SimilarFlags) :
    (runSimilarRequest url g).Contents =
      if g.similarText = true ∨ g.similarHighlights = true then
        some { Text := if g.similarText then some { MaxCharacters := 10000 } else none,
               Highlights := if g.similarHighlights then some {} else none }
      else none := by
  unfold runSimilarRequest
  cases g.similarText <;> cases g.similarHighlights <;>
    simp only [apply_ite FindSimilarRequest.Contents, ite_self, Bool.false_eq_true, or_self,
      or_true, true_or, if_true, if_false]

theorem contents_of_runSimilarRequest (url : String) (g : SimilarFlags) :
    (runSimilarRequest url g).marshal.get? "contents" =
      ((runSimilarRequest url g).Contents).map ContentsSpec.marshal := by
  simp [FindSimilarRequest.marshal, JSON.get?, List.lookup_append, lookup_omitEmptyString,
    lookup_omitEmptyInt, lookup_omitEmptyStrings, lookup_omitNil, List.lookup, omitEmptyBool]
  cases (runSimilarRequest url g).ExcludeSourceDomain <;> simp [List.lookup]

theorem marshal_obj_of_entries_ne_nil (c : ContentsSpec) (h : c.marshal.entries ≠ []) :
    ∃ e es, c.marshal = JSON.obj (e :: es) := by
  have hobj : c.marshal = JSON.obj c.marshal.entries := rfl
  cases hes : c.marshal.entries with
  | nil => exact absurd hes h
  | cons e es => exact ⟨e, es, by rw [hobj, hes]⟩

/-- C23: in the requests of the search and find-similar builders a `contents`
member, when present, is an object with at least one member, never `{}`. -/
theorem contents_never_empty (args : List String) (f : SearchFlags) (url : String)
    (g : SimilarFlags) :
    (∀ c, (runSearchRequest args f).marshal.get? "contents" = some c →
      ∃ e es, c = JSON.obj (e :: es)) ∧
    (∀ c, (runSimilarRequest url g).marshal.get? "contents" = some c →
      ∃ e es, c = JSON.obj (e :: es)) := by
  constructor
  · intro c hc
    rw [contents_of_runSearchRequest, contents_field_of_runSearchRequest] at hc
    by_cases hcond : f.searchNoContents = false ∧ (searchContents f).2 = true
    · rw [if_pos hcond] at hc
      simp only [Option.map_some', Option.some.injEq] at hc
      rw [← hc]
      exact marshal_obj_of_entries_ne_nil _ (searchContents_entries_ne_nil f hcond.2)
    · rw [if_neg hcond] at hc
      exact absurd hc (by simp)
  · intro c hc
    rw [contents_of_runSimilarRequest, runSimilarRequest_contents] at hc
    by_cases hcond : g.similarText = true ∨ g.similarHighlights = true
    · rw [if_pos hcond] at hc
      simp only [Option.map_some', Option.some.injEq] at hc
      rw [← hc]
      apply marshal_obj_of_entries_ne_nil
      rcases hcond with h1 | h1
      · apply List.ne_nil_of_mem (a := ("text", TextSpec.marshal { MaxCharacters := 10000 }))
        simp [ContentsSpec.marshal, JSON.entries, mem_omitNil, h1]
      · apply List.ne_nil_of_mem (a := ("highlights", HighlightsSpec.marshal {}))
        simp [ContentsSpec.marshal, JSON.entries, mem_omitNil, h1]
    · rw [if_neg hcond] at hc
      exact absurd hc (by simp)

/-- Witness of C23: `--subpages 2` for search and `--highlights` for find-similar. -/
theorem contents_never_empty_witness :
    (runSearchRequest ["q"] { searchSubpages := 2 }).marshal.get? "contents" =
        some (JSON.obj [("subpages", JSON.num 2 0)]) ∧
    (runSimilarRequest "https://example.com" { similarHighlights := true }).marshal.get?
        "contents" = some (JSON.obj [("highlights", JSON.obj [])]) ∧
    (∃ e es, JSON.obj [("subpages", JSON.num 2 0)] = JSON.obj (e :: es)) ∧
    (∃ e es, JSON.obj [("highlights", JSON.obj [])] = JSON.obj (e :: es)) :=
  ⟨rfl, rfl,
   (contents_never_empty ["q"] { searchSubpages := 2 } "https://example.com"
      { similarHighlights := true }).1 _ rfl,
   (contents_never_empty ["q"] { searchSubpages := 2 } "https://example.com"
      { similarHighlights := true }).2 _ rfl⟩

/-- C24: with the no-contents toggle set the serialized search request has no
`contents` member, whatever the other options are. -/
theorem no_contents_toggle (args : List String) (f : SearchFlags)
    (hnc : f.searchNoContents = true) :
    (runSearchRequest args f).marshal.get? "contents" = none := by
  rw [contents_of_runSearchRequest, contents_field_of_runSearchRequest]
  simp [hnc]

/-- Witness of C24: every content option requested together with `--no-contents`. -/
theorem no_contents_toggle_witness :
    (runSearchRequest ["q"]
        { searchNoContents := true, searchText := true, searchHighlights := true,
          searchSummary := true, searchMaxAge := 0, searchSubpages := 3 }).marshal.get?
      "contents" = none :=
  no_contents_toggle ["q"]
    { searchNoContents := true, searchText := true, searchHighlights := true,
      searchSummary := true, searchMaxAge := 0, searchSubpages := 3 } rfl

theorem append_ne_empty (d : String) (hd : d ≠ "") : d ++ "T00:00:00.000Z" ≠ "" := by
  intro h
  have h2 := congrArg String.data h
  simp only [String.data_append] at h2
  have h3 : d.data = [] := (List.append_eq_nil.mp h2).1
  exact hd (String.ext h3)

theorem runSimilarRequest_dates (url : String) (g : SimilarFlags) :
    (runSimilarRequest url g).StartPublishedDate =
      (if g.similarStartDate ≠ "" then g.similarStartDate ++ "T00:00:00.000Z" else "") ∧
    (runSimilarRequest url g).EndPublishedDate =
      (if g.similarEndDate ≠ "" then g.similarEndDate ++ "T00:00:00.000Z" else "") := by
  constructor
  · simp only [runSimilarRequest, apply_ite FindSimilarRequest.StartPublishedDate, ite_self]
  · simp only [runSimilarRequest, apply_ite FindSimilarRequest.EndPublishedDate, ite_self]

theorem published_dates_of_searchRequest (r : SearchRequest) :
    r.marshal.get? "startPublishedDate" =
      (if r.StartPublishedDate = "" then none else some (JSON.str r.StartPublishedDate)) ∧
    r.marshal.get? "endPublishedDate" =
      (if r.EndPublishedDate = "" then none else some (JSON.str r.EndPublishedDate)) := by
  constructor <;>
    simp [SearchRequest.marshal, JSON.get?, List.lookup_append, lookup_omitEmptyString,
      lookup_omitEmptyInt, lookup_omitEmptyStrings, lookup_omitNil, List.lookup]

theorem lookup_omitEmptyBool (k name : String) (b : Bool) :
    (omitEmptyBool name b).lookup k =
      if b = true then (if k = name then some (JSON.bool true) else none) else none := by
  cases b
  · simp [omitEmptyBool]
  · by_cases hk : k = name <;> simp [omitEmptyBool, hk, List.lookup, beq_eq_false_iff_ne.mpr]

theorem published_dates_of_similarRequest (r : FindSimilarRequest) :
    r.marshal.get? "startPublishedDate" =
      (if r.StartPublishedDate = "" then none else some (JSON.str r.StartPublishedDate)) ∧
    r.marshal.get? "endPublishedDate" =
      (if r.EndPublishedDate = "" then none else some (JSON.str r.EndPublishedDate)) := by
  constructor <;>
    simp [FindSimilarRequest.marshal, JSON.get?, List.lookup_append, lookup_omitEmptyString,
      lookup_omitEmptyInt, lookup_omitEmptyStrings, lookup_omitNil, lookup_omitEmptyBool,
      List.lookup]

theorem date_member (d : String) :
    (if (if d ≠ "" then d ++ "T00:00:00.000Z" else "") = "" then none
      else some (JSON.str (if d ≠ "" then d ++ "T00:00:00.000Z" else ""))) =
    (if d = "" then none else some (JSON.str (d ++ "T00:00:00.000Z"))) := by
  by_cases hd : d = ""
  · simp [hd]
  · simp [hd, append_ne_empty d hd]

/-- C25: in the serialized requests of the search and find-similar builders the
start and end published-date members are the date input followed by
`T00:00:00.000Z`, and are absent when the date input is empty. -/
theorem published_dates (args : List String) (f : SearchFlags) (url : String)
    (g : SimilarFlags) :
    (runSearchRequest args f).marshal.get? "startPublishedDate" =
      (if f.searchStartDate = "" then none
       else some (JSON.str (f.searchStartDate ++ "T00:00:00.000Z"))) ∧
    (runSearchRequest args f).marshal.get? "endPublishedDate" =
      (if f.searchEndDate = "" then none
       else some (JSON.str (f.searchEndDate ++ "T00:00:00.000Z"))) ∧
    (runSimilarRequest url g).marshal.get? "startPublishedDate" =
      (if g.similarStartDate = "" then none
       else some (JSON.str (g.similarStartDate ++ "T00:00:00.000Z"))) ∧
    (runSimilarRequest url g).marshal.get? "endPublishedDate" =
      (if g.similarEndDate = "" then none
       else some (JSON.str (g.similarEndDate ++ "T00:00:00.000Z"))) := by
  obtain ⟨-, -, -, -, -, -, hs, he, -⟩ := runSearchRequest_fields args f
  obtain ⟨hs2, he2⟩ := runSimilarRequest_dates url g
  refine ⟨?_, ?_, ?_, ?_⟩
  · rw [(published_dates_of_searchRequest _).1, hs, date_member]
  · rw [(published_dates_of_searchRequest _).2, he, date_member]
  · rw [(published_dates_of_similarRequest _).1, hs2, date_member]
  · rw [(published_dates_of_similarRequest _).2, he2, date_member]

theorem tokensNum_of_contextRequest (r : ContextRequest) :
    r.marshal.get? "tokensNum" = r.TokensNum := by
  cases h : r.TokensNum <;>
    simp [ContextRequest.marshal, JSON.get?, List.lookup_append, lookup_omitNil, List.lookup, h]

/-- C26: the serialized context request always has a `tokensNum` member: the
integer `t` when the token-limit input `t` is positive, the string `dynamic`
otherwise. -/
theorem context_tokensNum (args : List String) (t : Int) :
    (runContextRequest args t).marshal.get? "tokensNum" =
      some (if t > 0 then JSON.num t 0 else JSON.str "dynamic") := by
  rw [tokensNum_of_contextRequest]
  unfold runContextRequest
  split_ifs <;> rfl

/-! ## Debug trace -/

theorem truncate_length_le (s : String) (max : Nat) :
    (truncate s max).length ≤ max + 3 ∧
    (max < s.length → (truncate s max).length = max + 3) := by
  unfold truncate
  by_cases h : s.length ≤ max
  · simp only [h, if_true]
    exact ⟨by omega, fun h2 => absurd h (by omega)⟩
  · have hlen : (String.mk (List.take max s.data) ++ "...").length = max + 3 := by
      have h1 : (List.take max s.data).length = max := by
        rw [List.length_take]
        have : s.data.length = s.length := rfl
        omega
      rw [String.length_append]
      show (List.take max s.data).length + 3 = max + 3
      rw [h1]
    simp only [h, if_false]
    exact ⟨by omega, fun _ => hlen⟩

theorem longBody_length : longBody.length = 2001 := by
  show (List.replicate 2001 'a').length = 2001
  exact List.length_replicate 2001 'a'

/-- C27, as stated, fails: for a response body of 2001 bytes the body text put
into the debug trace is its first 2000 bytes followed by `...`, 2003 bytes. -/
theorem debug_body_counterexample :
    (doJSON debugClient "GET" "/team-management/api-keys" none none
        (.ok { StatusCode := 200, Body := longBody }) none).debug =
      ["GET https://api.exa.ai/team-management/api-keys", "Response status: 200",
       "Response body: " ++ truncate longBody 2000] ∧
    (truncate longBody 2000).length = 2003 ∧
    ¬ (truncate longBody 2000).length ≤ 2000 := by
  have hlen : (truncate longBody 2000).length = 2003 :=
    (truncate_length_le longBody 2000).2 (by rw [longBody_length]; decide)
  refine ⟨?_, hlen, by rw [hlen]; decide⟩
  simp [doJSON, debugClient, Client.debugLog]
  decide

/-- C27 (amended): with debug tracing enabled, for every response whose body was
read `doJSON` emits, after the request line, the status and then the response
body as `truncate` leaves it: the body itself when it is at most 2000 bytes
long, otherwise its first 2000 bytes followed by `...`; that text is at most
2003 bytes long (a `String` of `client.go` is the byte string, so `length`
counts bytes and `take` cuts at a byte). -/
theorem debug_response_body (c : Client) (method endpoint : String) (jsonBody : Option String)
    (result : Option (String → Option String)) (resp : Response)
    (hdebug : c.debug = true) (hread : resp.ReadErr = none) :
    ∃ requestLine,
      (doJSON c method endpoint (jsonBody.map Except.ok) none (.ok resp) result).debug =
        [requestLine, "Response status: " ++ toString resp.StatusCode,
         "Response body: " ++
           (if resp.Body.length ≤ 2000 then resp.Body
            else String.mk (resp.Body.data.take 2000) ++ "...")] ∧
      (if resp.Body.length ≤ 2000 then resp.Body
       else String.mk (resp.Body.data.take 2000) ++ "...").length ≤ 2003 := by
  have hlen := (truncate_length_le resp.Body 2000).1
  have htr : truncate resp.Body 2000 =
      (if resp.Body.length ≤ 2000 then resp.Body
       else String.mk (resp.Body.data.take 2000) ++ "...") := rfl
  cases jsonBody with
  | none =>
    refine ⟨method ++ " " ++ (c.baseURL ++ "/" ++ TrimLeft endpoint "/"), ?_, by rw [← htr]; exact hlen⟩
    rw [← htr]
    by_cases hs : resp.StatusCode < 200 ∨ resp.StatusCode ≥ 300
    · simp [doJSON, hread, hs, hdebug, Client.debugLog]
    · cases result with
      | none => simp [doJSON, hread, hs, hdebug, Client.debugLog]
      | some unmarshal =>
        cases hu : unmarshal resp.Body <;>
          simp [doJSON, hread, hs, hdebug, Client.debugLog, hu]
  | some body =>
    refine ⟨method ++ " " ++ (c.baseURL ++ "/" ++ TrimLeft endpoint "/") ++ " body=" ++ body,
      ?_, by rw [← htr]; exact hlen⟩
    rw [← htr]
    by_cases hs : resp.StatusCode < 200 ∨ resp.StatusCode ≥ 300
    · simp [doJSON, hread, hs, hdebug, Client.debugLog]
    · cases result with
      | none => simp [doJSON, hread, hs, hdebug, Client.debugLog]
      | some unmarshal =>
        cases hu : unmarshal resp.Body <;>
          simp [doJSON, hread, hs, hdebug, Client.debugLog, hu]

/-- Witness of the amended C27: a short response body is traced as it is. -/
theorem debug_response_body_witness :
    ∃ requestLine,
      (doJSON debugClient "POST" "/search" ((some sampleRequestBody).map Except.ok) none
          (.ok { StatusCode := 200, Body := "ok" }) none).debug =
        [requestLine, "Response status: " ++ toString (200 : Int),
         "Response body: " ++
           (if "ok".length ≤ 2000 then "ok" else String.mk ("ok".data.take 2000) ++ "...")] ∧
      (if "ok".length ≤ 2000 then "ok"
       else String.mk ("ok".data.take 2000) ++ "...").length ≤ 2003 :=
  debug_response_body debugClient "POST" "/search" (some sampleRequestBody) none
    { StatusCode := 200, Body := "ok" } rfl rfl

/-! ## Idempotence and field-list equivalence -/

theorem filterMap_idem (m : List (String × JSON)) (fs : List String) :
    filterMap (filterMap m fs) fs = filterMap m fs := by
  induction m with
  | nil => rfl
  | cons e rest ih =>
    obtain ⟨k, v⟩ := e
    by_cases hk : fs.contains k = true
    · rw [filterMap, if_pos hk, filterMap, if_pos hk, ih]
    · rw [filterMap, if_neg hk, ih]

theorem lookup_filterMap (m : List (String × JSON)) (fs : List String) (k : String) :
    (filterMap m fs).lookup k = if fs.contains k = true then m.lookup k else none := by
  induction m with
  | nil => simp [filterMap]
  | cons e rest ih =>
    obtain ⟨k', v⟩ := e
    by_cases hkk : k = k'
    · subst hkk
      by_cases hk : fs.contains k = true
      · rw [filterMap, if_pos hk, if_pos hk]
        simp [List.lookup]
      · rw [filterMap, if_neg hk, ih, if_neg hk, if_neg hk]
    · have hb : (k == k') = false := beq_eq_false_iff_ne.mpr hkk
      by_cases hk' : fs.contains k' = true
      · rw [filterMap, if_pos hk']
        simp only [List.lookup, hb, ih]
      · rw [filterMap, if_neg hk', ih]
        simp only [List.lookup, hb]

theorem unmarshalValue_null_inv (nd : NumberDecoder) (v : JSON)
    (h : unmarshalValue nd v = .ok .null) : v = .null := by
  cases v with
  | null => rfl
  | bool b => rw [unmarshalValue] at h; cases h
  | str s => rw [unmarshalValue] at h; cases h
  | num m e =>
    rw [unmarshalValue] at h
    cases hc : nd.convertNumber m e with
    | error err => rw [hc] at h; cases h
    | ok p => rw [hc] at h; cases h
  | arr items =>
    obtain ⟨xs, _, hj⟩ := unmarshalValue_arr_ok nd items _ h
    cases hj
  | obj entries =>
    obtain ⟨es, _, hj⟩ := unmarshalValue_obj_ok nd entries _ h
    cases hj

theorem null_mem_unmarshalList (nd : NumberDecoder) (a a' : List JSON)
    (h : unmarshalList nd a = .ok a') (hmem : JSON.null ∈ a') : JSON.null ∈ a := by
  induction a generalizing a' with
  | nil =>
    rw [unmarshalList] at h
    cases h
    exact hmem
  | cons x rest ih =>
    obtain ⟨y, ys, hy, hys, rfl⟩ := unmarshalList_cons_ok nd x rest a' h
    rcases List.mem_cons.mp hmem with hnull | hin
    · subst hnull
      rw [unmarshalValue_null_inv nd x hy]
      exact List.mem_cons_self _ _
    · exact List.mem_cons_of_mem _ (ih ys hys hin)

/-- The maps read from an array read back as themselves, also after filtering. -/
theorem unmarshalMapItems_read (nd : NumberDecoder) (fs : List String) (items : List JSON)
    (ms : List (List (String × JSON))) (h : unmarshalMapItems nd items = some ms) :
    List.Forall₂ (fun r r' => unmarshalEntries nd r = .ok r')
      (ms.map (fun r => filterMap r fs)) (ms.map (fun r => filterMap r fs)) := by
  induction items generalizing ms with
  | nil =>
    rw [unmarshalMapItems] at h
    cases h
    exact List.Forall₂.nil
  | cons x rest ih =>
    cases x with
    | bool b => simp [unmarshalMapItems] at h
    | num m e => simp [unmarshalMapItems] at h
    | str s => simp [unmarshalMapItems] at h
    | arr xs => simp [unmarshalMapItems] at h
    | null =>
      rw [unmarshalMapItems] at h
      cases hr : unmarshalMapItems nd rest with
      | none => rw [hr] at h; cases h
      | some ms' =>
        rw [hr] at h
        cases h
        refine List.Forall₂.cons ?_ (ih ms' hr)
        simp [filterMap, unmarshalEntries]
    | obj m =>
      rw [unmarshalMapItems] at h
      cases hm : unmarshalEntries nd m with
      | error err => rw [hm] at h; cases h
      | ok m' =>
        cases hr : unmarshalMapItems nd rest with
        | none => rw [hm, hr] at h; cases h
        | some ms' =>
          rw [hm, hr] at h
          cases h
          exact List.Forall₂.cons
            (unmarshalEntries_filterMap nd m' m' fs (unmarshalEntries_fixed nd m m' hm))
            (ih ms' hr)

/-- A filtered `results` array without `null` element, whose elements read back
as themselves, is left as it is by a second filtering. -/
theorem filterFields_filtered_results (nd : NumberDecoder) (F : String) (hF : F ≠ "")
    (a : List JSON) (hfix : unmarshalList nd a = .ok a) (hnull : JSON.null ∉ a) :
    FilterFields nd (.arr (a.map (fun item =>
        match item with
        | .obj m => JSON.obj (filterMap m (fieldList F))
        | other => other))) F =
      .arr (a.map (fun item =>
        match item with
        | .obj m => JSON.obj (filterMap m (fieldList F))
        | other => other)) := by
  have key : ∀ b : List JSON, unmarshalList nd b = .ok b → JSON.null ∉ b →
      match unmarshalMapItems nd (b.map (fun item =>
        match item with
        | .obj m => JSON.obj (filterMap m (fieldList F))
        | other => other)) with
      | some ms =>
        ms.map (fun item => JSON.obj (filterMap item (fieldList F))) =
          b.map (fun item =>
            match item with
            | .obj m => JSON.obj (filterMap m (fieldList F))
            | other => other)
      | none => True := by
    intro b hbfix hb
    induction b with
    | nil => simp [unmarshalMapItems]
    | cons x rest ih =>
      obtain ⟨y, ys, hy, hys, hcons⟩ := unmarshalList_cons_ok nd x rest _ hbfix
      have hyx : y = x := (List.cons.inj hcons).1.symm
      have hysr : ys = rest := (List.cons.inj hcons).2.symm
      subst hyx
      subst hysr
      have hrest := ih hys (fun h => hb (List.mem_cons_of_mem _ h))
      cases y with
      | null => exact absurd (List.mem_cons_self _ _) hb
      | bool v => simp [unmarshalMapItems]
      | num m e => simp [unmarshalMapItems]
      | str v => simp [unmarshalMapItems]
      | arr items => simp [unmarshalMapItems]
      | obj m =>
        obtain ⟨es, hes, hj⟩ := unmarshalValue_obj_ok nd m _ hy
        have hesm : es = m := (JSON.obj.inj hj).symm
        subst hesm
        have hfm := unmarshalEntries_filterMap nd es es (fieldList F) hes
        simp only [List.map_cons, unmarshalMapItems, hfm]
        cases hu : unmarshalMapItems nd (ys.map (fun item =>
            match item with
            | .obj m => JSON.obj (filterMap m (fieldList F))
            | other => other)) with
        | none => simp
        | some ms =>
          rw [hu] at hrest
          simp only at hrest
          simp [filterMap_idem, hrest]
  have hk := key a hfix hnull
  cases hu : unmarshalMapItems nd (a.map (fun item =>
      match item with
      | .obj m => JSON.obj (filterMap m (fieldList F))
      | other => other)) with
  | none => simp [FilterFields, hF, unmarshalMapSlice, unmarshalMap, hu]
  | some ms =>
    rw [hu] at hk
    simp only at hk
    simp [FilterFields, hF, unmarshalMapSlice, hu, hk]

/-- A filtered object without `results` array is left as it is by a second
filtering. -/
theorem filterFields_filtered_obj (nd : NumberDecoder) (F : String) (hF : F ≠ "")
    (env' : List (String × JSON)) (hfix : unmarshalEntries nd env' = .ok env')
    (hres : ∀ a, env'.lookup "results" ≠ some (JSON.arr a)) :
    FilterFields nd (.obj (filterMap env' (fieldList F))) F =
      .obj (filterMap env' (fieldList F)) := by
  rw [filterFields_obj nd F hF _ _ (unmarshalEntries_filterMap nd env' env' (fieldList F) hfix),
    lookup_filterMap]
  by_cases hc : (fieldList F).contains "results" = true
  · rw [if_pos hc]
    cases hl : env'.lookup "results" with
    | none => simp [filterMap_idem]
    | some v =>
      cases v with
      | arr a => exact absurd hl (hres a)
      | null => simp [filterMap_idem]
      | bool b => simp [filterMap_idem]
      | num m e => simp [filterMap_idem]
      | str s => simp [filterMap_idem]
      | obj m => simp [filterMap_idem]
  · rw [if_neg hc]
    simp [filterMap_idem]

/-- C29, as stated, fails: on `{"results":[null]}` the first application
returns `[null]` and the second turns the `null` into `{}`. -/
theorem filterFields_idempotence_counterexample :
    FilterFields sampleNumbers (.obj [("results", .arr [.null])]) "title" = .arr [.null] ∧
    FilterFields sampleNumbers
        (FilterFields sampleNumbers (.obj [("results", .arr [.null])]) "title") "title" =
      .arr [.obj []] ∧
    FilterFields sampleNumbers
        (FilterFields sampleNumbers (.obj [("results", .arr [.null])]) "title") "title" ≠
      FilterFields sampleNumbers (.obj [("results", .arr [.null])]) "title" := by
  have h₁ : FilterFields sampleNumbers (.obj [("results", .arr [.null])]) "title" =
      .arr [.null] := rfl
  have h₂ : FilterFields sampleNumbers
      (FilterFields sampleNumbers (.obj [("results", .arr [.null])]) "title") "title" =
      .arr [.obj []] := rfl
  refine ⟨h₁, h₂, ?_⟩
  rw [h₂, h₁]
  simp

/-- C29 (amended): `FilterFields` is idempotent for every non-empty field list on
every JSON document other than an object whose `results` array contains a
`null` element (top-level arrays with `null` or other elements, and `results`
arrays with elements that are not objects, included). -/
theorem filterFields_idempotent (nd : NumberDecoder) (d : JSON) (F : String) (hF : F ≠ "")
    (hnn : ∀ env a, d = JSON.obj env → env.lookup "results" = some (JSON.arr a) →
      JSON.null ∉ a) :
    FilterFields nd (FilterFields nd d F) F = FilterFields nd d F := by
  cases d with
  | null => simp [FilterFields, hF, unmarshalMapSlice, unmarshalMapItems]
  | bool b => simp [FilterFields, hF, unmarshalMapSlice, unmarshalMap]
  | num m e => simp [FilterFields, hF, unmarshalMapSlice, unmarshalMap]
  | str s => simp [FilterFields, hF, unmarshalMapSlice, unmarshalMap]
  | arr items =>
    cases hu : unmarshalMapItems nd items with
    | none => simp [FilterFields, hF, unmarshalMapSlice, unmarshalMap, hu]
    | some ms =>
      have h₁ : FilterFields nd (.arr items) F =
          .arr ((ms.map (fun r => filterMap r (fieldList F))).map JSON.obj) := by
        simp [FilterFields, hF, unmarshalMapSlice, hu, List.map_map, Function.comp_def]
      rw [h₁, filterFields_array_of_objects nd F hF _ _
        (unmarshalMapItems_read nd (fieldList F) items ms hu)]
      simp [List.map_map, Function.comp_def, filterMap_idem]
  | obj env =>
    cases hread : unmarshalEntries nd env with
    | error err =>
      rw [filterFields_obj_unread nd F env err hread, filterFields_obj_unread nd F env err hread]
    | ok env' =>
      have hfix := unmarshalEntries_fixed nd env env' hread
      rw [filterFields_obj nd F hF env env' hread]
      cases hres : env'.lookup "results" with
      | none =>
        simp only
        exact filterFields_filtered_obj nd F hF env' hfix (fun a h => by rw [hres] at h; cases h)
      | some v =>
        cases v with
        | arr a' =>
          simp only
          obtain ⟨v₀, hv₀, hw⟩ := lookup_unmarshalEntries_inv nd env env' hread "results" _ hres
          obtain ⟨a, rfl, ha⟩ := unmarshalValue_arr_inv nd v₀ a' hw
          exact filterFields_filtered_results nd F hF a' (unmarshalList_fixed nd a a' ha)
            (fun hmem => hnn env a rfl hv₀ (null_mem_unmarshalList nd a a' ha hmem))
        | null =>
          simp only
          exact filterFields_filtered_obj nd F hF env' hfix
            (fun a h => by rw [hres] at h; cases h)
        | bool b =>
          simp only
          exact filterFields_filtered_obj nd F hF env' hfix
            (fun a h => by rw [hres] at h; cases h)
        | num m e =>
          simp only
          exact filterFields_filtered_obj nd F hF env' hfix
            (fun a h => by rw [hres] at h; cases h)
        | str s =>
          simp only
          exact filterFields_filtered_obj nd F hF env' hfix
            (fun a h => by rw [hres] at h; cases h)
        | obj m =>
          simp only
          exact filterFields_filtered_obj nd F hF env' hfix
            (fun a h => by rw [hres] at h; cases h)

/-- Witness of the amended C29: a `results` array holding an object and a number. -/
theorem filterFields_idempotent_witness :
    FilterFields sampleNumbers
        (FilterFields sampleNumbers
          (.obj [("results", .arr [.obj [("x", .num 1 0)], .num 1 0])]) "y") "y" =
      FilterFields sampleNumbers
        (.obj [("results", .arr [.obj [("x", .num 1 0)], .num 1 0])]) "y" :=
  filterFields_idempotent sampleNumbers _ "y" (by decide) (by
    intro env a hd hres
    have henv : env = [("results", .arr [.obj [("x", .num 1 0)], .num 1 0])] :=
      (JSON.obj.inj hd).symm
    subst henv
    have ha : a = [.obj [("x", .num 1 0)], .num 1 0] := by
      have h2 : (some (JSON.arr [.obj [("x", .num 1 0)], .num 1 0]) : Option JSON) =
          some (JSON.arr a) := hres
      exact (JSON.arr.inj (Option.some.inj h2)).symm
    subst ha
    simp)

theorem filterMap_congr (m : List (String × JSON)) (fs fs₂ : List String)
    (h : ∀ k, k ∈ fs ↔ k ∈ fs₂) : filterMap m fs = filterMap m fs₂ := by
  induction m with
  | nil => rfl
  | cons e rest ih =>
    obtain ⟨k, v⟩ := e
    have hc : fs.contains k = fs₂.contains k := by
      by_cases hk : k ∈ fs
      · have hk2 := (h k).mp hk
        simp [hk, hk2]
      · have hk2 : k ∉ fs₂ := fun h2 => hk ((h k).mpr h2)
        simp [hk, hk2]
    rw [filterMap, filterMap, ih, hc]

/-- C30, as stated, fails: the empty string and a blank both split and trim to
the single empty name, but the empty string switches filtering off while the
blank filters every key away. -/
theorem fieldList_blank_counterexample :
    fieldList "" = [""] ∧ fieldList " " = [""] ∧
    FilterFields sampleNumbers (.obj [("title", .str "A")]) "" = .obj [("title", .str "A")] ∧
    FilterFields sampleNumbers (.obj [("title", .str "A")]) " " = .obj [] ∧
    FilterFields sampleNumbers (.obj [("title", .str "A")]) "" ≠
      FilterFields sampleNumbers (.obj [("title", .str "A")]) " " := by
  have h₁ : FilterFields sampleNumbers (.obj [("title", .str "A")]) "" =
      .obj [("title", .str "A")] := rfl
  have h₂ : FilterFields sampleNumbers (.obj [("title", .str "A")]) " " = .obj [] := rfl
  refine ⟨by decide, by decide, h₁, h₂, ?_⟩
  rw [h₁, h₂]
  simp

/-- C30 (amended): two non-empty field-list strings whose comma-separated names,
trimmed of surrounding white space, are the same names (in any order, with any
repetition) yield the same `FilterFields` result on every document. -/
theorem filterFields_same_names (nd : NumberDecoder) (d : JSON) (F₁ F₂ : String)
    (h₁ : F₁ ≠ "") (h₂ : F₂ ≠ "")
    (hnames : ∀ k, k ∈ fieldList F₁ ↔ k ∈ fieldList F₂) :
    FilterFields nd d F₁ = FilterFields nd d F₂ := by
  have hfm : ∀ m, filterMap m (fieldList F₁) = filterMap m (fieldList F₂) :=
    fun m => filterMap_congr m _ _ hnames
  simp only [FilterFields, h₁, h₂, if_false, hfm]

/-- Witness of the amended C30: `title, url` and `url,title,url` on the scenario response. -/
theorem filterFields_same_names_witness :
    FilterFields sampleNumbers (.obj [("results", .arr (scenarioRecords.map JSON.obj))])
        "title, url" =
      FilterFields sampleNumbers (.obj [("results", .arr (scenarioRecords.map JSON.obj))])
        "url,title,url" :=
  filterFields_same_names sampleNumbers _ "title, url" "url,title,url" (by decide) (by decide) (by
    intro k
    have e₁ : fieldList "title, url" = ["title", "url"] := by decide
    have e₂ : fieldList "url,title,url" = ["url", "title", "url"] := by decide
    rw [e₁, e₂]
    simp only [List.mem_cons, List.mem_singleton, List.not_mem_nil, or_false]
    tauto)

/-! ## Filter expression -/

theorem unmarshalList_objs_of (nd : NumberDecoder) (recs recs' : List (List (String × JSON)))
    (h : List.Forall₂ (fun r r' => unmarshalEntries nd r = .ok r') recs recs') :
    unmarshalList nd (recs.map JSON.obj) = .ok (recs'.map JSON.obj) := by
  induction h with
  | nil => simp [unmarshalList]
  | cons hr _ ih =>
    rw [List.map_cons, List.map_cons]
    exact unmarshalList_cons_of_ok nd _ _ _ _ (by rw [unmarshalValue, hr]) ih

theorem unmarshalList_filtered_results (nd : NumberDecoder) (fs : List String) (a : List JSON)
    (hfix : unmarshalList nd a = .ok a) :
    unmarshalList nd (a.map (fun item =>
        match item with
        | .obj m => JSON.obj (filterMap m fs)
        | other => other)) =
      .ok (a.map (fun item =>
        match item with
        | .obj m => JSON.obj (filterMap m fs)
        | other => other)) := by
  induction a with
  | nil => simp [unmarshalList]
  | cons x rest ih =>
    obtain ⟨y, ys, hy, hys, hcons⟩ := unmarshalList_cons_ok nd x rest _ hfix
    have hyx : y = x := (List.cons.inj hcons).1.symm
    have hysr : ys = rest := (List.cons.inj hcons).2.symm
    subst hyx
    subst hysr
    rw [List.map_cons]
    refine unmarshalList_cons_of_ok nd _ _ _ _ ?_ (ih hys)
    cases y with
    | null => exact hy
    | bool b => exact hy
    | num m e => exact hy
    | str s => exact hy
    | arr items => exact hy
    | obj m =>
      obtain ⟨es, hes, hj⟩ := unmarshalValue_obj_ok nd m _ hy
      have hesm : es = m := (JSON.obj.inj hj).symm
      subst hesm
      show unmarshalValue nd (.obj (filterMap es fs)) = .ok (.obj (filterMap es fs))
      rw [unmarshalValue, unmarshalEntries_filterMap nd es es fs hes]

/-- What `FilterFields` returns reads back as itself, unless it is the document
itself (empty field list, or a document that cannot be read as an array of
objects or as an object). -/
theorem filterFields_read_back (nd : NumberDecoder) (d : JSON) (F : String) :
    unmarshalValue nd (FilterFields nd d F) = .ok (FilterFields nd d F) ∨
      FilterFields nd d F = d := by
  by_cases hF : F = ""
  · right
    simp [FilterFields, hF]
  · cases d with
    | null =>
      left
      simp [FilterFields, hF, unmarshalMapSlice, unmarshalValue, unmarshalList]
    | bool b =>
      right
      simp [FilterFields, hF, unmarshalMapSlice, unmarshalMap]
    | num m e =>
      right
      simp [FilterFields, hF, unmarshalMapSlice, unmarshalMap]
    | str s =>
      right
      simp [FilterFields, hF, unmarshalMapSlice, unmarshalMap]
    | arr items =>
      cases hu : unmarshalMapItems nd items with
      | none =>
        right
        simp [FilterFields, hF, unmarshalMapSlice, unmarshalMap, hu]
      | some ms =>
        left
        have h₁ : FilterFields nd (.arr items) F =
            .arr ((ms.map (fun r => filterMap r (fieldList F))).map JSON.obj) := by
          simp [FilterFields, hF, unmarshalMapSlice, hu, List.map_map, Function.comp_def]
        rw [h₁, unmarshalValue, unmarshalList_objs_of nd _ _
          (unmarshalMapItems_read nd (fieldList F) items ms hu)]
    | obj env =>
      cases hread : unmarshalEntries nd env with
      | error err =>
        right
        exact filterFields_obj_unread nd F env err hread
      | ok env' =>
        left
        have hfix := unmarshalEntries_fixed nd env env' hread
        have hobj : unmarshalValue nd (.obj (filterMap env' (fieldList F))) =
            .ok (.obj (filterMap env' (fieldList F))) := by
          rw [unmarshalValue, unmarshalEntries_filterMap nd env' env' (fieldList F) hfix]
        rw [filterFields_obj nd F hF env env' hread]
        cases hres : env'.lookup "results" with
        | none => exact hobj
        | some v =>
          cases v with
          | null => exact hobj
          | bool b => exact hobj
          | num m e => exact hobj
          | str s => exact hobj
          | obj m => exact hobj
          | arr a' =>
            simp only
            obtain ⟨w, hw, hl⟩ := lookup_unmarshalEntries_some nd env' env' hfix "results" _ hres
            rw [hres] at hl
            have hwa : w = JSON.arr a' := (Option.some.inj hl).symm
            subst hwa
            obtain ⟨xs, hxs, hj⟩ := unmarshalValue_arr_ok nd a' _ hw
            have hxa : xs = a' := (JSON.arr.inj hj).symm
            subst hxa
            rw [unmarshalValue, unmarshalList_filtered_results nd (fieldList F) xs hxs]

theorem jqLoop_spec {V : Type} (marshalIndent : V → Except String String)
    (vals : List (Except String V)) :
    ∃ pre rest, vals = pre ++ rest ∧
      List.Forall₂ (fun x out => ∃ v, x = Except.ok v ∧ marshalIndent v = Except.ok out)
        pre (jqLoop marshalIndent vals).stdout ∧
      ((rest = [] ∧ (jqLoop marshalIndent vals).err = none) ∨
       (∃ e tail, rest = Except.error e :: tail ∧
          (jqLoop marshalIndent vals).err = some ("jq error: " ++ e)) ∨
       (∃ v e tail, rest = Except.ok v :: tail ∧ marshalIndent v = Except.error e ∧
          (jqLoop marshalIndent vals).err = some ("marshal jq result: " ++ e))) := by
  induction vals with
  | nil => exact ⟨[], [], rfl, List.Forall₂.nil, Or.inl ⟨rfl, rfl⟩⟩
  | cons x xs ih =>
    cases x with
    | error e =>
      exact ⟨[], Except.error e :: xs, rfl, List.Forall₂.nil,
        Or.inr (Or.inl ⟨e, xs, rfl, rfl⟩)⟩
    | ok v =>
      cases hm : marshalIndent v with
      | error e =>
        refine ⟨[], Except.ok v :: xs, rfl, ?_, Or.inr (Or.inr ⟨v, e, xs, rfl, hm, ?_⟩)⟩
        · simp [jqLoop, hm]
        · simp [jqLoop, hm]
      | ok out =>
        obtain ⟨pre, rest, hsplit, hall, hend⟩ := ih
        refine ⟨Except.ok v :: pre, rest, by rw [hsplit]; rfl, ?_, ?_⟩
        · simp only [jqLoop, hm]
          exact List.Forall₂.cons ⟨v, rfl, hm⟩ hall
        · simpa only [jqLoop, hm] using hend

/-- C28, as stated, fails: for the expression `1, nan, 2` the evaluation yields
three values and no error, but only the first is emitted: the encoder rejects
NaN, which ends the output with an error before the value 2 is reached. -/
theorem jq_emission_counterexample :
    sampleEngine.run "1, nan, 2" (FilterFields sampleNumbers (.obj [("answer", .str "x")]) "") =
      [.ok (some (.num 1 0)), .ok none, .ok (some (.num 2 0))] ∧
    renderJSONOutput sampleNumbers sampleEngine (fun _ => .ok "")
        (.obj [("answer", .str "x")]) { Mode := .ModeJSON, JQ := "1, nan, 2" } =
      ⟨["1"], some "marshal jq result: json: unsupported value: NaN"⟩ ∧
    (renderJSONOutput sampleNumbers sampleEngine (fun _ => .ok "")
        (.obj [("answer", .str "x")]) { Mode := .ModeJSON, JQ := "1, nan, 2" }).stdout.length ≠
      (sampleEngine.run "1, nan, 2"
        (FilterFields sampleNumbers (.obj [("answer", .str "x")]) "")).length := by
  refine ⟨rfl, rfl, ?_⟩
  show (1 : Nat) ≠ 3
  decide

/-- C28 (amended): for a non-empty filter expression that parses,
`renderJSONOutput` reads `FilterFields d F` back through the JSON round trip.
When a number of it is outside the `float64` range the expression is not
evaluated, nothing is emitted and the error `unmarshal for jq` is returned.
Otherwise the expression is evaluated on exactly the value read back and on
nothing else; that value is `FilterFields d F` itself unless `FilterFields`
returned the document `d` itself (as it does for the empty field list), in
which case it is `d` with every number read as a `float64`.  The values the
evaluation yields are emitted in evaluation order up to the first evaluation
error or the first value that `json.MarshalIndent` cannot render, either of
which stops the emission of any further value and is returned as the error;
without such a value every yielded value is emitted and no error is returned. -/
theorem renderJSONOutput_jq {Q V : Type} (nd : NumberDecoder) (eng : JQEngine Q V)
    (marshalDoc : JSON → Except String String) (d : JSON) (opts : Options) (q : Q)
    (hjq : opts.JQ ≠ "") (hparse : eng.parse opts.JQ = .ok q) :
    (∀ e, unmarshalValue nd (FilterFields nd d opts.Fields) = .error e →
      renderJSONOutput nd eng marshalDoc d opts = ⟨[], some ("unmarshal for jq: " ++ e)⟩) ∧
    (∀ input, unmarshalValue nd (FilterFields nd d opts.Fields) = .ok input →
      (input = FilterFields nd d opts.Fields ∨ FilterFields nd d opts.Fields = d) ∧
      renderJSONOutput nd eng marshalDoc d opts =
        jqLoop eng.marshalIndent (eng.run q input) ∧
      ∃ pre rest, eng.run q input = pre ++ rest ∧
        List.Forall₂ (fun x out => ∃ v, x = Except.ok v ∧ eng.marshalIndent v = Except.ok out)
          pre (renderJSONOutput nd eng marshalDoc d opts).stdout ∧
        ((rest = [] ∧ (renderJSONOutput nd eng marshalDoc d opts).err = none) ∨
         (∃ e tail, rest = Except.error e :: tail ∧
            (renderJSONOutput nd eng marshalDoc d opts).err = some ("jq error: " ++ e)) ∨
         (∃ v e tail, rest = Except.ok v :: tail ∧ eng.marshalIndent v = Except.error e ∧
            (renderJSONOutput nd eng marshalDoc d opts).err =
              some ("marshal jq result: " ++ e)))) := by
  constructor
  · intro e he
    simp [renderJSONOutput, hjq, RunJQ, hparse, he]
  · intro input hin
    have h : renderJSONOutput nd eng marshalDoc d opts =
        jqLoop eng.marshalIndent (eng.run q input) := by
      simp [renderJSONOutput, hjq, RunJQ, hparse, hin]
    refine ⟨?_, h, ?_⟩
    · rcases filterFields_read_back nd d opts.Fields with hfix | hsame
      · rw [hin] at hfix
        exact Or.inl (Except.ok.inj hfix)
      · exact Or.inr hsame
    · rw [h]
      exact jqLoop_spec eng.marshalIndent _

/-- Witness of the amended C28: the expression `.` on the scenario response
filtered with `title,url` is evaluated on the filtered array; on a context
response whose raw `costDollars` holds `1e400` it is not evaluated. -/
theorem renderJSONOutput_jq_witness :
    renderJSONOutput sampleNumbers sampleEngine (fun _ => .ok "")
        (.obj [("results", .arr (scenarioRecords.map JSON.obj))])
        { Mode := .ModeJSON, Fields := "title,url", JQ := "." } =
      jqLoop sampleEngine.marshalIndent (sampleEngine.run "."
        (FilterFields sampleNumbers
          (.obj [("results", .arr (scenarioRecords.map JSON.obj))]) "title,url")) ∧
    renderJSONOutput sampleNumbers sampleEngine (fun _ => .ok "")
        (.obj [("response", .str "text"), ("costDollars", .obj [("total", .num 1 400)])])
        { Mode := .ModeJSON, JQ := "." } =
      ⟨[], some ("unmarshal for jq: " ++
        "json: cannot unmarshal number 1e400 into Go value of type float64")⟩ :=
  ⟨((renderJSONOutput_jq sampleNumbers sampleEngine (fun _ => .ok "")
      (.obj [("results", .arr (scenarioRecords.map JSON.obj))])
      { Mode := .ModeJSON, Fields := "title,url", JQ := "." } "." (by decide) rfl).2
      (FilterFields sampleNumbers
        (.obj [("results", .arr (scenarioRecords.map JSON.obj))]) "title,url") rfl).2.1,
   (renderJSONOutput_jq sampleNumbers sampleEngine (fun _ => .ok "")
      (.obj [("response", .str "text"), ("costDollars", .obj [("total", .num 1 400)])])
      { Mode := .ModeJSON, JQ := "." } "." (by decide) rfl).1
      "json: cannot unmarshal number 1e400 into Go value of type float64" rfl⟩

end ExaCli
